import Mathlib

/-!
Verification development for the cymod repository.

The repository ingests hand-written Cypher query files and tabular transition
tables and produces an ordered stream of parameterized query statements.  This
file gives a shallow embedding of the relevant code paths:

* `cymod/cyproc.py` — comment stripping, leading-parameter-block extraction,
  statement splitting, placeholder resolution (`CypherFile` and helpers);
* `cymod/load.py` — the `GraphLoader` orchestrator (`iterqueries`,
  `_get_sorted_cypher_files`) and the stack consumption in
  `ServerGraphLoader.load_cypher`;
* `cymod/cybase.py` — `CypherQuerySource` validation;
* `cymod/tabproc.py` — `TransTableProcessor` row-to-query generation and
  global-parameter injection.

Machine integers are embedded as `Int`/`Nat`; Python strings as `String`
manipulated through their `List Char` data; Python exceptions as
`Except PyErr`; JSON-ish dynamic values as the closed sum `PyVal`.
File-system access (reading a file, walking a directory) is out of scope of
the core and is modelled by passing file contents directly.
-/

set_option maxRecDepth 10000

deriving instance DecidableEq for Except

namespace Cymod

/-- Python-level runtime errors raised by the embedded code paths. -/
inductive PyErr where
  | keyError (msg : String)
  | typeError (msg : String)
  | attributeError (msg : String)
  | valueError (msg : String)
  | jsonDecodeError
  deriving DecidableEq, Repr, Inhabited

/-- Dynamic JSON-shaped values as used for Cypher parameters: the scalar kinds
actually used by the repository (strings, integers, booleans, null). -/
inductive PyVal where
  | vNull
  | vBool (b : Bool)
  | vInt (n : Int)
  | vStr (s : String)
  deriving DecidableEq, Repr, Inhabited

/-- Python truthiness of a `PyVal` (`bool(v)`): `None`, `False`, `0` and `""`
are falsy, everything else truthy. -/
def truthy : PyVal → Bool
  | .vNull => false
  | .vBool b => b
  | .vInt n => n != 0
  | .vStr s => s != ""

/-- Insertion-ordered string-keyed mapping, the embedding of a Python `dict`
holding Cypher parameters. -/
abbrev ParamMap := List (String × PyVal)

/-- Update-or-append insertion with Python `dict` semantics: assigning to an
existing key updates its value in place (keeping its position), a new key is
appended at the end. -/
def dictInsert (m : ParamMap) (k : String) (v : PyVal) : ParamMap :=
  match m with
  | [] => [(k, v)]
  | (k', v') :: rest =>
      if k' = k then (k', v) :: rest else (k', v') :: dictInsert rest k v

/-- Deletion with Python `dict` semantics (`del m[k]`); on the nodup key lists
produced by parsing this removes exactly the entry for `k`. -/
def dictErase (m : ParamMap) (k : String) : ParamMap :=
  m.filter (fun p => p.1 != k)

/-- Python whitespace (the characters stripped by `str.lstrip()` and matched
by the regex class `\s`). -/
def isPySpace (c : Char) : Bool :=
  c == ' ' || c == '\t' || c == '\n' || c == '\r' || c == '\x0b' || c == '\x0c'

/-- Split a character list on a single separator character, with Python
`str.split(sep)` semantics for a one-character `sep`: `"a;" ↦ ["a", ""]`,
`"" ↦ [""]`. -/
def splitOnCharAux (sep : Char) (acc : List Char) : List Char → List (List Char)
  | [] => [acc.reverse]
  | c :: rest =>
      if c = sep then acc.reverse :: splitOnCharAux sep [] rest
      else splitOnCharAux sep (c :: acc) rest

/-- Entry point of `splitOnCharAux` with an empty accumulator. -/
def splitOnChar (sep : Char) (l : List Char) : List (List Char) :=
  splitOnCharAux sep [] l

/-- Join character lists with a separator list (Python `sep.join(parts)`). -/
def joinChars (sep : List Char) : List (List Char) → List Char
  | [] => []
  | [p] => p
  | p :: rest => p ++ sep ++ joinChars sep rest

/-- The part of a line before its first `//` comment marker
(`l.split('//')[0]`); the whole line when no marker occurs. -/
def beforeComment : List Char → List Char
  | [] => []
  | '/' :: '/' :: _ => []
  | c :: rest => c :: beforeComment rest

/-- Embedding of `CypherFile._remove_comments_and_newlines`: drop every line
whose first two characters are `//`, truncate remaining lines at their first
`//`, and join all surviving lines with a single space. -/
def removeCommentsAndNewlines (contents : String) : String :=
  let ls := (splitOnChar '\n' contents.data).filter
    (fun l => !(("//".data).isPrefixOf l))
  (joinChars [' '] (ls.map beforeComment)).asString

/-- Character class of the placeholder-name regex in
`CypherFile._match_params_to_statement`, which is `[a-zA-Z1-9]`: ASCII
letters and the digits `1`–`9` — the digit `0` is not included. -/
def isPhChar (c : Char) : Bool :=
  ('a' ≤ c && c ≤ 'z') || ('A' ≤ c && c ≤ 'Z') || ('1' ≤ c && c ≤ '9')

/-- Fuelled scan implementing `re.finditer(r"(\$)([a-zA-Z1-9]*)", statement)`:
at each `$` the (possibly empty) greedy run of `isPhChar` characters is the
captured name, and scanning resumes after the match. -/
def scanPh : Nat → List Char → List String
  | 0, _ => []
  | _ + 1, [] => []
  | fuel + 1, c :: rest =>
      if c = '$' then
        (rest.takeWhile isPhChar).asString :: scanPh fuel (rest.dropWhile isPhChar)
      else scanPh fuel rest

/-- Placeholder names occurring in a statement, in first-seen order (with
repeats for repeated occurrences, as `finditer` yields them). -/
def scanPlaceholders (statement : String) : List String :=
  scanPh statement.data.length statement.data

/-- Embedding of `CypherFile._match_params_to_statement`: build the mapping
from every scanned placeholder name to the file-parameter value, or the
explicit `None` marker when the name is absent from the file parameters;
return no mapping at all when no placeholder occurs.  When the file has no
parameter mapping (`all_params is None`) and at least one placeholder is
found, the Python code evaluates `None.keys()` and raises `AttributeError`. -/
def matchParamsToStatement (statement : String) (allParams : Option ParamMap) :
    Except PyErr (Option ParamMap) :=
  match scanPlaceholders statement with
  | [] => .ok none
  | names =>
      match allParams with
      | none => .error (.attributeError "NoneType object has no attribute keys")
      | some ps =>
          .ok (some (names.foldl
            (fun acc n => dictInsert acc n ((List.lookup n ps).getD .vNull)) []))

/-- Python `str.lstrip()`. -/
def pyLstrip (s : String) : String :=
  (s.data.dropWhile isPySpace).asString

/-- Embedding of the statement split in `CypherFile._parse_queries`: split the
remainder text on `;`, keep only fragments that still contain something after
removing the space character (`q.replace(' ', '')`), left-strip each kept
fragment and re-append the terminator. -/
def splitStatements (queries : String) : List String :=
  ((splitOnChar ';' queries.data).filter
      (fun q => q.any (fun c => c != ' '))).map
    (fun q => pyLstrip q.asString ++ ";")

/-- Body of a JSON string after its opening quote: the decoded characters and
the remainder after the closing quote.  Supports the escapes used by the
repository's parameter blocks. -/
def jsonStrAux : List Char → Option (List Char × List Char)
  | [] => none
  | '"' :: rest => some ([], rest)
  | '\\' :: c :: rest =>
      let dec : Option Char :=
        if c = '"' then some '"'
        else if c = '\\' then some '\\'
        else if c = '/' then some '/'
        else if c = 'n' then some '\n'
        else if c = 't' then some '\t'
        else if c = 'r' then some '\r'
        else none
      match dec with
      | none => none
      | some d => (jsonStrAux rest).map (fun p => (d :: p.1, p.2))
  | c :: rest => (jsonStrAux rest).map (fun p => (c :: p.1, p.2))

/-- Decimal value of a digit run. -/
def digitsToNat (ds : List Char) : Nat :=
  ds.foldl (fun a c => a * 10 + (c.toNat - '0'.toNat)) 0

/-- Parse one JSON scalar value.  This models the `json.loads` values the
repository actually uses (strings, integers, booleans, null); a float or
nested structure makes the model parser fail where Python would succeed,
which is outside the value model of this development. -/
def jsonVal (l : List Char) : Option (PyVal × List Char) :=
  match l with
  | '"' :: rest => (jsonStrAux rest).map (fun p => (.vStr p.1.asString, p.2))
  | 't' :: 'r' :: 'u' :: 'e' :: rest => some (.vBool true, rest)
  | 'f' :: 'a' :: 'l' :: 's' :: 'e' :: rest => some (.vBool false, rest)
  | 'n' :: 'u' :: 'l' :: 'l' :: rest => some (.vNull, rest)
  | '-' :: rest =>
      let ds := rest.takeWhile Char.isDigit
      let tail := rest.dropWhile Char.isDigit
      if ds.isEmpty then none
      else if tail.head? = some '.' || tail.head? = some 'e' || tail.head? = some 'E' then none
      else some (.vInt (-(digitsToNat ds : Int)), tail)
  | c :: rest =>
      if c.isDigit then
        let ds := (c :: rest).takeWhile Char.isDigit
        let tail := (c :: rest).dropWhile Char.isDigit
        if tail.head? = some '.' || tail.head? = some 'e' || tail.head? = some 'E' then none
        else some (.vInt (digitsToNat ds : Int), tail)
      else none
  | [] => none

/-- Parse the `"key": value` pairs of a flat JSON object, starting right
after the opening brace (or after a comma), accumulating with `dict`
semantics.  Returns the mapping and the remainder after the closing brace. -/
def jsonPairs : Nat → ParamMap → List Char → Option (ParamMap × List Char)
  | 0, _, _ => none
  | fuel + 1, acc, l =>
      match (l.dropWhile isPySpace) with
      | '"' :: rest =>
          match jsonStrAux rest with
          | none => none
          | some (key, afterKey) =>
              match afterKey.dropWhile isPySpace with
              | ':' :: afterColon =>
                  match jsonVal (afterColon.dropWhile isPySpace) with
                  | none => none
                  | some (v, afterVal) =>
                      let acc := dictInsert acc key.asString v
                      match afterVal.dropWhile isPySpace with
                      | ',' :: more => jsonPairs fuel acc more
                      | '}' :: tail => some (acc, tail)
                      | _ => none
              | _ => none
      | _ => none

/-- Embedding of `json.loads` restricted to flat objects of scalar values
(the shape of the repository's leading parameter blocks): `none` models the
`json.JSONDecodeError` raised on text that is not a single valid object. -/
def jsonLoads (s : String) : Option ParamMap :=
  match s.data.dropWhile isPySpace with
  | '{' :: rest =>
      match rest.dropWhile isPySpace with
      | '}' :: tail => if (tail.dropWhile isPySpace).isEmpty then some [] else none
      | _ =>
          match jsonPairs (rest.length + 1) [] rest with
          | none => none
          | some (obj, tail) =>
              if (tail.dropWhile isPySpace).isEmpty then some obj else none
  | _ => none

/-- The clauses which can legally start a Cypher query
(`CypherFile.query_start_clauses`). -/
def clauseList : List String := ["START", "MATCH", "MERGE", "CREATE"]

/-- Index of the leading `{` after optional whitespace, when the text starts
that way; `none` otherwise.  The anchored pattern
`\s*\{[\s\S]*\}\s*CLAUSE` can only match when this succeeds. -/
def leadingBraceIdx (l : List Char) : Option Nat :=
  let ws := (l.takeWhile isPySpace).length
  match l.drop ws with
  | '{' :: _ => some ws
  | _ => none

/-- All candidate values of `params_end` for one clause: positions `j` such
that some `}` at position `k` is followed by whitespace and the clause
keyword starting at `j`.  The greedy `[\s\S]*` of the Python pattern selects
the last such candidate. -/
def kwCandidates (clause : List Char) (l : List Char) : List Nat :=
  (l.tails.enum).filterMap (fun kt =>
    match kt.2 with
    | '}' :: rest =>
        let w := (rest.takeWhile isPySpace).length
        if clause.isPrefixOf (rest.drop w) then some (kt.1 + 1 + w) else none
    | _ => none)

/-- Embedding of `p.match(dat)` for the pattern
`\s*\{[\s\S]*\}\s*CLAUSE` used by `CypherFile._extract_parameters`: the value
returned is `params_end`, the index where the clause keyword starts. -/
def kwMatch (clause : List Char) (l : List Char) : Option Nat :=
  match leadingBraceIdx l with
  | none => none
  | some _ => (kwCandidates clause l).getLast?

/-- The winning `params_end` over the four start clauses: the Python loop
overwrites `params`/`queries` for each matching pattern, so the last clause
in `query_start_clauses` that matches wins. -/
def kwExtract (l : List Char) : Option Nat :=
  (clauseList.filterMap (fun cl => kwMatch cl.data l)).getLast?

/-- Provenance record for a query (`cybase.CypherQuerySource` /
`cyproc.CypherQuerySource`). -/
structure CypherQuerySource where
  ref : String
  refType : String
  index : Nat
  deriving DecidableEq, Repr, Inhabited

/-- Embedding of `CypherQuerySource.__init__`, whose `ref_type` property
setter validates the source kind at construction. -/
def mkCypherQuerySource (ref refType : String) (index : Nat) :
    Except PyErr CypherQuerySource :=
  if refType = "cypher" ∨ refType = "tabular" then .ok ⟨ref, refType, index⟩
  else .error (.valueError
    "CypherQuerySource.ref_type must be either 'cypher' or 'tabular'")

/-- Container for an individual Cypher query (`CypherQuery`). -/
structure CypherQuery where
  statement : String
  params : Option ParamMap
  source : Option CypherQuerySource
  deriving DecidableEq, Repr, Inhabited

/-- Parsed state of a `CypherFile`.  `priority` is the raw value the
constructor and `_extract_parameters` leave in `self.priority` (initialised
to the integer `0`, overwritten with the JSON value of a `priority` key when
one is present).  `prioritySpecified` records whether that overwrite
happened; the Python object stores this only implicitly, and the field is
read only by the spec-modelled `iterfilesSorted` below. -/
structure CypherFile where
  filename : String
  priority : PyVal
  prioritySpecified : Bool
  params : Option ParamMap
  queries : List CypherQuery
  deriving DecidableEq, Repr, Inhabited

/-- Embedding of `CypherFile._extract_parameters` applied to raw file
contents: returns the file parameters (with the `priority` key removed), the
remaining query text, the resulting `self.priority` value and whether a
priority key was present.  A matched prefix that is not valid JSON raises
(`json.JSONDecodeError` is not caught by the source). -/
def extractParametersDat (dat : String) :
    Except PyErr (Option ParamMap × String × PyVal × Bool) :=
  match kwExtract dat.data with
  | none => .ok (none, dat, .vInt 0, false)
  | some j =>
      match jsonLoads (dat.data.take j).asString with
      | none => .error .jsonDecodeError
      | some obj =>
          match List.lookup "priority" obj with
          | some v => .ok (some (dictErase obj "priority"),
              (dat.data.drop j).asString, v, true)
          | none => .ok (some obj, (dat.data.drop j).asString, .vInt 0, false)

/-- The extraction applied to raw file contents, after comment stripping. -/
def extractParameters (contents : String) :
    Except PyErr (Option ParamMap × String × PyVal × Bool) :=
  extractParametersDat (removeCommentsAndNewlines contents)

/-- The query-construction loop of `CypherFile._parse_queries`: each
statement is paired with its per-statement parameters and a
`CypherQuerySource` carrying the statement ordinal. -/
def buildQueries (filename : String) (fileParams : Option ParamMap) :
    Nat → List String → Except PyErr (List CypherQuery)
  | _, [] => .ok []
  | i, s :: rest => do
      let ps ← matchParamsToStatement s fileParams
      let src ← mkCypherQuerySource filename "cypher" i
      let qs ← buildQueries filename fileParams (i + 1) rest
      .ok (⟨s, ps, some src⟩ :: qs)

/-- Embedding of `CypherFile.__init__`, which eagerly runs
`_parse_queries`: extract the leading parameter block, split the remainder
into statements, and resolve per-statement parameters. -/
def parseCypherFile (filename contents : String) : Except PyErr CypherFile := do
  let (ps, queriesStr, prio, prioSpec) ← extractParameters contents
  let qs ← buildQueries filename ps 0 (splitStatements queriesStr)
  .ok ⟨filename, prio, prioSpec, ps, qs⟩

/-- Python `isinstance(v, int)` on a `PyVal`; note that Python booleans are
instances of `int`. -/
def pyIsInstanceInt : PyVal → Bool
  | .vInt _ => true
  | .vBool _ => true
  | _ => false

/-- The integer a `PyVal` stands for where `pyIsInstanceInt` holds
(`True == 1`, `False == 0`). -/
def pyIntVal : PyVal → Int
  | .vInt n => n
  | .vBool b => if b then 1 else 0
  | _ => 0

/-- Embedding of `get_priority_number` inside
`GraphLoader._get_sorted_cypher_files`: the file's priority when it is an
`int`, otherwise the `max_priority` sentinel. -/
def getPriorityNumber (cf : CypherFile) (maxPriority : Int) : Int :=
  if pyIsInstanceInt cf.priority then pyIntVal cf.priority else maxPriority

/-- Stable insertion of one file into a descending-by-key list: equal keys
keep the earlier element first, matching Python's stable
`sorted(..., reverse=True)`. -/
def insertDescBy (key : CypherFile → Int) (x : CypherFile) :
    List CypherFile → List CypherFile
  | [] => [x]
  | y :: ys => if key y ≤ key x then x :: y :: ys else y :: insertDescBy key x ys

/-- Stable descending sort by key (the behaviour of
`sorted(files, key=..., reverse=True)`). -/
def sortDescBy (key : CypherFile → Int) (l : List CypherFile) : List CypherFile :=
  l.foldr (insertDescBy key) []

/-- Embedding of `GraphLoader._get_sorted_cypher_files`: sort descending by
`get_priority_number` with the sentinel set to the number of files. -/
def getSortedCypherFiles (files : List CypherFile) : List CypherFile :=
  sortDescBy (fun f => getPriorityNumber f (files.length : Int)) files

/-- Consumption order of the sorted list when used as a stack, as in
`ServerGraphLoader.load_cypher` (`files.pop()` from the end of the sorted
list until empty). -/
def stackLoadOrder (files : List CypherFile) : List CypherFile :=
  (getSortedCypherFiles files).reverse

/-- Modelled from the spec: `CypherFileFinder.iterfiles(priority_sorted=True)`
is imported by `cymod/load.py` from `cymod.cyproc` but the class is absent
from the sources; §4.7 of the spec prescribes a descending-priority load
order (highest first) in which a file with no explicit integer priority is
assigned a sentinel equal to the total file count of the job. -/
def iterfilesSorted (files : List CypherFile) : List CypherFile :=
  sortDescBy
    (fun f =>
      if f.prioritySpecified && pyIsInstanceInt f.priority then pyIntVal f.priority
      else (files.length : Int))
    files

/-- One registered load job of the orchestrator's queue: a directory scan
(`load_cypher` without `global_params` appends the bare `CypherFileFinder`)
or a directory scan paired with extra global parameters (`load_cypher` with
`global_params` appends a `{"file_finder": ..., "global_params": ...}`
dict).  The finder is represented by its discovered `(filename, contents)`
pairs; directory traversal is out of scope of the core. -/
inductive LoadJob where
  | plain (files : List (String × String))
  | withGlobals (files : List (String × String)) (globalParams : ParamMap)
  deriving DecidableEq, Repr, Inhabited

/-- Parse every discovered file, propagating the first exception
(`CypherFile.__init__` parses eagerly when the finder materialises files). -/
def parseFiles : List (String × String) → Except PyErr (List CypherFile)
  | [] => .ok []
  | (name, contents) :: rest => do
      let cf ← parseCypherFile name contents
      let cfs ← parseFiles rest
      .ok (cf :: cfs)

/-- The default textual form of a `CypherQuery` interpolated by
`str(query)` in the `iterqueries` error message: neither `cyproc.CypherQuery`
nor `cybase.CypherQuery` defines `__repr__`/`__str__`, so the text is the
generic type-and-address form, which carries nothing of the statement or
parameters; the runtime address is abstracted to `0x0`. -/
def pyQueryReprToken : String := "<cymod.cyproc.CypherQuery object at 0x0>"

/-- The message of the `KeyError` raised by `GraphLoader.iterqueries` when a
query still has an unresolved parameter after the global-parameter lookup. -/
def kErrMsg : String :=
  "The following query requires a parameter not given in its originating " ++
  "Cypher file, nor in the provided global parameters:\n" ++ pyQueryReprToken

/-- The per-key loop of the dict branch of `iterqueries`: each name in
`unspecified_native_params` is looked up in the job's global parameters and
written back into the query's parameter dict; a missing name raises the
`KeyError` above. -/
def globalResolveAux (g : ParamMap) : ParamMap → List String → Except PyErr ParamMap
  | acc, [] => .ok acc
  | acc, k :: ks =>
      match List.lookup k g with
      | some v => globalResolveAux g (dictInsert acc k v) ks
      | none => .error (.keyError kErrMsg)

/-- Job-level global-parameter resolution for one query's parameter dict:
`unspecified_native_params = [k for k in query.params if not query.params[k]]`
collects every key whose value is falsy, then each is resolved from the
global parameters. -/
def globalResolve (params : ParamMap) (g : ParamMap) : Except PyErr ParamMap :=
  globalResolveAux g params ((params.filter (fun p => !truthy p.2)).map (·.1))

/-- Global-parameter resolution applied to one query.  A query whose
`params` is `None` (a statement with no placeholders) makes the Python list
comprehension iterate over `None` and raise `TypeError`. -/
def processQueryGlobal (q : CypherQuery) (g : ParamMap) : Except PyErr ParamMap :=
  match q.params with
  | none => .error (.typeError "argument of type NoneType is not iterable")
  | some ps => globalResolve ps g

/-- Sequential processing of a file's queries in the dict branch of
`iterqueries`; the results are discarded because that branch never yields. -/
def processQueriesGlobal (g : ParamMap) : List CypherQuery → Except PyErr Unit
  | [] => .ok ()
  | q :: qs => do
      let _ ← processQueryGlobal q g
      processQueriesGlobal g qs

/-- Sequential processing of a job's files in the dict branch. -/
def processFilesGlobal (g : ParamMap) : List CypherFile → Except PyErr Unit
  | [] => .ok ()
  | f :: fs => do
      let _ ← processQueriesGlobal g f.queries
      processFilesGlobal g fs

/-- Embedding of one iteration of the job loop of `GraphLoader.iterqueries`.
The plain branch yields every query of every (priority-sorted) file; the
dict branch resolves global parameters — raising on unresolved ones — but
contains no `yield` statement, so it contributes no queries. -/
def processJob : LoadJob → Except PyErr (List CypherQuery)
  | .plain files => do
      let fs ← parseFiles files
      .ok ((iterfilesSorted fs).foldr (fun f acc => f.queries ++ acc) [])
  | .withGlobals files g => do
      let fs ← parseFiles files
      let _ ← processFilesGlobal g (iterfilesSorted fs)
      .ok []

/-- Result of a full traversal of the lazy iterator returned by
`GraphLoader.iterqueries()`: either every yielded query in order followed by
exhaustion (`StopIteration`), or the exception the traversal hits. -/
def iterqueriesList : List LoadJob → Except PyErr (List CypherQuery)
  | [] => .ok []
  | j :: js => do
      let qs ← processJob j
      let rest ← iterqueriesList js
      .ok (qs ++ rest)

/-- Substring test (`pat in l` on Python strings): some suffix of `l` starts
with `pat`. -/
def containsSeq (pat : List Char) : List Char → Bool
  | [] => pat.isEmpty
  | c :: rest => pat.isPrefixOf (c :: rest) || containsSeq pat rest

/-- Decimal digit character. -/
def digitChar : Nat → Char
  | 0 => '0' | 1 => '1' | 2 => '2' | 3 => '3' | 4 => '4'
  | 5 => '5' | 6 => '6' | 7 => '7' | 8 => '8' | 9 => '9'
  | _ => '*'

/-- Fuelled most-significant-first decimal digits of a natural number. -/
def natReprAux : Nat → Nat → List Char
  | 0, _ => []
  | fuel + 1, n =>
      if n < 10 then [digitChar n]
      else natReprAux fuel (n / 10) ++ [digitChar (n % 10)]

/-- Decimal representation of a natural number. -/
def natRepr (n : Nat) : List Char :=
  natReprAux (n + 1) n

/-- Python `str()` of an integer: decimal digits with a leading `-` for
negative values. -/
def pyIntRepr (n : Int) : String :=
  if n < 0 then ("-" ++ (natRepr n.natAbs).asString) else (natRepr n.toNat).asString

/-- Cell values of a tabular source, per the contracted kinds of the
external interface (string, numeric, boolean). -/
inductive CellVal where
  | cStr (s : String)
  | cInt (n : Int)
  | cBool (b : Bool)
  deriving DecidableEq, Repr, Inhabited

/-- One row of a tabular source as named-column cells in column order (the
order `pandas.Series.iteritems` visits after `DataFrame.iterrows`). -/
abbrev Row := List (String × CellVal)

/-- The value rendering of `_conditions_str` in
`TransTableProcessor._row_to_query_statement_string`: strings double-quoted,
booleans as `str(val).lower()`, anything else as `str(val)`. -/
def cellRender : CellVal → String
  | .cStr s => "\"" ++ s ++ "\""
  | .cBool b => if b then "true" else "false"
  | .cInt n => pyIntRepr n

/-- Python `str()` of a cell as interpolated by the `.format` templates for
the start/end state codes. -/
def cellFmt : CellVal → String
  | .cStr s => s
  | .cBool b => if b then "True" else "False"
  | .cInt n => pyIntRepr n

/-- The accumulation loop of `_conditions_str`: `n` is `len(row)` of the
dropped row, `count` the running counter controlling the `", "` separator
(appended after every property except the last). -/
def condLoop (n : Nat) : Nat → Row → String
  | _, [] => ""
  | count, (k, v) :: rest =>
      k ++ ":" ++ cellRender v ++ (if count < n - 1 then ", " else "")
        ++ condLoop n (count + 1) rest

/-- The loop of `_conditions_str` started on the dropped row. -/
def condCore (cells : Row) : String :=
  condLoop cells.length 0 cells

/-- Clean comma-joined rendering of `key:value` pairs in list order, the
specification-style characterization the loop is proved equal to. -/
def renderPairsJoin : Row → String
  | [] => ""
  | [p] => p.1 ++ ":" ++ cellRender p.2
  | p :: rest => p.1 ++ ":" ++ cellRender p.2 ++ ", " ++ renderPairsJoin rest

/-- Embedding of `pandas.Series.drop([l1, l2])`: removes the cells labelled
`l1` and `l2`, raising a `KeyError` when either label is absent. -/
def seriesDrop (row : Row) (l1 l2 : String) : Except PyErr Row :=
  if row.any (fun p => p.1 == l1) && row.any (fun p => p.1 == l2) then
    .ok (row.filter (fun p => p.1 != l1 && p.1 != l2))
  else .error (.keyError "labels not contained in axis")

/-- Embedding of `_conditions_str`: the dropped row's properties rendered by
the counter loop, wrapped in braces. -/
def conditionsStr (row : Row) (startCol endCol : String) : Except PyErr String := do
  let cells ← seriesDrop row startCol endCol
  .ok ("\x7b" ++ condCore cells ++ "\x7d")

/-- Embedding of `row[col]` (`KeyError` when the column is absent). -/
def rowLookup (row : Row) (col : String) : Except PyErr CellVal :=
  match List.lookup col row with
  | some v => .ok v
  | none => .error (.keyError col)

/-- Modelled from the spec: `CustomLabels` lives in `cymod/customise.py`,
which is absent from src/; per §3 it is a three-slot configuration of
state/transition/condition label overrides with enumerated defaults. -/
structure CustomLabels where
  state : String := "State"
  transition : String := "Transition"
  condition : String := "Condition"
  deriving DecidableEq, Repr, Inhabited

/-- Embedding of `TransTableProcessor._row_to_query_statement_string` before
the optional global-parameter step: the four-node/three-edge `MERGE`
skeleton built from the row's start/end state codes and condition
properties. -/
def rowStatementBase (labels : CustomLabels) (startCol endCol : String)
    (row : Row) : Except PyErr String := do
  let sv ← rowLookup row startCol
  let ev ← rowLookup row endCol
  let cond ← conditionsStr row startCol endCol
  .ok ("MERGE (start:" ++ labels.state ++ " \x7bcode:\"" ++ cellFmt sv ++ "\"\x7d)"
    ++ " " ++ "MERGE (end:" ++ labels.state ++ " \x7bcode:\"" ++ cellFmt ev ++ "\"\x7d)"
    ++ " " ++ "MERGE (start)<-[:SOURCE]-(trans:" ++ labels.transition
    ++ ")-[:TARGET]->(end)"
    ++ " " ++ "MERGE (cond:" ++ labels.condition ++ " " ++ cond
    ++ ")-[:CAUSES]->(trans)" ++ ";")

/-- Ascending stable insertion by key for `sorted(dict.items())` (keys are
unique in a dict, so comparing keys suffices). -/
def gpInsert (p : String × PyVal) : List (String × PyVal) → List (String × PyVal)
  | [] => [p]
  | q :: qs => if q.1 < p.1 then q :: gpInsert p qs else p :: q :: qs

/-- Embedding of `sorted(dict.items())`: stable ascending sort by key. -/
def sortPairsByKey (l : List (String × PyVal)) : List (String × PyVal) :=
  l.foldr gpInsert []

/-- JSON string-content escaping as performed by `json.dumps` (the escapes
relevant to the repository's values). -/
def jsonEscape : List Char → List Char
  | [] => []
  | c :: rest =>
      (if c = '"' then ['\\', '"']
       else if c = '\\' then ['\\', '\\'] else [c]) ++ jsonEscape rest

/-- `json.dumps` rendering of one scalar value. -/
def dumpsVal : PyVal → List Char
  | .vStr s => '"' :: (jsonEscape s.data ++ ['"'])
  | .vInt n => (pyIntRepr n).data
  | .vBool b => if b then "true".data else "false".data
  | .vNull => "null".data

/-- `json.dumps` rendering of the `"key": value` members of an object, with
the default `", "` item separator and `": "` key separator. -/
def dumpsPairs : List (String × PyVal) → List Char
  | [] => []
  | [p] => '"' :: (jsonEscape p.1.data ++ ['"', ':', ' '] ++ dumpsVal p.2)
  | p :: rest =>
      '"' :: (jsonEscape p.1.data ++ ['"', ':', ' '] ++ dumpsVal p.2
        ++ [',', ' '] ++ dumpsPairs rest)

/-- `json.dumps` of an (ordered) object. -/
def jsonDumpsObj (m : List (String × PyVal)) : List Char :=
  '{' :: (dumpsPairs m ++ ['}'])

/-- Character class `[a-zA-Z_\d]` of the key-dequoting substitution in
`_dict_to_cypher_properties`. -/
def isKeyChar (c : Char) : Bool :=
  c.isAlpha || c.isDigit || c = '_'

/-- Fuelled scan implementing `re.sub(r"(\")([a-zA-Z_\d]*)(\"):", r"\2:", s)`:
at each `"` the greedy key-character run must be followed by `":` for the
quotes to be dropped; otherwise scanning advances one character. -/
def pySub1 : Nat → List Char → List Char
  | 0, l => l
  | _ + 1, [] => []
  | fuel + 1, c :: rest =>
      if c = '"' then
        match rest.drop (rest.takeWhile isKeyChar).length with
        | '"' :: ':' :: more =>
            rest.takeWhile isKeyChar ++ ':' :: pySub1 fuel more
        | _ => '"' :: pySub1 fuel rest
      else c :: pySub1 fuel rest

/-- The second character class `[\d\"\']` of the space-tightening
substitution in `_dict_to_cypher_properties`. -/
def isTightChar (c : Char) : Bool :=
  c.isDigit || c = '"' || c = '\''

/-- Fuelled scan implementing `re.sub(r"(:)( )([\d\"\'])", r"\1\3", s)`: a
space between a colon and a digit, double quote or apostrophe is removed;
the matched text is not rescanned, and a failed match advances one
character. -/
def pySub2 : Nat → List Char → List Char
  | 0, l => l
  | _ + 1, [] => []
  | fuel + 1, c :: rest =>
      if c = ':' then
        match rest with
        | ' ' :: d :: rest' =>
            if isTightChar d then ':' :: d :: pySub2 fuel rest'
            else ':' :: pySub2 fuel rest
        | _ => ':' :: pySub2 fuel rest
      else c :: pySub2 fuel rest

/-- Embedding of `TransTableProcessor._dict_to_cypher_properties`: sort the
items, `json.dumps` them, strip quotes around keys, tighten the space after
the colon for quoted/numeric values, and drop the outer braces. -/
def dictToCypherProperties (g : List (String × PyVal)) : String :=
  let s := jsonDumpsObj (sortPairsByKey g)
  let s := pySub1 (s.length + 1) s
  let s := pySub2 (s.length + 1) s
  ((s.drop 1).dropLast).asString

/-- The alternation `(start:|end:|trans:|cond:)` of `node_re`. -/
def nodeTag (l : List Char) : Option (List Char) :=
  if "start:".data.isPrefixOf l then some "start:".data
  else if "end:".data.isPrefixOf l then some "end:".data
  else if "trans:".data.isPrefixOf l then some "trans:".data
  else if "cond:".data.isPrefixOf l then some "cond:".data
  else none

/-- Length of the prefix of `run` ending at its last `)`, when one exists:
the backtracking target of the greedy `[^(]*\)` tail of `node_re`. -/
def lastClose (run : List Char) : Option Nat :=
  let revAfter := (run.reverse.takeWhile (fun c => c != ')')).length
  if revAfter = run.length then none else some (run.length - revAfter)

/-- Fuelled scan implementing
`re.finditer(r"\((start:|end:|trans:|cond:)[^(]*\)", query_str)`: at each
`(` followed by a node tag, the match extends over non-`(` characters up to
the last `)` before the next `(`; on failure scanning advances one
character, on success it resumes after the match. -/
def scanNodes : Nat → List Char → List (List Char)
  | 0, _ => []
  | _ + 1, [] => []
  | fuel + 1, c :: rest =>
      if c = '(' then
        match nodeTag rest with
        | some tag =>
            let body := (rest.drop tag.length).takeWhile (fun c' => c' != '(')
            match lastClose body with
            | some m =>
                ('(' :: (tag ++ body.take m))
                  :: scanNodes fuel ((rest.drop tag.length).drop m)
            | none => scanNodes fuel rest
        | none => scanNodes fuel rest
      else scanNodes fuel rest

/-- End position (exclusive) of `props_re.search(node_str)` for the pattern
`\{.*\}`: one past the last `}` when some `{` occurs strictly before it. -/
def propsEnd (node : List Char) : Option Nat :=
  let firstOpen := (node.takeWhile (fun c => c != '{')).length
  let lastCloseRev := (node.reverse.takeWhile (fun c => c != '}')).length
  if firstOpen = node.length ∨ lastCloseRev = node.length then none
  else
    let lastIdx := node.length - 1 - lastCloseRev
    if firstOpen < lastIdx then some (lastIdx + 1) else none

/-- The per-node rewrite of `_add_global_params_to_query_string`: insert
`", " + param_str` before the closing `}` of an existing property block, or
synthesize ` {param_str}` before the closing `)` when the node pattern has
no property block. -/
def injectParams (node : List Char) (paramStr : List Char) : List Char :=
  match propsEnd node with
  | some e => node.take (e - 1) ++ (", ".data ++ paramStr) ++ node.drop (e - 1)
  | none =>
      node.dropLast ++ (" \x7b".data ++ paramStr ++ "\x7d".data)
        ++ node.drop (node.length - 1)

/-- Fuelled implementation of Python `str.replace` (all leftmost
non-overlapping occurrences) for a non-empty pattern. -/
def pyReplace : Nat → List Char → List Char → List Char → List Char
  | 0, l, _, _ => l
  | _ + 1, [], _, _ => []
  | fuel + 1, c :: rest, pat, rep =>
      if pat.isPrefixOf (c :: rest) && !pat.isEmpty then
        rep ++ pyReplace fuel ((c :: rest).drop pat.length) pat rep
      else c :: pyReplace fuel rest pat rep

/-- Embedding of `TransTableProcessor._add_global_params_to_query_string`:
every `node_re` match found in the original string is replaced in the
output string by its rewritten form. -/
def addGlobalParamsToQueryString (queryStr : String)
    (g : List (String × PyVal)) : String :=
  let paramStr := (dictToCypherProperties g).data
  let ms := scanNodes (queryStr.data.length + 1) queryStr.data
  (ms.foldl (fun out m =>
      pyReplace (out.length + 1) out m (injectParams m paramStr)) queryStr.data).asString

/-- Embedding of `TransTableProcessor._row_to_query_statement_string`
including the final global-parameter step (skipped when `global_params` is
`None` or empty, by Python truthiness of `if self.global_params:`). -/
def rowToQueryStatementString (labels : CustomLabels) (startCol endCol : String)
    (globalParams : Option (List (String × PyVal))) (row : Row) :
    Except PyErr String := do
  let base ← rowStatementBase labels startCol endCol row
  match globalParams with
  | some g => if g.isEmpty then .ok base else .ok (addGlobalParamsToQueryString base g)
  | none => .ok base

/-- Alphanumeric ASCII characters: the character safety assumption under
which the regex-based rewriting of `tabproc` is proved to act as intended. -/
def isSafeChar (c : Char) : Bool :=
  c.isAlpha || c.isDigit

/-- All characters of a string alphanumeric. -/
def safeStr (s : String) : Bool :=
  s.data.all isSafeChar

/-- Expected `dictToCypherProperties` rendering of one sorted pair for safe
keys and string/non-negative-integer values. -/
def renderParamPair (p : String × PyVal) : String :=
  match p.2 with
  | .vStr s => p.1 ++ ":\"" ++ s ++ "\""
  | .vInt n => if 0 ≤ n then p.1 ++ ":" ++ pyIntRepr n else p.1 ++ ": " ++ pyIntRepr n
  | .vBool b => p.1 ++ ": " ++ (if b then "true" else "false")
  | .vNull => p.1 ++ ": null"

/-- Comma-joined expected rendering of sorted global-parameter pairs. -/
def renderParamPairs : List (String × PyVal) → String
  | [] => ""
  | [p] => renderParamPair p
  | p :: rest => renderParamPair p ++ ", " ++ renderParamPairs rest

/-- A character that is none of the four characters the node/property
regexes of `tabproc` treat specially. -/
def plainChar (c : Char) : Bool :=
  !(c == '(' || c == ')' || c == '{' || c == '}')

/-- All characters plain. -/
def plainList (l : List Char) : Bool :=
  l.all plainChar

/-- A character of a string parameter value that is compatible with the
substitution pipeline of `_dict_to_cypher_properties` and the node regexes:
not a quote, backslash or colon, and not a parenthesis or brace. -/
def safeValChar (c : Char) : Bool :=
  plainChar c && c != '"' && c != '\\' && c != ':'

/-- A parameter value whose string content is made of safe characters
(non-string values are unrestricted). -/
def safePyVal : PyVal → Bool
  | .vStr s => s.data.all safeValChar
  | _ => true

/-- Expected output of the key-dequoting substitution on the
`json.dumps` members: keys unquoted, values untouched. -/
def sub1Pairs : List (String × PyVal) → List Char
  | [] => []
  | [p] => p.1.data ++ ':' :: ' ' :: dumpsVal p.2
  | p :: rest =>
      p.1.data ++ ':' :: ' ' :: dumpsVal p.2 ++ ',' :: ' ' :: sub1Pairs rest

/-- Fuel consumed by the key-dequoting scan (`pySub1`) on the `json.dumps`
members of an object of safe pairs followed by the closing brace: one step
per dequoted key, one per following space, one per value character, two per
`", "` separator. -/
def sub1Fuel : List (String × PyVal) → Nat
  | [] => 0
  | [p] => 2 + (dumpsVal p.2).length
  | p :: rest => 4 + (dumpsVal p.2).length + sub1Fuel rest

/-- Fuel consumed by the space-tightening scan (`pySub2`) on one dequoted
`key: value` member's colon-and-value segment: the colon-space-head match
absorbs three characters in one step when the value head is tight
(digit/quote), and the segment is walked character-wise otherwise. -/
def sub2ValCost : PyVal → Nat
  | .vStr s => s.data.length + 2
  | .vInt n =>
      if 0 ≤ n then (pyIntRepr n).data.length else (pyIntRepr n).data.length + 2
  | .vBool b => if b then 6 else 7
  | .vNull => 6

/-- Output of the space-tightening scan on one dequoted colon-and-value
segment: the space removed before quoted strings and non-negative integers,
kept before `-`, `t`, `f`, `n`. -/
def sub2ValOut : PyVal → List Char
  | .vStr s => ':' :: '"' :: (s.data ++ ['"'])
  | .vInt n =>
      if 0 ≤ n then ':' :: (pyIntRepr n).data
      else ':' :: ' ' :: (pyIntRepr n).data
  | .vBool b => ':' :: ' ' :: (if b then "true".data else "false".data)
  | .vNull => ':' :: ' ' :: "null".data

/-- Fuel consumed by the space-tightening scan on the dequoted members. -/
def sub2Fuel : List (String × PyVal) → Nat
  | [] => 0
  | [p] => p.1.data.length + sub2ValCost p.2
  | p :: rest => p.1.data.length + sub2ValCost p.2 + 2 + sub2Fuel rest

/-- The `node_re` match over the start-state node of a generated row
statement (state label `S`, state code `A1`). -/
def mStart (S A1 : List Char) : List Char :=
  '(' :: ("start:".data
    ++ ((S ++ ' ' :: '{' :: ("code:\"".data ++ A1 ++ ['"', '}'])) ++ [')']))

/-- The `node_re` match over the end-state node. -/
def mEnd (S A2 : List Char) : List Char :=
  '(' :: ("end:".data
    ++ ((S ++ ' ' :: '{' :: ("code:\"".data ++ A2 ++ ['"', '}'])) ++ [')']))

/-- The `node_re` match over the transition node (no property block). -/
def mTrans (T : List Char) : List Char :=
  '(' :: ("trans:".data ++ (T ++ [')']))

/-- The `node_re` match over the condition node (condition properties `J`). -/
def mCond (C J : List Char) : List Char :=
  '(' :: ("cond:".data ++ ((C ++ ' ' :: '{' :: (J ++ ['}'])) ++ [')']))

/-- The start-state node after global-parameter injection (`P` the rendered
parameter pairs). -/
def rStart (S A1 P : List Char) : List Char :=
  ('(' :: ("start:".data ++ S ++ [' ']))
    ++ '{' :: (("code:\"".data ++ A1 ++ ['"']) ++ (',' :: ' ' :: (P ++ ['}', ')'])))

/-- The end-state node after global-parameter injection. -/
def rEnd (S A2 P : List Char) : List Char :=
  ('(' :: ("end:".data ++ S ++ [' ']))
    ++ '{' :: (("code:\"".data ++ A2 ++ ['"']) ++ (',' :: ' ' :: (P ++ ['}', ')'])))

/-- The transition node after global-parameter injection (a property block
is synthesized). -/
def rTrans (T P : List Char) : List Char :=
  ('(' :: ("trans:".data ++ T)) ++ (' ' :: '{' :: (P ++ ['}', ')']))

/-- The condition node after global-parameter injection. -/
def rCond (C J P : List Char) : List Char :=
  ('(' :: ("cond:".data ++ C ++ [' ']))
    ++ '{' :: (J ++ (',' :: ' ' :: (P ++ ['}', ')'])))

/-- The character data of a generated row statement, grouped into the blocks
the node scanner visits. -/
def skelData (S T C A1 A2 J : List Char) : List Char :=
  "MERGE ".data ++ (mStart S A1 ++ (" MERGE ".data ++ (mEnd S A2
    ++ (" MERGE ".data ++ ('(' :: ("start)<-[:SOURCE]-".data ++ (mTrans T
      ++ ("-[:TARGET]->".data ++ ('(' :: ("end) MERGE ".data ++ (mCond C J
        ++ ("-[:CAUSES]->".data ++ '(' :: "trans);".data))))))))))))

/-- The character data of a row statement after global-parameter injection
into all four nodes. -/
def resData (S T C A1 A2 J P : List Char) : List Char :=
  "MERGE ".data ++ (rStart S A1 P ++ (" MERGE ".data ++ (rEnd S A2 P
    ++ (" MERGE ".data ++ ('(' :: ("start)<-[:SOURCE]-".data ++ (rTrans T P
      ++ ("-[:TARGET]->".data ++ ('(' :: ("end) MERGE ".data ++ (rCond C J P
        ++ ("-[:CAUSES]->".data ++ '(' :: "trans);".data))))))))))))

/-- No occurrence of `pat` can start inside `l` when `l` is followed by
`tail`: every non-empty suffix of `l`, extended by `tail`, fails to start
with `pat`. -/
def NoStart (pat l tail : List Char) : Prop :=
  ∀ s : List Char, s <:+ l → s ≠ [] → pat.isPrefixOf (s ++ tail) = false

/-! ### Shared lemmas about the embedded operations -/

example : splitStatements "a; b; c;" = ["a;", "b;", "c;"] := by decide

example : splitStatements "a" = ["a;"] := by decide

example : scanPlaceholders "MERGE (n \x7bv:$x0\x7d);" = ["x"] := by decide

example : jsonLoads "\x7b \"priority\": 1 \x7d" = some [("priority", .vInt 1)] := by decide

example : jsonLoads "\x7b\"a\": \"Sue\", \"b\": -2, \"c\": true\x7d"
    = some [("a", .vStr "Sue"), ("b", .vInt (-2)), ("c", .vBool true)] := by decide

example : jsonLoads "\x7b\"priority\": 3\x7d MATCH (n)" = none := by decide

example : kwExtract ("\x7b \"priority\": 1 \x7d MERGE (n:TestNode \x7btest_bool: true\x7d)".data)
    = some 18 := by decide

example : kwExtract ("MERGE (n:TestNode \x7btest_param: $paramval\x7d);".data) = none := by decide

example :
    (parseCypherFile "file2.cql"
        ("\x7b \"priority\": 0 \x7d\n" ++
         "MERGE (n:TestNode \x7btest_str: \"test value\"\x7d);\n" ++
         "MERGE (n:TestNode \x7btest_int: 2\x7d);")).map
      (fun cf => (cf.priority, cf.params, cf.queries.map (·.statement)))
    = .ok (.vInt 0, some [],
        ["MERGE (n:TestNode \x7btest_str: \"test value\"\x7d);",
         "MERGE (n:TestNode \x7btest_int: 2\x7d);"]) := by decide

example :
    (parseCypherFile "two_query_partial_param.cql"
        ("\x7b\"name1\": \"Sue\"\x7d\n" ++
         "MERGE (n1:TestNode \x7brole:\"influencer\", name:$name1\x7d);\n" ++
         "MERGE (n2:TestNode \x7brole:\"follower\", name:$name2\x7d);")).map
      (fun cf => cf.queries.map (·.params))
    = .ok [some [("name1", .vStr "Sue")], some [("name2", .vNull)]] := by decide

example :
    parseCypherFile "file.cql" "MERGE (n:TestNode \x7btest_param: $paramval\x7d);"
    = .error (.attributeError "NoneType object has no attribute keys") := by decide

example :
    (iterqueriesList
        [.plain [("f1.cql", "\x7b\"priority\": 1\x7d MERGE (a);"),
                 ("f2.cql", "\x7b\"priority\": 0\x7d MERGE (b);")]]).map
      (fun qs => qs.map (·.statement))
    = .ok ["MERGE (a);", "MERGE (b);"] := by decide

example :
    iterqueriesList
      [.withGlobals [("params.cql", "\x7b\"x\": 1\x7d MERGE (n \x7bv:$x\x7d);")] [("y", .vInt 1)]]
    = .ok [] := by decide


theorem lookup_dictInsert_self (m : ParamMap) (k : String) (v : PyVal) :
    List.lookup k (dictInsert m k v) = some v := by
  induction m with
  | nil => simp [dictInsert, List.lookup]
  | cons p rest ih =>
      obtain ⟨a, b⟩ := p
      by_cases h : a = k
      · subst h
        simp [dictInsert, List.lookup]
      · have hbeq : (k == a) = false := beq_eq_false_iff_ne.mpr (Ne.symm h)
        simp only [dictInsert, if_neg h, List.lookup, hbeq, ih]

theorem lookup_dictInsert_ne (m : ParamMap) (k k' : String) (v : PyVal)
    (h : k' ≠ k) : List.lookup k (dictInsert m k' v) = List.lookup k m := by
  have hbeq : (k == k') = false := beq_eq_false_iff_ne.mpr (Ne.symm h)
  induction m with
  | nil => simp [dictInsert, List.lookup, hbeq]
  | cons p rest ih =>
      obtain ⟨a, b⟩ := p
      by_cases hp : a = k'
      · subst hp
        simp only [dictInsert, if_pos rfl, List.lookup, hbeq]
      · simp only [dictInsert, if_neg hp, List.lookup, ih]

theorem mem_insertDescBy (key : CypherFile → Int) (x a : CypherFile)
    (l : List CypherFile) : a ∈ insertDescBy key x l ↔ a = x ∨ a ∈ l := by
  induction l with
  | nil => simp [insertDescBy]
  | cons y ys ih =>
      by_cases h : key y ≤ key x
      · simp [insertDescBy, h]
      · simp only [insertDescBy, if_neg h, List.mem_cons, ih]
        tauto

theorem mem_sortDescBy (key : CypherFile → Int) (a : CypherFile)
    (l : List CypherFile) : a ∈ sortDescBy key l ↔ a ∈ l := by
  induction l with
  | nil => simp [sortDescBy]
  | cons y ys ih =>
      simp only [sortDescBy, List.foldr] at ih ⊢
      rw [mem_insertDescBy]
      simp [ih]

theorem pairwise_insertDescBy (key : CypherFile → Int) (x : CypherFile)
    (l : List CypherFile) (h : l.Pairwise (fun a b => key b ≤ key a)) :
    (insertDescBy key x l).Pairwise (fun a b => key b ≤ key a) := by
  induction l with
  | nil => simp [insertDescBy]
  | cons y ys ih =>
      rcases List.pairwise_cons.mp h with ⟨hy, hys⟩
      by_cases hle : key y ≤ key x
      · rw [insertDescBy, if_pos hle]
        refine List.pairwise_cons.mpr ⟨?_, h⟩
        intro z hz
        rcases List.mem_cons.mp hz with rfl | hz
        · exact hle
        · exact le_trans (hy z hz) hle
      · rw [insertDescBy, if_neg hle]
        refine List.pairwise_cons.mpr ⟨?_, ih hys⟩
        intro z hz
        rcases (mem_insertDescBy key x z ys).mp hz with rfl | hz
        · exact le_of_lt (lt_of_not_le hle)
        · exact hy z hz

theorem pairwise_sortDescBy (key : CypherFile → Int) (l : List CypherFile) :
    (sortDescBy key l).Pairwise (fun a b => key b ≤ key a) := by
  induction l with
  | nil => simp [sortDescBy]
  | cons y ys ih => exact pairwise_insertDescBy key y _ ih

theorem extractParameters_priority_default (contents : String)
    (ps : Option ParamMap) (qstr : String) (prio : PyVal)
    (h : extractParameters contents = .ok (ps, qstr, prio, false)) :
    prio = .vInt 0 := by
  unfold extractParameters extractParametersDat at h
  split at h
  · simp_all
  · split at h
    · simp_all
    · split at h <;> simp_all

theorem parseCypherFile_priority_default (name contents : String)
    (cf : CypherFile) (h : parseCypherFile name contents = .ok cf)
    (hs : cf.prioritySpecified = false) : cf.priority = .vInt 0 := by
  unfold parseCypherFile at h
  cases hex : extractParameters contents with
  | error e => rw [hex] at h; simp [Bind.bind, Except.bind] at h
  | ok tup =>
      obtain ⟨ps, qstr, prio, spec⟩ := tup
      rw [hex] at h
      simp only [Bind.bind, Except.bind] at h
      cases hbq : buildQueries name ps 0 (splitStatements qstr) with
      | error e => rw [hbq] at h; simp at h
      | ok qs =>
          rw [hbq] at h
          simp only [Except.ok.injEq] at h
          subst h
          simp only at hs
          subst hs
          exact extractParameters_priority_default contents ps qstr prio hex

theorem globalResolveAux_error_of_missing (g : ParamMap) (acc : ParamMap)
    (ks : List String) (h : ∃ k ∈ ks, List.lookup k g = none) :
    globalResolveAux g acc ks = .error (.keyError kErrMsg) := by
  induction ks generalizing acc with
  | nil => simp at h
  | cons k' ks' ih =>
      obtain ⟨k, hk, hnone⟩ := h
      cases hl : List.lookup k' g with
      | none => simp [globalResolveAux, hl]
      | some v =>
          rcases List.mem_cons.mp hk with rfl | hk'
          · rw [hl] at hnone; exact absurd hnone (by simp)
          · simp only [globalResolveAux, hl]
            exact ih _ ⟨k, hk', hnone⟩

theorem globalResolveAux_error_eq (g : ParamMap) (acc : ParamMap)
    (ks : List String) (e : PyErr)
    (h : globalResolveAux g acc ks = .error e) : e = .keyError kErrMsg := by
  induction ks generalizing acc with
  | nil => simp [globalResolveAux] at h
  | cons k' ks' ih =>
      cases hl : List.lookup k' g with
      | none => simp [globalResolveAux, hl] at h; exact h.symm
      | some v =>
          simp only [globalResolveAux, hl] at h
          exact ih _ h

theorem globalResolve_error_of_offender (ps g : ParamMap)
    (h : ∃ kv ∈ ps, truthy kv.2 = false ∧ List.lookup kv.1 g = none) :
    globalResolve ps g = .error (.keyError kErrMsg) := by
  obtain ⟨kv, hmem, hfal, hnone⟩ := h
  apply globalResolveAux_error_of_missing
  refine ⟨kv.1, ?_, hnone⟩
  refine List.mem_map.mpr ⟨kv, ?_, rfl⟩
  refine List.mem_filter.mpr ⟨hmem, by simp [hfal]⟩

/-- A statement with parameters can fail global resolution only with the
unresolved-parameter `KeyError`. -/
theorem processQueryGlobal_error_eq (q : CypherQuery) (g : ParamMap) (e : PyErr)
    (hq : q.params ≠ none) (h : processQueryGlobal q g = .error e) :
    e = .keyError kErrMsg := by
  cases hps : q.params with
  | none => exact absurd hps hq
  | some ps =>
      rw [processQueryGlobal, hps] at h
      exact globalResolveAux_error_eq _ _ _ _ h

/-- If some query of the list has a falsy parameter missing from the global
parameters (and no query has the `None` parameter mapping that would raise a
`TypeError` first), the dict-branch processing of the list raises the
unresolved-parameter `KeyError`. -/
theorem processQueriesGlobal_error (g : ParamMap) (qs : List CypherQuery)
    (hall : ∀ q ∈ qs, q.params ≠ none)
    (hex : ∃ q ∈ qs, ∃ ps, q.params = some ps ∧
        ∃ kv ∈ ps, truthy kv.2 = false ∧ List.lookup kv.1 g = none) :
    processQueriesGlobal g qs = .error (.keyError kErrMsg) := by
  induction qs with
  | nil => simp at hex
  | cons q qs' ih =>
      cases hpq : processQueryGlobal q g with
      | error e =>
          have he : e = .keyError kErrMsg :=
            processQueryGlobal_error_eq q g e (hall q (by simp)) hpq
          subst he
          simp [processQueriesGlobal, Bind.bind, Except.bind, hpq]
      | ok r =>
          obtain ⟨q0, hq0mem, ps0, hps0, hoff⟩ := hex
          rcases List.mem_cons.mp hq0mem with rfl | hq0mem'
          · exfalso
            have herr : processQueryGlobal q0 g = .error (.keyError kErrMsg) := by
              rw [processQueryGlobal, hps0]
              exact globalResolve_error_of_offender ps0 g hoff
            rw [herr] at hpq
            exact Except.noConfusion hpq
          · have := ih (fun q' hq' => hall q' (List.mem_cons_of_mem _ hq'))
              ⟨q0, hq0mem', ps0, hps0, hoff⟩
            simp [processQueriesGlobal, Bind.bind, Except.bind, hpq, this]

/-- The dict-branch processing of a query list fails only with the
unresolved-parameter `KeyError` when no query has a `None` mapping. -/
theorem processQueriesGlobal_error_eq (g : ParamMap) (qs : List CypherQuery)
    (e : PyErr) (hall : ∀ q ∈ qs, q.params ≠ none)
    (h : processQueriesGlobal g qs = .error e) : e = .keyError kErrMsg := by
  induction qs with
  | nil => simp [processQueriesGlobal] at h
  | cons q qs' ih =>
      cases hq : processQueryGlobal q g with
      | error e' =>
          simp only [processQueriesGlobal, Bind.bind, Except.bind, hq,
            Except.error.injEq] at h
          subst h
          exact processQueryGlobal_error_eq q g _ (hall q (by simp)) hq
      | ok r =>
          simp only [processQueriesGlobal, Bind.bind, Except.bind, hq] at h
          exact ih (fun q' hq' => hall q' (List.mem_cons_of_mem _ hq')) h

/-- File-level version of `processQueriesGlobal_error`. -/
theorem processFilesGlobal_error (g : ParamMap) (fs : List CypherFile)
    (hall : ∀ f ∈ fs, ∀ q ∈ f.queries, q.params ≠ none)
    (hex : ∃ f ∈ fs, ∃ q ∈ f.queries, ∃ ps, q.params = some ps ∧
        ∃ kv ∈ ps, truthy kv.2 = false ∧ List.lookup kv.1 g = none) :
    processFilesGlobal g fs = .error (.keyError kErrMsg) := by
  induction fs with
  | nil => simp at hex
  | cons f fs' ih =>
      cases hpf : processQueriesGlobal g f.queries with
      | error e =>
          have he : e = .keyError kErrMsg :=
            processQueriesGlobal_error_eq g f.queries e (hall f (by simp)) hpf
          subst he
          simp [processFilesGlobal, Bind.bind, Except.bind, hpf]
      | ok r =>
          obtain ⟨f0, hf0mem, hoff⟩ := hex
          rcases List.mem_cons.mp hf0mem with rfl | hf0mem'
          · exfalso
            rw [processQueriesGlobal_error g f0.queries
              (hall f0 (by simp)) hoff] at hpf
            exact Except.noConfusion hpf
          · have := ih (fun f' hf' => hall f' (List.mem_cons_of_mem _ hf'))
              ⟨f0, hf0mem', hoff⟩
            simp [processFilesGlobal, Bind.bind, Except.bind, hpf, this]

theorem asString_data : ∀ s : String, s.data.asString = s
  | ⟨_⟩ => rfl

theorem splitOnCharAux_of_not_mem (sep : Char) (acc : List Char)
    (l : List Char) (h : sep ∉ l) :
    splitOnCharAux sep acc l = [acc.reverse ++ l] := by
  induction l generalizing acc with
  | nil => simp [splitOnCharAux]
  | cons c rest ih =>
      have hc : ¬c = sep := fun he => h (by simp [he])
      rw [splitOnCharAux, if_neg hc, ih _ (fun hm => h (by simp [hm]))]
      simp

theorem mem_of_mem_splitOnCharAux (sep : Char) (acc l frag : List Char)
    (hfrag : frag ∈ splitOnCharAux sep acc l) (c : Char) (hc : c ∈ frag) :
    c ∈ acc ∨ c ∈ l := by
  induction l generalizing acc with
  | nil =>
      simp only [splitOnCharAux, List.mem_singleton] at hfrag
      subst hfrag
      exact Or.inl (List.mem_reverse.mp hc)
  | cons d rest ih =>
      by_cases hd : d = sep
      · rw [splitOnCharAux, if_pos hd] at hfrag
        rcases List.mem_cons.mp hfrag with rfl | hfrag'
        · exact Or.inl (List.mem_reverse.mp hc)
        · rcases ih [] hfrag' with h | h
          · simp at h
          · exact Or.inr (List.mem_cons_of_mem _ h)
      · rw [splitOnCharAux, if_neg hd] at hfrag
        rcases ih (d :: acc) hfrag with h | h
        · rcases List.mem_cons.mp h with rfl | h'
          · exact Or.inr (by simp)
          · exact Or.inl h'
        · exact Or.inr (List.mem_cons_of_mem _ h)

theorem mem_of_mem_splitStatements (s q : String)
    (hq : q ∈ splitStatements s) (c : Char) (hc : c ∈ q.data) :
    c ∈ s.data ∨ c = ';' := by
  obtain ⟨frag, hfrag, rfl⟩ := List.mem_map.mp hq
  have hdata : (pyLstrip frag.asString ++ ";").data
      = frag.dropWhile isPySpace ++ [';'] := by
    rw [String.data_append]
    rfl
  rw [hdata] at hc
  rcases List.mem_append.mp hc with h | h
  · have hfragmem : c ∈ frag := (List.dropWhile_sublist _).subset h
    have := mem_of_mem_splitOnCharAux ';' [] s.data frag
      (List.mem_filter.mp hfrag).1 c hfragmem
    simpa using Or.inl (this.resolve_left (by simp))
  · simp only [List.mem_singleton] at h
    exact Or.inr h

theorem scanPh_of_no_dollar (fuel : Nat) (l : List Char) (h : '$' ∉ l) :
    scanPh fuel l = [] := by
  induction fuel generalizing l with
  | zero => rfl
  | succ n ih =>
      cases l with
      | nil => rfl
      | cons c rest =>
          have hc : ¬c = '$' := fun he => h (by simp [he])
          rw [scanPh, if_neg hc]
          exact ih rest (fun hm => h (by simp [hm]))

theorem matchParams_of_no_dollar (s : String) (p : Option ParamMap)
    (h : '$' ∉ s.data) : matchParamsToStatement s p = .ok none := by
  rw [matchParamsToStatement]
  rw [show scanPlaceholders s = [] from scanPh_of_no_dollar _ _ h]

theorem matchParams_ok_of_some (s : String) (ps : ParamMap) :
    ∃ o, matchParamsToStatement s (some ps) = .ok o := by
  rw [matchParamsToStatement]
  cases scanPlaceholders s with
  | nil => exact ⟨none, rfl⟩
  | cons n ns => exact ⟨_, rfl⟩

theorem mkCypherQuerySource_cypher (name : String) (i : Nat) :
    mkCypherQuerySource name "cypher" i = .ok ⟨name, "cypher", i⟩ := by
  rw [mkCypherQuerySource, if_pos (Or.inl rfl)]

theorem buildQueries_ok_of_params_some (name : String) (ps : ParamMap)
    (i : Nat) (stmts : List String) :
    ∃ qs, buildQueries name (some ps) i stmts = .ok qs := by
  induction stmts generalizing i with
  | nil => exact ⟨[], rfl⟩
  | cons s rest ih =>
      obtain ⟨o, ho⟩ := matchParams_ok_of_some s ps
      obtain ⟨qs, hqs⟩ := ih (i + 1)
      exact ⟨⟨s, o, some ⟨name, "cypher", i⟩⟩ :: qs, by
        simp [buildQueries, Bind.bind, Except.bind, ho,
          mkCypherQuerySource_cypher, hqs]⟩

theorem buildQueries_ok_of_no_dollar (name : String) (i : Nat)
    (stmts : List String) (h : ∀ s ∈ stmts, '$' ∉ s.data) :
    ∃ qs, buildQueries name none i stmts = .ok qs := by
  induction stmts generalizing i with
  | nil => exact ⟨[], rfl⟩
  | cons s rest ih =>
      obtain ⟨qs, hqs⟩ := ih (i + 1) (fun s' hs' => h s' (by simp [hs']))
      exact ⟨⟨s, none, some ⟨name, "cypher", i⟩⟩ :: qs, by
        simp [buildQueries, Bind.bind, Except.bind,
          matchParams_of_no_dollar s none (h s (by simp)),
          mkCypherQuerySource_cypher, hqs]⟩

theorem kwExtract_none_of_no_brace (l : List Char)
    (h : leadingBraceIdx l = none) : kwExtract l = none := by
  simp [kwExtract, clauseList, kwMatch, h]

theorem lookup_dictErase_self (m : ParamMap) (k : String) :
    List.lookup k (dictErase m k) = none := by
  induction m with
  | nil => rfl
  | cons p rest ih =>
      obtain ⟨a, b⟩ := p
      simp only [dictErase, List.filter_cons] at ih ⊢
      by_cases h : a = k
      · subst h
        simp only [bne_self_eq_false, Bool.false_eq_true, if_false]
        exact ih
      · simp only [show (a != k) = true from bne_iff_ne.mpr h, if_true]
        simp only [List.lookup,
          show (k == a) = false from beq_eq_false_iff_ne.mpr (Ne.symm h)]
        exact ih

theorem condLoop_eq_join (cells : Row) :
    ∀ count : Nat, condLoop (count + cells.length) count cells
      = renderPairsJoin cells := by
  induction cells with
  | nil => intro count; rfl
  | cons p rest ih =>
      intro count
      obtain ⟨k, v⟩ := p
      cases rest with
      | nil =>
          simp [condLoop, renderPairsJoin]
      | cons q qs =>
          have hlt : count < count + ((q :: qs).length + 1) - 1 := by
            simp
          rw [show count + (⟨k, v⟩ :: q :: qs : Row).length
              = count + ((q :: qs).length + 1) by simp]
          rw [condLoop, if_pos hlt]
          have := ih (count + 1)
          rw [show count + 1 + (q :: qs).length
              = count + ((q :: qs).length + 1) by omega] at this
          rw [this]
          rfl

theorem condCore_eq_join (cells : Row) : condCore cells = renderPairsJoin cells := by
  have := condLoop_eq_join cells 0
  rw [Nat.zero_add] at this
  exact this

/-! ### Character-class facts -/

theorem safeChar_spec (c : Char) (h : isSafeChar c = true) :
    c ≠ '(' ∧ c ≠ ')' ∧ c ≠ '{' ∧ c ≠ '}' ∧ c ≠ '"' ∧ c ≠ ':' ∧ c ≠ ','
      ∧ c ≠ ' ' ∧ c ≠ '\\' ∧ c ≠ '-' := by
  refine ⟨?_, ?_, ?_, ?_, ?_, ?_, ?_, ?_, ?_, ?_⟩ <;>
    (intro he; subst he;
     simp [isSafeChar, Char.isAlpha, Char.isUpper, Char.isLower, Char.isDigit] at h)

theorem keyChar_of_safe (c : Char) (h : isSafeChar c = true) :
    isKeyChar c = true := by
  simp only [isSafeChar, Bool.or_eq_true] at h
  simp only [isKeyChar, Bool.or_eq_true]
  tauto

theorem plainChar_of_safe (c : Char) (h : isSafeChar c = true) :
    plainChar c = true := by
  obtain ⟨h1, h2, h3, h4, _⟩ := safeChar_spec c h
  simp [plainChar, h1, h2, h3, h4]

theorem digitChar_mem (d : Nat) (h : d < 10) :
    digitChar d ∈ ['0', '1', '2', '3', '4', '5', '6', '7', '8', '9'] := by
  interval_cases d <;> decide

theorem digit_list_spec (c : Char)
    (h : c ∈ ['0', '1', '2', '3', '4', '5', '6', '7', '8', '9']) :
    isSafeChar c = true ∧ c.isDigit = true := by
  fin_cases h <;> exact ⟨by decide, by decide⟩

theorem natReprAux_subset (fuel : Nat) : ∀ (n : Nat), ∀ c ∈ natReprAux fuel n,
    c ∈ ['0', '1', '2', '3', '4', '5', '6', '7', '8', '9'] := by
  induction fuel with
  | zero => intro n c hc; simp [natReprAux] at hc
  | succ f ih =>
      intro n c hc
      rw [natReprAux] at hc
      by_cases h : n < 10
      · rw [if_pos h] at hc
        simp only [List.mem_singleton] at hc
        subst hc
        exact digitChar_mem n h
      · rw [if_neg h] at hc
        rcases List.mem_append.mp hc with h' | h'
        · exact ih (n / 10) c h'
        · simp only [List.mem_singleton] at h'
          subst h'
          exact digitChar_mem _ (Nat.mod_lt _ (by omega))

theorem natReprAux_ne_nil (fuel n : Nat) (h : 0 < fuel) :
    natReprAux fuel n ≠ [] := by
  cases fuel with
  | zero => omega
  | succ f =>
      rw [natReprAux]
      by_cases hn : n < 10
      · simp [hn]
      · simp [hn]

theorem pyIntRepr_subset (n : Int) : ∀ c ∈ (pyIntRepr n).data,
    c ∈ ['0', '1', '2', '3', '4', '5', '6', '7', '8', '9'] ∨ c = '-' := by
  intro c hc
  rw [pyIntRepr] at hc
  by_cases h : n < 0
  · rw [if_pos h] at hc
    rw [String.data_append] at hc
    rcases List.mem_append.mp hc with h' | h'
    · right
      simpa using h'
    · exact Or.inl (natReprAux_subset _ _ c h')
  · rw [if_neg h] at hc
    exact Or.inl (natReprAux_subset _ _ c hc)

theorem pyIntRepr_nonneg_head (n : Int) (h : 0 ≤ n) :
    ∃ (d : Char) (rest : List Char), (pyIntRepr n).data = d :: rest
      ∧ d.isDigit = true := by
  rw [pyIntRepr, if_neg (by omega)]
  cases hr : natRepr n.toNat with
  | nil => exact absurd hr (natReprAux_ne_nil _ _ (by omega))
  | cons d rest =>
      refine ⟨d, rest, rfl, ?_⟩
      refine (digit_list_spec d (natReprAux_subset (n.toNat + 1) n.toNat d ?_)).2
      rw [show natReprAux (n.toNat + 1) n.toNat = natRepr n.toNat from rfl, hr]
      simp

/-! ### List scanning kit -/

theorem takeWhile_append_all (p : Char → Bool) (a b : List Char)
    (h : ∀ c ∈ a, p c = true) :
    (a ++ b).takeWhile p = a ++ b.takeWhile p := by
  induction a with
  | nil => rfl
  | cons c a' ih =>
      rw [List.cons_append, List.takeWhile_cons, if_pos (h c (by simp)),
        ih (fun c' hc' => h c' (by simp [hc']))]
      rfl

theorem takeWhile_cons_false (p : Char → Bool) (c : Char) (l : List Char)
    (h : p c = false) : (c :: l).takeWhile p = [] := by
  simp [List.takeWhile_cons, h]

theorem dropWhile_append_all (p : Char → Bool) (a b : List Char)
    (h : ∀ c ∈ a, p c = true) :
    (a ++ b).dropWhile p = b.dropWhile p := by
  induction a with
  | nil => rfl
  | cons c a' ih =>
      simp only [List.cons_append, List.dropWhile_cons, h c (by simp)]
      exact ih (fun c' hc' => h c' (by simp [hc']))

theorem drop_len_takeWhile (p : Char → Bool) (l : List Char) :
    l.drop (l.takeWhile p).length = l.dropWhile p := by
  induction l with
  | nil => rfl
  | cons c l' ih =>
      by_cases h : p c
      · simp [List.takeWhile_cons, List.dropWhile_cons, h, ih]
      · have hc : p c = false := by simpa using h
        simp [List.takeWhile_cons, List.dropWhile_cons, hc]

theorem isPrefixOf_append_self (l t : List Char) :
    l.isPrefixOf (l ++ t) = true := by
  induction l with
  | nil => simp [List.isPrefixOf]
  | cons c l' ih => simp [List.isPrefixOf, ih]

theorem suffix_append_cases (s a b : List Char) (h : s <:+ a ++ b) :
    s <:+ b ∨ ∃ a', a' <:+ a ∧ a' ≠ [] ∧ s = a' ++ b := by
  induction a with
  | nil => exact Or.inl (by simpa using h)
  | cons x a' ih =>
      rw [List.cons_append, List.suffix_cons_iff] at h
      rcases h with rfl | h
      · exact Or.inr ⟨x :: a', List.suffix_refl _, by simp, by simp⟩
      · rcases ih h with h' | ⟨a'', ha'', hne, rfl⟩
        · exact Or.inl h'
        · exact Or.inr ⟨a'', ha''.trans (List.suffix_cons _ _), hne, rfl⟩

/-! ### Occurrence kit for `pyReplace` -/

theorem noStart_nil (pat tail : List Char) : NoStart pat [] tail := by
  intro s hs hne
  exact absurd (List.suffix_nil.mp hs) hne

theorem noStart_append (pat a b tail : List Char)
    (ha : NoStart pat a (b ++ tail)) (hb : NoStart pat b tail) :
    NoStart pat (a ++ b) tail := by
  intro s hs hne
  rcases suffix_append_cases s a b hs with h | ⟨a', ha', hne', rfl⟩
  · exact hb s h hne
  · rw [List.append_assoc]
    exact ha a' ha' hne'

theorem noStart_no_paren (pat' a tail : List Char)
    (ha : ∀ c ∈ a, c ≠ '(') : NoStart ('(' :: pat') a tail := by
  intro s hs hne
  cases s with
  | nil => exact absurd rfl hne
  | cons c s' =>
      have hc : c ∈ a := hs.subset (by simp)
      simp [List.isPrefixOf, beq_eq_false_iff_ne.mpr (Ne.symm (ha c hc))]

theorem noStart_paren_head (pat rest tail : List Char)
    (hrest : ∀ c ∈ rest, c ≠ '(')
    (hwhole : pat.isPrefixOf (('(' :: rest) ++ tail) = false)
    (hpat : ∃ p', pat = '(' :: p') :
    NoStart pat ('(' :: rest) tail := by
  intro s hs hne
  rw [List.suffix_cons_iff] at hs
  rcases hs with rfl | hs
  · exact hwhole
  · obtain ⟨p', rfl⟩ := hpat
    exact noStart_no_paren p' rest tail hrest s hs hne

theorem pyReplace_walk (pat rep : List Char) (U : List Char) :
    ∀ (rest : List Char) (f : Nat), NoStart pat U rest →
    pyReplace (U.length + f) (U ++ rest) pat rep
      = U ++ pyReplace f rest pat rep := by
  induction U with
  | nil => intro rest f _; simp
  | cons c U' ih =>
      intro rest f hU
      have hnom : pat.isPrefixOf ((c :: U') ++ rest) = false :=
        hU (c :: U') (List.suffix_refl _) (by simp)
      rw [show (c :: U').length + f = (U'.length + f) + 1 by
        rw [List.length_cons]; omega]
      rw [List.cons_append, pyReplace]
      rw [if_neg ?hng]
      case hng =>
        intro hcontra
        rw [Bool.and_eq_true] at hcontra
        rw [List.cons_append] at hnom
        rw [hnom] at hcontra
        exact absurd hcontra.1 (by simp)
      rw [ih rest f (fun s hs hne => hU s (hs.trans (List.suffix_cons _ _)) hne)]
      rfl

theorem pyReplace_nil (pat rep : List Char) (f : Nat) :
    pyReplace f [] pat rep = [] := by
  cases f <;> rfl

theorem pyReplace_self (pat rep l : List Char) (f : Nat)
    (h : NoStart pat l []) :
    pyReplace (l.length + f) l pat rep = l := by
  have := pyReplace_walk pat rep l [] f (by simpa using h)
  rw [List.append_nil] at this
  rw [this, pyReplace_nil, List.append_nil]

theorem pyReplace_hit (pat rep V : List Char) (f : Nat) (hne : pat ≠ []) :
    pyReplace (f + 1) (pat ++ V) pat rep = rep ++ pyReplace f V pat rep := by
  cases hp : pat with
  | nil => exact absurd hp hne
  | cons p0 pat' =>
      subst hp
      have hcond : ((p0 :: pat').isPrefixOf (p0 :: (pat' ++ V))
          && !(p0 :: pat').isEmpty) = true := by
        rw [← List.cons_append]
        simp [isPrefixOf_append_self, List.isEmpty]
      rw [List.cons_append, pyReplace, if_pos hcond]
      congr 1
      rw [show p0 :: (pat' ++ V) = (p0 :: pat') ++ V from rfl, List.drop_left]

theorem pyReplace_split (pat rep U V : List Char) (f : Nat) (hne : pat ≠ [])
    (hU : NoStart pat U (pat ++ V)) (hV : NoStart pat V []) :
    pyReplace (U.length + 1 + V.length + f) (U ++ (pat ++ V)) pat rep
      = U ++ rep ++ V := by
  rw [show U.length + 1 + V.length + f = U.length + (1 + V.length + f) by omega]
  rw [pyReplace_walk pat rep U (pat ++ V) (1 + V.length + f) hU]
  rw [show 1 + V.length + f = (V.length + f) + 1 by omega]
  rw [pyReplace_hit pat rep V (V.length + f) hne]
  rw [pyReplace_self pat rep V f hV]
  simp [List.append_assoc]

/-! ### Node-scanner kit -/

theorem scanNodes_nil (f : Nat) : scanNodes f [] = [] := by
  cases f <;> rfl

theorem scanNodes_no_paren (l : List Char) (h : ∀ c ∈ l, c ≠ '(') :
    ∀ f, scanNodes f l = [] := by
  induction l with
  | nil => intro f; exact scanNodes_nil f
  | cons c rest ih =>
      intro f
      cases f with
      | zero => rfl
      | succ f' =>
          rw [scanNodes, if_neg (h c (by simp))]
          exact ih (fun c' hc' => h c' (by simp [hc'])) f'

theorem scanNodes_skip (seg : List Char) (h : ∀ c ∈ seg, c ≠ '(') :
    ∀ (rest : List Char) (f : Nat),
      scanNodes (seg.length + f) (seg ++ rest) = scanNodes f rest := by
  induction seg with
  | nil => intro rest f; simp
  | cons c seg' ih =>
      intro rest f
      rw [show (c :: seg').length + f = (seg'.length + f) + 1 by
        rw [List.length_cons]; omega]
      rw [List.cons_append, scanNodes, if_neg (h c (by simp))]
      exact ih (fun c' hc' => h c' (by simp [hc'])) rest f

theorem scanNodes_fail (f : Nat) (rest : List Char)
    (h : nodeTag rest = none) :
    scanNodes (f + 1) ('(' :: rest) = scanNodes f rest := by
  rw [scanNodes, if_pos rfl, h]

theorem lastClose_append (a b1 : List Char) (hb1 : ∀ c ∈ b1, c ≠ ')') :
    lastClose (a ++ ')' :: b1) = some (a.length + 1) := by
  rw [lastClose]
  have hrev : (a ++ ')' :: b1).reverse = b1.reverse ++ ')' :: a.reverse := by
    simp
  rw [hrev]
  rw [takeWhile_append_all _ _ _
    (fun c hc => bne_iff_ne.mpr (hb1 c (List.mem_reverse.mp hc)))]
  rw [takeWhile_cons_false _ ')' _ (by simp)]
  simp only [List.append_nil, List.length_reverse, List.length_append,
    List.length_cons]
  rw [if_neg (by omega)]
  congr 1
  omega

theorem scanNodes_hit (tag a b1 rest' : List Char) (f : Nat)
    (htag : nodeTag (tag ++ (a ++ ')' :: (b1 ++ '(' :: rest'))) = some tag)
    (ha : ∀ c ∈ a, c ≠ '(')
    (hb1 : ∀ c ∈ b1, c ≠ '(' ∧ c ≠ ')') :
    scanNodes (f + 1) ('(' :: (tag ++ (a ++ ')' :: (b1 ++ '(' :: rest'))))
      = ('(' :: (tag ++ (a ++ [')']))) :: scanNodes f (b1 ++ '(' :: rest') := by
  rw [scanNodes, if_pos rfl, htag]
  have hdrop : (tag ++ (a ++ ')' :: (b1 ++ '(' :: rest'))).drop tag.length
      = a ++ ')' :: (b1 ++ '(' :: rest') := List.drop_left _ _
  have htw : (a ++ ')' :: (b1 ++ '(' :: rest')).takeWhile (fun c' => c' != '(')
      = a ++ ')' :: b1 := by
    rw [takeWhile_append_all _ _ _ (fun c hc => bne_iff_ne.mpr (ha c hc))]
    rw [List.takeWhile_cons, if_pos (by simp)]
    rw [takeWhile_append_all _ _ _ (fun c hc => bne_iff_ne.mpr (hb1 c hc).1)]
    rw [takeWhile_cons_false _ '(' _ (by simp)]
    simp
  simp only [hdrop, htw]
  rw [lastClose_append a b1 (fun c hc => (hb1 c hc).2)]
  simp only []
  have htake : (a ++ ')' :: b1).take (a.length + 1) = a ++ [')'] := by
    rw [show a ++ ')' :: b1 = (a ++ [')']) ++ b1 by simp]
    rw [show a.length + 1 = (a ++ [')']).length by simp]
    exact List.take_left _ _
  have hdrop2 : (a ++ ')' :: (b1 ++ '(' :: rest')).drop (a.length + 1)
      = b1 ++ '(' :: rest' := by
    rw [show a ++ ')' :: (b1 ++ '(' :: rest')
        = (a ++ [')']) ++ (b1 ++ '(' :: rest') by simp]
    rw [show a.length + 1 = (a ++ [')']).length by simp]
    exact List.drop_left _ _
  rw [htake, hdrop2]

theorem scanNodes_hit_last (tag a b1 : List Char) (f : Nat)
    (htag : nodeTag (tag ++ (a ++ ')' :: b1)) = some tag)
    (ha : ∀ c ∈ a, c ≠ '(')
    (hb1 : ∀ c ∈ b1, c ≠ '(' ∧ c ≠ ')') :
    scanNodes (f + 1) ('(' :: (tag ++ (a ++ ')' :: b1)))
      = [('(' :: (tag ++ (a ++ [')'])))] := by
  rw [scanNodes, if_pos rfl, htag]
  have hdrop : (tag ++ (a ++ ')' :: b1)).drop tag.length
      = a ++ ')' :: b1 := List.drop_left _ _
  have htw : (a ++ ')' :: b1).takeWhile (fun c' => c' != '(')
      = a ++ ')' :: b1 := by
    rw [takeWhile_append_all _ _ _ (fun c hc => bne_iff_ne.mpr (ha c hc))]
    rw [List.takeWhile_cons, if_pos (by simp)]
    rw [List.takeWhile_eq_self_iff.mpr
      (fun c hc => bne_iff_ne.mpr (hb1 c hc).1)]
  simp only [hdrop, htw]
  rw [lastClose_append a b1 (fun c hc => (hb1 c hc).2)]
  simp only []
  have htake : (a ++ ')' :: b1).take (a.length + 1) = a ++ [')'] := by
    rw [show a ++ ')' :: b1 = (a ++ [')']) ++ b1 by simp]
    rw [show a.length + 1 = (a ++ [')']).length by simp]
    exact List.take_left _ _
  have hdrop2 : (a ++ ')' :: b1).drop (a.length + 1) = b1 := by
    rw [show a ++ ')' :: b1 = (a ++ [')']) ++ b1 by simp]
    rw [show a.length + 1 = (a ++ [')']).length by simp]
    exact List.drop_left _ _
  rw [htake, hdrop2]
  rw [scanNodes_no_paren b1 (fun c hc => (hb1 c hc).1) f]

theorem nodeTag_start (X : List Char) :
    nodeTag ("start:".data ++ X) = some "start:".data := by
  rw [nodeTag, if_pos (isPrefixOf_append_self _ _)]

theorem nodeTag_end (X : List Char) :
    nodeTag ("end:".data ++ X) = some "end:".data := by
  rw [nodeTag]
  rw [if_neg ?h1]
  case h1 =>
    rw [show ("end:".data ++ X) = 'e' :: 'n' :: 'd' :: ':' :: X from rfl]
    rw [show ("start:".data) = 's' :: 't' :: 'a' :: 'r' :: 't' :: ':' :: [] from rfl]
    simp [List.isPrefixOf]
  rw [if_pos (isPrefixOf_append_self _ _)]

theorem nodeTag_trans (X : List Char) :
    nodeTag ("trans:".data ++ X) = some "trans:".data := by
  rw [nodeTag]
  rw [if_neg ?h1]
  case h1 =>
    rw [show ("trans:".data ++ X) = 't' :: 'r' :: 'a' :: 'n' :: 's' :: ':' :: X from rfl]
    rw [show ("start:".data) = 's' :: 't' :: 'a' :: 'r' :: 't' :: ':' :: [] from rfl]
    simp [List.isPrefixOf]
  rw [if_neg ?h2]
  case h2 =>
    rw [show ("trans:".data ++ X) = 't' :: 'r' :: 'a' :: 'n' :: 's' :: ':' :: X from rfl]
    rw [show ("end:".data) = 'e' :: 'n' :: 'd' :: ':' :: [] from rfl]
    simp [List.isPrefixOf]
  rw [if_pos (isPrefixOf_append_self _ _)]

theorem nodeTag_cond (X : List Char) :
    nodeTag ("cond:".data ++ X) = some "cond:".data := by
  rw [nodeTag]
  rw [if_neg ?h1]
  case h1 =>
    rw [show ("cond:".data ++ X) = 'c' :: 'o' :: 'n' :: 'd' :: ':' :: X from rfl]
    rw [show ("start:".data) = 's' :: 't' :: 'a' :: 'r' :: 't' :: ':' :: [] from rfl]
    simp [List.isPrefixOf]
  rw [if_neg ?h2]
  case h2 =>
    rw [show ("cond:".data ++ X) = 'c' :: 'o' :: 'n' :: 'd' :: ':' :: X from rfl]
    rw [show ("end:".data) = 'e' :: 'n' :: 'd' :: ':' :: [] from rfl]
    simp [List.isPrefixOf]
  rw [if_neg ?h3]
  case h3 =>
    rw [show ("cond:".data ++ X) = 'c' :: 'o' :: 'n' :: 'd' :: ':' :: X from rfl]
    rw [show ("trans:".data) = 't' :: 'r' :: 'a' :: 'n' :: 's' :: ':' :: [] from rfl]
    simp [List.isPrefixOf]
  rw [if_pos (isPrefixOf_append_self _ _)]

theorem nodeTag_none_startP (X : List Char) :
    nodeTag ('s' :: 't' :: 'a' :: 'r' :: 't' :: ')' :: X) = none := by
  rw [nodeTag]
  rw [if_neg (by
    rw [show ("start:".data) = 's' :: 't' :: 'a' :: 'r' :: 't' :: ':' :: [] from rfl]
    simp [List.isPrefixOf])]
  rw [if_neg (by
    rw [show ("end:".data) = 'e' :: 'n' :: 'd' :: ':' :: [] from rfl]
    simp [List.isPrefixOf])]
  rw [if_neg (by
    rw [show ("trans:".data) = 't' :: 'r' :: 'a' :: 'n' :: 's' :: ':' :: [] from rfl]
    simp [List.isPrefixOf])]
  rw [if_neg (by
    rw [show ("cond:".data) = 'c' :: 'o' :: 'n' :: 'd' :: ':' :: [] from rfl]
    simp [List.isPrefixOf])]

theorem nodeTag_none_endP (X : List Char) :
    nodeTag ('e' :: 'n' :: 'd' :: ')' :: X) = none := by
  rw [nodeTag]
  rw [if_neg (by
    rw [show ("start:".data) = 's' :: 't' :: 'a' :: 'r' :: 't' :: ':' :: [] from rfl]
    simp [List.isPrefixOf])]
  rw [if_neg (by
    rw [show ("end:".data) = 'e' :: 'n' :: 'd' :: ':' :: [] from rfl]
    simp [List.isPrefixOf])]
  rw [if_neg (by
    rw [show ("trans:".data) = 't' :: 'r' :: 'a' :: 'n' :: 's' :: ':' :: [] from rfl]
    simp [List.isPrefixOf])]
  rw [if_neg (by
    rw [show ("cond:".data) = 'c' :: 'o' :: 'n' :: 'd' :: ':' :: [] from rfl]
    simp [List.isPrefixOf])]

theorem nodeTag_none_transP (X : List Char) :
    nodeTag ('t' :: 'r' :: 'a' :: 'n' :: 's' :: ')' :: X) = none := by
  rw [nodeTag]
  rw [if_neg (by
    rw [show ("start:".data) = 's' :: 't' :: 'a' :: 'r' :: 't' :: ':' :: [] from rfl]
    simp [List.isPrefixOf])]
  rw [if_neg (by
    rw [show ("end:".data) = 'e' :: 'n' :: 'd' :: ':' :: [] from rfl]
    simp [List.isPrefixOf])]
  rw [if_neg (by
    rw [show ("trans:".data) = 't' :: 'r' :: 'a' :: 'n' :: 's' :: ':' :: [] from rfl]
    simp [List.isPrefixOf])]
  rw [if_neg (by
    rw [show ("cond:".data) = 'c' :: 'o' :: 'n' :: 'd' :: ':' :: [] from rfl]
    simp [List.isPrefixOf])]

/-! ### Property-block kit -/

theorem propsEnd_none (node : List Char) (h : ∀ c ∈ node, c ≠ '{') :
    propsEnd node = none := by
  simp only [propsEnd]
  rw [List.takeWhile_eq_self_iff.mpr (fun c hc => bne_iff_ne.mpr (h c hc))]
  rw [if_pos (Or.inl rfl)]

theorem injectParams_no_brace (v P : List Char) (hv : ∀ c ∈ v, c ≠ '{') :
    injectParams (v ++ [')']) P = v ++ (' ' :: '{' :: (P ++ ['}', ')'])) := by
  rw [injectParams]
  rw [propsEnd_none _ (by
    intro c hc
    rcases List.mem_append.mp hc with h | h
    · exact hv c h
    · simp only [List.mem_singleton] at h
      subst h
      decide)]
  rw [List.dropLast_concat]
  rw [show (v ++ [')']).length - 1 = v.length by simp]
  rw [List.drop_left]
  simp

theorem injectParams_brace (u w P : List Char)
    (hu : ∀ c ∈ u, c ≠ '{' ∧ c ≠ '}') :
    injectParams (u ++ '{' :: (w ++ ['}', ')'])) P
      = u ++ '{' :: (w ++ (',' :: ' ' :: (P ++ ['}', ')']))) := by
  have hlen : (u ++ '{' :: (w ++ ['}', ')'])).length
      = u.length + w.length + 3 := by
    simp
    omega
  have hfo : (u ++ '{' :: (w ++ ['}', ')'])).takeWhile (fun c => c != '{')
      = u := by
    rw [takeWhile_append_all _ _ _ (fun c hc => bne_iff_ne.mpr (hu c hc).1)]
    rw [takeWhile_cons_false _ '{' _ (by simp)]
    simp
  have hrev : (u ++ '{' :: (w ++ ['}', ')'])).reverse.takeWhile (fun c => c != '}')
      = [')'] := by
    have : (u ++ '{' :: (w ++ ['}', ')'])).reverse
        = ')' :: '}' :: (w.reverse ++ '{' :: u.reverse) := by
      simp
    rw [this, List.takeWhile_cons, if_pos (by simp)]
    rw [takeWhile_cons_false _ '}' _ (by simp)]
  have hpe : propsEnd (u ++ '{' :: (w ++ ['}', ')']))
      = some (u.length + w.length + 2) := by
    simp only [propsEnd]
    rw [hfo, hrev, hlen]
    rw [if_neg (by
      simp only [List.length_singleton]
      omega)]
    rw [if_pos (by simp; omega)]
    congr 1
  rw [injectParams, hpe]
  simp only []
  have htake : (u ++ '{' :: (w ++ ['}', ')'])).take (u.length + w.length + 2 - 1)
      = u ++ '{' :: w := by
    rw [show u ++ '{' :: (w ++ ['}', ')'])
        = (u ++ '{' :: w) ++ ['}', ')'] by simp]
    rw [show u.length + w.length + 2 - 1 = (u ++ '{' :: w).length by simp; omega]
    exact List.take_left _ _
  have hdrop : (u ++ '{' :: (w ++ ['}', ')'])).drop (u.length + w.length + 2 - 1)
      = ['}', ')'] := by
    rw [show u ++ '{' :: (w ++ ['}', ')'])
        = (u ++ '{' :: w) ++ ['}', ')'] by simp]
    rw [show u.length + w.length + 2 - 1 = (u ++ '{' :: w).length by simp; omega]
    exact List.drop_left _ _
  rw [htake, hdrop]
  simp [List.append_assoc]

/-! ### Key-dequoting substitution kit -/

theorem jsonEscape_id (l : List Char) (h : ∀ c ∈ l, c ≠ '"' ∧ c ≠ '\\') :
    jsonEscape l = l := by
  induction l with
  | nil => rfl
  | cons c rest ih =>
      rw [jsonEscape]
      rw [if_neg (h c (by simp)).1, if_neg (h c (by simp)).2]
      rw [ih (fun c' hc' => h c' (by simp [hc']))]
      rfl

theorem pySub1_nil (f : Nat) : pySub1 f [] = [] := by
  cases f <;> rfl

theorem pySub1_skip (seg : List Char) (h : ∀ c ∈ seg, c ≠ '"') :
    ∀ (rest : List Char) (f : Nat),
      pySub1 (seg.length + f) (seg ++ rest) = seg ++ pySub1 f rest := by
  induction seg with
  | nil => intro rest f; simp
  | cons c seg' ih =>
      intro rest f
      rw [show (c :: seg').length + f = (seg'.length + f) + 1 by
        rw [List.length_cons]; omega]
      rw [List.cons_append, pySub1, if_neg (h c (by simp))]
      rw [ih (fun c' hc' => h c' (by simp [hc'])) rest f]
      rfl

theorem pySub1_key (key : List Char) (hkey : ∀ c ∈ key, isKeyChar c = true)
    (more : List Char) (f : Nat) :
    pySub1 (f + 1) ('"' :: (key ++ '"' :: ':' :: more))
      = key ++ ':' :: pySub1 f more := by
  rw [pySub1, if_pos rfl]
  have hrun : (key ++ '"' :: ':' :: more).takeWhile isKeyChar = key := by
    rw [takeWhile_append_all _ _ _ hkey]
    rw [takeWhile_cons_false _ '"' _ (by decide)]
    simp
  rw [hrun, List.drop_left]
  rfl

theorem pySub1_quote_fail (rest : List Char) (f : Nat)
    (h : ∀ t, rest.dropWhile isKeyChar ≠ '"' :: ':' :: t) :
    pySub1 (f + 1) ('"' :: rest) = '"' :: pySub1 f rest := by
  rw [pySub1, if_pos rfl]
  split
  · next more heq =>
      rw [drop_len_takeWhile] at heq
      exact absurd heq (h more)
  · rfl

theorem pySub1_cons (c : Char) (hc : c ≠ '"') (rest : List Char) (f : Nat) :
    pySub1 (f + 1) (c :: rest) = c :: pySub1 f rest := by
  rw [pySub1, if_neg hc]

theorem pySub1_brace (f : Nat) : pySub1 f ['}'] = ['}'] := by
  cases f with
  | zero => rfl
  | succ n => rw [pySub1_cons '}' (by decide), pySub1_nil]

theorem pyIntRepr_plain (n : Int) : ∀ c ∈ (pyIntRepr n).data,
    c ≠ '"' ∧ c ≠ ':' := by
  intro c hc
  rcases pyIntRepr_subset n c hc with h | h
  · fin_cases h <;> exact ⟨by decide, by decide⟩
  · subst h
    exact ⟨by decide, by decide⟩

theorem safeValChar_spec (c : Char) (h : safeValChar c = true) :
    plainChar c = true ∧ c ≠ '"' ∧ c ≠ '\\' ∧ c ≠ ':' := by
  simp only [safeValChar, Bool.and_eq_true, bne_iff_ne] at h
  exact ⟨h.1.1.1, h.1.1.2, h.1.2, h.2⟩

theorem dropWhile_no_quote (s : List Char) (hs : ∀ c ∈ s, c ≠ '"') (d : Char)
    (hd : d ≠ ':') (tail : List Char) :
    ∀ t, (s ++ '"' :: d :: tail).dropWhile isKeyChar ≠ '"' :: ':' :: t := by
  induction s with
  | nil =>
      intro t heq
      rw [List.nil_append, List.dropWhile_cons, if_neg (by decide)] at heq
      injection heq with h1 h2
      injection h2 with h3 _
      exact hd h3
  | cons c rest ih =>
      intro t heq
      rw [List.cons_append, List.dropWhile_cons] at heq
      by_cases hk : isKeyChar c = true
      · rw [if_pos hk] at heq
        exact ih (fun c' hc' => hs c' (by simp [hc'])) t heq
      · rw [if_neg hk] at heq
        injection heq with h1 _
        exact hs c (by simp) h1

theorem pySub1_val (v : PyVal) (hv : safePyVal v = true) (d : Char)
    (hd : d = ',' ∨ d = '}') (tail : List Char) (f : Nat) :
    pySub1 ((dumpsVal v).length + f) (dumpsVal v ++ d :: tail)
      = dumpsVal v ++ pySub1 f (d :: tail) := by
  have hdq : d ≠ '"' := by rcases hd with rfl | rfl <;> decide
  have hdk : isKeyChar d = false := by rcases hd with rfl | rfl <;> decide
  have hdc : d ≠ ':' := by rcases hd with rfl | rfl <;> decide
  cases v with
  | vStr s =>
      have hall : s.data.all safeValChar = true := hv
      have hsafe : ∀ c ∈ s.data,
          plainChar c = true ∧ c ≠ '"' ∧ c ≠ '\\' ∧ c ≠ ':' :=
        fun c hc => safeValChar_spec c (List.all_eq_true.mp hall c hc)
      have hje : jsonEscape s.data = s.data :=
        jsonEscape_id _ (fun c hc => ⟨(hsafe c hc).2.1, (hsafe c hc).2.2.1⟩)
      have hshape : dumpsVal (PyVal.vStr s) = '"' :: (s.data ++ ['"']) := by
        simp only [dumpsVal, hje]
      rw [hshape]
      rw [show ('"' :: (s.data ++ ['"'])).length = s.data.length + 2 by simp]
      rw [show ('"' :: (s.data ++ ['"'])) ++ d :: tail
          = '"' :: (s.data ++ '"' :: d :: tail) by simp]
      rw [show s.data.length + 2 + f = (s.data.length + 1 + f) + 1 by omega]
      rw [pySub1_quote_fail _ _
        (dropWhile_no_quote s.data (fun c hc => (hsafe c hc).2.1) d hdc tail)]
      rw [show s.data.length + 1 + f = s.data.length + (1 + f) by omega]
      rw [pySub1_skip s.data (fun c hc => (hsafe c hc).2.1) _ _]
      rw [show 1 + f = f + 1 by omega]
      rw [pySub1_quote_fail (d :: tail) f ?hfail2]
      case hfail2 =>
        intro t heq
        rw [List.dropWhile_cons, if_neg (by simp [hdk])] at heq
        injection heq with h1 _
        exact hdq h1
      simp [List.append_assoc]
  | vInt n =>
      have hnq : ∀ c ∈ (pyIntRepr n).data, c ≠ '"' :=
        fun c hc => (pyIntRepr_plain n c hc).1
      rw [show dumpsVal (PyVal.vInt n) = (pyIntRepr n).data from rfl]
      exact pySub1_skip _ hnq _ _
  | vBool b =>
      cases b with
      | true =>
          rw [show dumpsVal (PyVal.vBool true) = "true".data from rfl]
          exact pySub1_skip _ (by decide) _ _
      | false =>
          rw [show dumpsVal (PyVal.vBool false) = "false".data from rfl]
          exact pySub1_skip _ (by decide) _ _
  | vNull =>
      rw [show dumpsVal PyVal.vNull = "null".data from rfl]
      exact pySub1_skip _ (by decide) _ _

theorem pySub1_pairs (m : List (String × PyVal)) :
    ∀ (hm : ∀ p ∈ m, safeStr p.1 = true ∧ safePyVal p.2 = true) (f : Nat),
    pySub1 (sub1Fuel m + f) (dumpsPairs m ++ ['}'])
      = sub1Pairs m ++ pySub1 f ['}'] := by
  induction m with
  | nil =>
      intro hm f
      simp [sub1Fuel, dumpsPairs, sub1Pairs]
  | cons p rest ih =>
      intro hm f
      have hkey := (hm p (by simp)).1
      have hval := (hm p (by simp)).2
      have hall : p.1.data.all isSafeChar = true := hkey
      have hsafe : ∀ c ∈ p.1.data, isSafeChar c = true :=
        fun c hc => List.all_eq_true.mp hall c hc
      have hje : jsonEscape p.1.data = p.1.data :=
        jsonEscape_id _ (fun c hc =>
          ⟨(safeChar_spec c (hsafe c hc)).2.2.2.2.1,
           (safeChar_spec c (hsafe c hc)).2.2.2.2.2.2.2.2.1⟩)
      have hkc : ∀ c ∈ p.1.data, isKeyChar c = true :=
        fun c hc => keyChar_of_safe c (hsafe c hc)
      cases rest with
      | nil =>
          rw [show dumpsPairs [p] ++ ['}']
              = '"' :: (p.1.data ++ '"' :: ':' :: (' ' :: (dumpsVal p.2 ++ ['}']))) by
            simp only [dumpsPairs, hje]
            simp]
          rw [show sub1Fuel [p] + f = (1 + (dumpsVal p.2).length + f) + 1 by
            simp only [sub1Fuel]
            omega]
          rw [pySub1_key p.1.data hkc _ _]
          rw [show 1 + (dumpsVal p.2).length + f = ((dumpsVal p.2).length + f) + 1 by
            omega]
          rw [pySub1_cons ' ' (by decide)]
          rw [show dumpsVal p.2 ++ ['}'] = dumpsVal p.2 ++ '}' :: [] from rfl]
          rw [pySub1_val p.2 hval '}' (Or.inr rfl) [] f]
          simp [sub1Pairs]
      | cons q rest' =>
          rw [show dumpsPairs (p :: q :: rest') ++ ['}']
              = '"' :: (p.1.data ++ '"' :: ':' :: (' ' :: (dumpsVal p.2
                  ++ ',' :: (' ' :: (dumpsPairs (q :: rest') ++ ['}']))))) by
            simp only [dumpsPairs, hje]
            simp]
          rw [show sub1Fuel (p :: q :: rest') + f
              = (3 + (dumpsVal p.2).length + sub1Fuel (q :: rest') + f) + 1 by
            simp only [sub1Fuel]
            omega]
          rw [pySub1_key p.1.data hkc _ _]
          rw [show 3 + (dumpsVal p.2).length + sub1Fuel (q :: rest') + f
              = ((dumpsVal p.2).length + (2 + sub1Fuel (q :: rest') + f)) + 1 by
            omega]
          rw [pySub1_cons ' ' (by decide)]
          rw [pySub1_val p.2 hval ',' (Or.inl rfl) _ _]
          rw [show 2 + sub1Fuel (q :: rest') + f
              = (1 + sub1Fuel (q :: rest') + f) + 1 by omega]
          rw [pySub1_cons ',' (by decide)]
          rw [show 1 + sub1Fuel (q :: rest') + f
              = (sub1Fuel (q :: rest') + f) + 1 by omega]
          rw [pySub1_cons ' ' (by decide)]
          rw [ih (fun p' hp' => hm p' (by simp [hp'])) f]
          simp [sub1Pairs]

theorem pySub1_obj (m : List (String × PyVal))
    (hm : ∀ p ∈ m, safeStr p.1 = true ∧ safePyVal p.2 = true) (f : Nat) :
    pySub1 ((1 + sub1Fuel m) + f) ('{' :: (dumpsPairs m ++ ['}']))
      = '{' :: (sub1Pairs m ++ ['}']) := by
  rw [show 1 + sub1Fuel m + f = (sub1Fuel m + f) + 1 by omega]
  rw [pySub1_cons '{' (by decide)]
  rw [pySub1_pairs m hm f]
  rw [pySub1_brace]

theorem sub1Fuel_le (m : List (String × PyVal)) :
    sub1Fuel m ≤ (dumpsPairs m).length := by
  induction m with
  | nil => simp [sub1Fuel, dumpsPairs]
  | cons p rest ih =>
      cases rest with
      | nil =>
          simp only [sub1Fuel, dumpsPairs, List.length_cons, List.length_append]
          omega
      | cons q rest' =>
          simp only [sub1Fuel, dumpsPairs, List.length_cons, List.length_append]
          omega

/-! ### Space-tightening substitution kit -/

theorem pySub2_nil (f : Nat) : pySub2 f [] = [] := by
  cases f <;> rfl

theorem pySub2_cons (c : Char) (hc : c ≠ ':') (rest : List Char) (f : Nat) :
    pySub2 (f + 1) (c :: rest) = c :: pySub2 f rest := by
  rw [pySub2.eq_def]
  simp only []
  rw [if_neg hc]

theorem pySub2_skip (seg : List Char) (h : ∀ c ∈ seg, c ≠ ':') :
    ∀ (rest : List Char) (f : Nat),
      pySub2 (seg.length + f) (seg ++ rest) = seg ++ pySub2 f rest := by
  induction seg with
  | nil => intro rest f; simp
  | cons c seg' ih =>
      intro rest f
      rw [show (c :: seg').length + f = (seg'.length + f) + 1 by
        rw [List.length_cons]; omega]
      rw [List.cons_append, pySub2_cons c (h c (by simp))]
      rw [ih (fun c' hc' => h c' (by simp [hc'])) rest f]
      rfl

theorem pySub2_brace (f : Nat) : pySub2 f ['}'] = ['}'] := by
  cases f with
  | zero => rfl
  | succ n => rw [pySub2_cons '}' (by decide), pySub2_nil]

theorem pySub2_tight (d : Char) (hd : isTightChar d = true) (rest : List Char)
    (f : Nat) :
    pySub2 (f + 1) (':' :: ' ' :: d :: rest) = ':' :: d :: pySub2 f rest := by
  rw [pySub2, if_pos rfl, if_pos hd]

theorem pySub2_loose (d : Char) (hd : isTightChar d = false) (rest : List Char)
    (f : Nat) :
    pySub2 (f + 1) (':' :: ' ' :: d :: rest)
      = ':' :: pySub2 f (' ' :: d :: rest) := by
  rw [pySub2, if_pos rfl, if_neg (by simp [hd])]

theorem pySub2_val (v : PyVal) (hv : safePyVal v = true) (tail : List Char)
    (f : Nat) :
    pySub2 (sub2ValCost v + f) (':' :: ' ' :: (dumpsVal v ++ tail))
      = sub2ValOut v ++ pySub2 f tail := by
  cases v with
  | vStr s =>
      have hall : s.data.all safeValChar = true := hv
      have hsafe : ∀ c ∈ s.data,
          plainChar c = true ∧ c ≠ '"' ∧ c ≠ '\\' ∧ c ≠ ':' :=
        fun c hc => safeValChar_spec c (List.all_eq_true.mp hall c hc)
      have hje : jsonEscape s.data = s.data :=
        jsonEscape_id _ (fun c hc => ⟨(hsafe c hc).2.1, (hsafe c hc).2.2.1⟩)
      have hshape : dumpsVal (PyVal.vStr s) = '"' :: (s.data ++ ['"']) := by
        simp only [dumpsVal, hje]
      rw [hshape]
      rw [show ('"' :: (s.data ++ ['"'])) ++ tail
          = '"' :: (s.data ++ '"' :: tail) by simp]
      rw [show sub2ValCost (PyVal.vStr s) + f = ((s.data.length + (1 + f))) + 1 by
        simp only [sub2ValCost]
        omega]
      rw [pySub2_tight '"' (by decide)]
      rw [pySub2_skip s.data (fun c hc => (hsafe c hc).2.2.2) _ _]
      rw [show 1 + f = f + 1 by omega]
      rw [pySub2_cons '"' (by decide)]
      simp [sub2ValOut, List.append_assoc]
  | vInt n =>
      by_cases hn : 0 ≤ n
      · obtain ⟨dh, dt, hrepr, hdig⟩ := pyIntRepr_nonneg_head n hn
        have hdt : ∀ c ∈ dt, c ≠ ':' := by
          intro c hc
          refine (pyIntRepr_plain n c ?_).2
          rw [hrepr]
          simp [hc]
        rw [show dumpsVal (PyVal.vInt n) = (pyIntRepr n).data from rfl, hrepr]
        rw [show sub2ValCost (PyVal.vInt n) + f = (dt.length + f) + 1 by
          simp only [sub2ValCost]
          rw [if_pos hn, hrepr]
          simp only [List.length_cons]
          omega]
        rw [show (dh :: dt) ++ tail = dh :: (dt ++ tail) from rfl]
        rw [pySub2_tight dh (by simp [isTightChar, hdig])]
        rw [pySub2_skip dt hdt tail f]
        simp [sub2ValOut, if_pos hn, hrepr]
      · have hneg : n < 0 := by omega
        have hrepr : (pyIntRepr n).data = '-' :: natRepr n.natAbs := by
          rw [pyIntRepr, if_pos hneg]
          rw [String.data_append, asString_data]
          rfl
        have hno : ∀ c ∈ ('-' :: natRepr n.natAbs), c ≠ ':' := by
          rw [← hrepr]
          exact fun c hc => (pyIntRepr_plain n c hc).2
        rw [show dumpsVal (PyVal.vInt n) = (pyIntRepr n).data from rfl, hrepr]
        rw [show sub2ValCost (PyVal.vInt n) + f
            = ((('-' :: natRepr n.natAbs).length + f) + 1) + 1 by
          simp only [sub2ValCost]
          rw [if_neg hn, hrepr]
          omega]
        rw [show ('-' :: natRepr n.natAbs) ++ tail
            = '-' :: (natRepr n.natAbs ++ tail) from rfl]
        rw [pySub2_loose '-' (by decide)]
        rw [pySub2_cons ' ' (by decide)]
        rw [show '-' :: (natRepr n.natAbs ++ tail)
            = ('-' :: natRepr n.natAbs) ++ tail from rfl]
        rw [pySub2_skip ('-' :: natRepr n.natAbs) hno tail f]
        simp [sub2ValOut, if_neg hn, hrepr]
  | vBool b =>
      cases b with
      | true =>
          rw [show dumpsVal (PyVal.vBool true) = "true".data from rfl]
          rw [show sub2ValCost (PyVal.vBool true) + f
              = ((("true".data.length + f) + 1)) + 1 by
            rw [show sub2ValCost (PyVal.vBool true) = 6 from rfl,
              show "true".data.length = 4 from rfl]
            omega]
          rw [show "true".data ++ tail = 't' :: (['r', 'u', 'e'] ++ tail) from rfl]
          rw [pySub2_loose 't' (by decide)]
          rw [pySub2_cons ' ' (by decide)]
          rw [show 't' :: (['r', 'u', 'e'] ++ tail) = "true".data ++ tail from rfl]
          rw [pySub2_skip "true".data (by decide) tail f]
          simp [sub2ValOut]
      | false =>
          rw [show dumpsVal (PyVal.vBool false) = "false".data from rfl]
          rw [show sub2ValCost (PyVal.vBool false) + f
              = ((("false".data.length + f) + 1)) + 1 by
            rw [show sub2ValCost (PyVal.vBool false) = 7 from rfl,
              show "false".data.length = 5 from rfl]
            omega]
          rw [show "false".data ++ tail
              = 'f' :: (['a', 'l', 's', 'e'] ++ tail) from rfl]
          rw [pySub2_loose 'f' (by decide)]
          rw [pySub2_cons ' ' (by decide)]
          rw [show 'f' :: (['a', 'l', 's', 'e'] ++ tail)
              = "false".data ++ tail from rfl]
          rw [pySub2_skip "false".data (by decide) tail f]
          simp [sub2ValOut]
  | vNull =>
      rw [show dumpsVal PyVal.vNull = "null".data from rfl]
      rw [show sub2ValCost PyVal.vNull + f = ((("null".data.length + f) + 1)) + 1 by
        rw [show sub2ValCost PyVal.vNull = 6 from rfl,
          show "null".data.length = 4 from rfl]
        omega]
      rw [show "null".data ++ tail = 'n' :: (['u', 'l', 'l'] ++ tail) from rfl]
      rw [pySub2_loose 'n' (by decide)]
      rw [pySub2_cons ' ' (by decide)]
      rw [show 'n' :: (['u', 'l', 'l'] ++ tail) = "null".data ++ tail from rfl]
      rw [pySub2_skip "null".data (by decide) tail f]
      simp [sub2ValOut]

theorem renderParamPair_data (p : String × PyVal) :
    (renderParamPair p).data = p.1.data ++ sub2ValOut p.2 := by
  obtain ⟨k, v⟩ := p
  cases v with
  | vStr s => simp [renderParamPair, sub2ValOut, String.data_append]
  | vInt n =>
      by_cases hn : 0 ≤ n
      · simp [renderParamPair, sub2ValOut, if_pos hn, String.data_append]
      · simp [renderParamPair, sub2ValOut, if_neg hn, String.data_append]
  | vBool b =>
      cases b with
      | true => simp [renderParamPair, sub2ValOut, String.data_append]
      | false => simp [renderParamPair, sub2ValOut, String.data_append]
  | vNull => simp [renderParamPair, sub2ValOut, String.data_append]

theorem pySub2_pairs (m : List (String × PyVal)) :
    ∀ (hm : ∀ p ∈ m, safeStr p.1 = true ∧ safePyVal p.2 = true)
      (tail : List Char) (f : Nat),
    pySub2 (sub2Fuel m + f) (sub1Pairs m ++ tail)
      = (renderParamPairs m).data ++ pySub2 f tail := by
  induction m with
  | nil =>
      intro _ tail f
      simp [sub2Fuel, sub1Pairs, renderParamPairs]
  | cons p rest ih =>
      intro hm tail f
      have hkey := (hm p (by simp)).1
      have hval := (hm p (by simp)).2
      have hall : p.1.data.all isSafeChar = true := hkey
      have hsafe : ∀ c ∈ p.1.data, isSafeChar c = true :=
        fun c hc => List.all_eq_true.mp hall c hc
      have hkc : ∀ c ∈ p.1.data, c ≠ ':' :=
        fun c hc => (safeChar_spec c (hsafe c hc)).2.2.2.2.2.1
      cases rest with
      | nil =>
          rw [show sub1Pairs [p] ++ tail
              = p.1.data ++ (':' :: ' ' :: (dumpsVal p.2 ++ tail)) by
            simp [sub1Pairs]]
          rw [show sub2Fuel [p] + f = p.1.data.length + (sub2ValCost p.2 + f) by
            simp only [sub2Fuel]
            omega]
          rw [pySub2_skip p.1.data hkc _ _]
          rw [pySub2_val p.2 hval tail f]
          rw [show renderParamPairs [p] = renderParamPair p from rfl]
          rw [renderParamPair_data p]
          simp [List.append_assoc]
      | cons q rest' =>
          rw [show sub1Pairs (p :: q :: rest') ++ tail
              = p.1.data ++ (':' :: ' ' :: (dumpsVal p.2
                  ++ (',' :: (' ' :: (sub1Pairs (q :: rest') ++ tail))))) by
            simp [sub1Pairs]]
          rw [show sub2Fuel (p :: q :: rest') + f
              = p.1.data.length + (sub2ValCost p.2
                  + (2 + sub2Fuel (q :: rest') + f)) by
            simp only [sub2Fuel]
            omega]
          rw [pySub2_skip p.1.data hkc _ _]
          rw [pySub2_val p.2 hval _ _]
          rw [show 2 + sub2Fuel (q :: rest') + f
              = (1 + sub2Fuel (q :: rest') + f) + 1 by omega]
          rw [pySub2_cons ',' (by decide)]
          rw [show 1 + sub2Fuel (q :: rest') + f
              = (sub2Fuel (q :: rest') + f) + 1 by omega]
          rw [pySub2_cons ' ' (by decide)]
          rw [ih (fun p' hp' => hm p' (by simp [hp'])) tail f]
          rw [show renderParamPairs (p :: q :: rest')
              = renderParamPair p ++ ", " ++ renderParamPairs (q :: rest') from rfl]
          rw [String.data_append, String.data_append, renderParamPair_data p]
          rw [show (", " : String).data = [',', ' '] from rfl]
          simp [List.append_assoc]

theorem jsonEscape_length (l : List Char) : l.length ≤ (jsonEscape l).length := by
  induction l with
  | nil => simp [jsonEscape]
  | cons c rest ih =>
      rw [jsonEscape]
      by_cases h1 : c = '"'
      · simp only [if_pos h1, List.length_append, List.length_cons]
        simp
        omega
      · by_cases h2 : c = '\\'
        · simp only [if_neg h1, if_pos h2, List.length_append, List.length_cons]
          simp
          omega
        · simp only [if_neg h1, if_neg h2, List.length_append, List.length_cons]
          simp
          omega

theorem sub2ValCost_le (v : PyVal) :
    sub2ValCost v ≤ (dumpsVal v).length + 2 := by
  cases v with
  | vStr s =>
      have h1 := jsonEscape_length s.data
      have h2 : s.length = s.data.length := rfl
      simp only [sub2ValCost, dumpsVal, List.length_cons, List.length_append]
      simp
      omega
  | vInt n =>
      by_cases hn : 0 ≤ n
      · simp [sub2ValCost, dumpsVal, if_pos hn]
      · simp [sub2ValCost, dumpsVal, if_neg hn]
  | vBool b => cases b <;> simp [sub2ValCost, dumpsVal]
  | vNull => simp [sub2ValCost, dumpsVal]

theorem sub2Fuel_le (m : List (String × PyVal)) :
    sub2Fuel m ≤ (sub1Pairs m).length := by
  induction m with
  | nil => simp [sub2Fuel, sub1Pairs]
  | cons p rest ih =>
      cases rest with
      | nil =>
          have := sub2ValCost_le p.2
          simp only [sub2Fuel, sub1Pairs, List.length_append, List.length_cons]
          omega
      | cons q rest' =>
          have := sub2ValCost_le p.2
          simp only [sub2Fuel, sub1Pairs, List.length_append, List.length_cons]
          omega

theorem mem_gpInsert (p q : String × PyVal) (l : List (String × PyVal)) :
    q ∈ gpInsert p l → q = p ∨ q ∈ l := by
  induction l with
  | nil =>
      intro h
      simp [gpInsert] at h
      exact Or.inl h
  | cons r l' ih =>
      intro h
      rw [gpInsert] at h
      by_cases hc : r.1 < p.1
      · rw [if_pos hc] at h
        rcases List.mem_cons.mp h with h' | h'
        · exact Or.inr (by simp [h'])
        · rcases ih h' with h'' | h''
          · exact Or.inl h''
          · exact Or.inr (by simp [h''])
      · rw [if_neg hc] at h
        rcases List.mem_cons.mp h with h' | h'
        · exact Or.inl h'
        · exact Or.inr h'

theorem mem_sortPairsByKey (q : String × PyVal) (l : List (String × PyVal)) :
    q ∈ sortPairsByKey l → q ∈ l := by
  induction l with
  | nil => intro h; simpa [sortPairsByKey] using h
  | cons p l' ih =>
      intro h
      rw [show sortPairsByKey (p :: l') = gpInsert p (sortPairsByKey l') from rfl]
        at h
      rcases mem_gpInsert p q _ h with h' | h'
      · simp [h']
      · exact List.mem_cons_of_mem _ (ih h')

theorem dictToCypherProperties_safe (g : List (String × PyVal))
    (hg : ∀ p ∈ g, safeStr p.1 = true ∧ safePyVal p.2 = true) :
    dictToCypherProperties g = renderParamPairs (sortPairsByKey g) := by
  have hm : ∀ p ∈ sortPairsByKey g, safeStr p.1 = true ∧ safePyVal p.2 = true :=
    fun p hp => hg p (mem_sortPairsByKey p g hp)
  rw [dictToCypherProperties]
  simp only [jsonDumpsObj]
  have h1le : sub1Fuel (sortPairsByKey g)
      ≤ (dumpsPairs (sortPairsByKey g)).length := sub1Fuel_le _
  have hs1 : pySub1 (('{' :: (dumpsPairs (sortPairsByKey g) ++ ['}'])).length + 1)
      ('{' :: (dumpsPairs (sortPairsByKey g) ++ ['}']))
      = '{' :: (sub1Pairs (sortPairsByKey g) ++ ['}']) := by
    rw [show ('{' :: (dumpsPairs (sortPairsByKey g) ++ ['}'])).length + 1
        = (1 + sub1Fuel (sortPairsByKey g))
          + ((dumpsPairs (sortPairsByKey g)).length + 2
              - sub1Fuel (sortPairsByKey g)) by
      simp only [List.length_cons, List.length_append, List.length_singleton,
        List.length_nil]
      omega]
    exact pySub1_obj _ hm _
  rw [hs1]
  have h2le : sub2Fuel (sortPairsByKey g)
      ≤ (sub1Pairs (sortPairsByKey g)).length := sub2Fuel_le _
  have hs2 : pySub2 (('{' :: (sub1Pairs (sortPairsByKey g) ++ ['}'])).length + 1)
      ('{' :: (sub1Pairs (sortPairsByKey g) ++ ['}']))
      = '{' :: ((renderParamPairs (sortPairsByKey g)).data ++ ['}']) := by
    rw [show ('{' :: (sub1Pairs (sortPairsByKey g) ++ ['}'])).length + 1
        = ((sub2Fuel (sortPairsByKey g)
            + ((sub1Pairs (sortPairsByKey g)).length + 2
                - sub2Fuel (sortPairsByKey g)))) + 1 by
      simp only [List.length_cons, List.length_append, List.length_singleton,
        List.length_nil]
      omega]
    rw [pySub2_cons '{' (by decide)]
    rw [pySub2_pairs _ hm ['}'] _]
    rw [pySub2_brace]
  rw [hs2]
  rw [show ('{' :: ((renderParamPairs (sortPairsByKey g)).data ++ ['}'])).drop 1
      = (renderParamPairs (sortPairsByKey g)).data ++ ['}'] from rfl]
  rw [List.dropLast_concat]
  exact asString_data _

/-! ### Plain-character facts for the node rewriting -/

theorem plain_spec (c : Char) (h : plainChar c = true) :
    c ≠ '(' ∧ c ≠ ')' ∧ c ≠ '{' ∧ c ≠ '}' := by
  have h' : (c == '(' || c == ')' || c == '{' || c == '}') = false := by
    simpa [plainChar] using h
  simp only [Bool.or_eq_false_iff, beq_eq_false_iff_ne] at h'
  exact ⟨h'.1.1.1, h'.1.1.2, h'.1.2, h'.2⟩

theorem plainList_mem (l : List Char) (h : plainList l = true) :
    ∀ c ∈ l, plainChar c = true := by
  have h' : l.all plainChar = true := h
  exact fun c hc => List.all_eq_true.mp h' c hc

theorem plain_pyIntRepr (n : Int) : ∀ c ∈ (pyIntRepr n).data,
    plainChar c = true := by
  intro c hc
  rcases pyIntRepr_subset n c hc with h | h
  · exact plainChar_of_safe c (digit_list_spec c h).1
  · subst h
    decide

theorem plain_renderParamPair (p : String × PyVal) (hk : safeStr p.1 = true)
    (hv : safePyVal p.2 = true) :
    ∀ c ∈ (renderParamPair p).data, plainChar c = true := by
  rw [renderParamPair_data]
  have hk' : p.1.data.all isSafeChar = true := hk
  refine List.forall_mem_append.mpr ⟨?_, ?_⟩
  · exact fun c hc => plainChar_of_safe c (List.all_eq_true.mp hk' c hc)
  · cases hp2 : p.2 with
    | vStr s =>
        have hs : s.data.all safeValChar = true := by rw [hp2] at hv; exact hv
        simp only [sub2ValOut]
        refine List.forall_mem_cons.mpr ⟨by decide, ?_⟩
        refine List.forall_mem_cons.mpr ⟨by decide, ?_⟩
        refine List.forall_mem_append.mpr ⟨?_, by decide⟩
        exact fun c hc =>
          (safeValChar_spec c (List.all_eq_true.mp hs c hc)).1
    | vInt n =>
        simp only [sub2ValOut]
        by_cases hn : 0 ≤ n
        · rw [if_pos hn]
          exact List.forall_mem_cons.mpr ⟨by decide, plain_pyIntRepr n⟩
        · rw [if_neg hn]
          refine List.forall_mem_cons.mpr ⟨by decide, ?_⟩
          exact List.forall_mem_cons.mpr ⟨by decide, plain_pyIntRepr n⟩
    | vBool b => cases b <;> decide
    | vNull => decide

theorem plain_renderParamPairs (m : List (String × PyVal)) :
    ∀ (hm : ∀ p ∈ m, safeStr p.1 = true ∧ safePyVal p.2 = true),
    ∀ c ∈ (renderParamPairs m).data, plainChar c = true := by
  induction m with
  | nil =>
      intro _ c hc
      rw [show renderParamPairs [] = "" from rfl] at hc
      rw [show ("" : String).data = [] from rfl] at hc
      simp at hc
  | cons p rest ih =>
      intro hm
      cases rest with
      | nil =>
          rw [show renderParamPairs [p] = renderParamPair p from rfl]
          exact plain_renderParamPair p (hm p (by simp)).1 (hm p (by simp)).2
      | cons q rest' =>
          rw [show renderParamPairs (p :: q :: rest')
              = renderParamPair p ++ ", " ++ renderParamPairs (q :: rest') from rfl]
          rw [String.data_append, String.data_append]
          refine List.forall_mem_append.mpr ⟨List.forall_mem_append.mpr ⟨?_, ?_⟩, ?_⟩
          · exact plain_renderParamPair p (hm p (by simp)).1 (hm p (by simp)).2
          · decide
          · exact ih (fun p' hp' => hm p' (by simp [hp']))

/-! ### Prefix-mismatch facts for the four node patterns -/

theorem mStart_notPrefix_ne (S A1 : List Char) (b0 : Char) (brest : List Char)
    (hne : b0 ≠ 's') :
    (mStart S A1).isPrefixOf ('(' :: b0 :: brest) = false := by
  rw [show mStart S A1
      = '(' :: ('s' :: ("tart:".data
          ++ ((S ++ ' ' :: '{' :: ("code:\"".data ++ A1 ++ ['"', '}'])) ++ [')'])))
    from rfl]
  simp [List.isPrefixOf, beq_eq_false_iff_ne.mpr (Ne.symm hne)]

theorem mEnd_notPrefix_ne (S A2 : List Char) (b0 : Char) (brest : List Char)
    (hne : b0 ≠ 'e') :
    (mEnd S A2).isPrefixOf ('(' :: b0 :: brest) = false := by
  rw [show mEnd S A2
      = '(' :: ('e' :: ("nd:".data
          ++ ((S ++ ' ' :: '{' :: ("code:\"".data ++ A2 ++ ['"', '}'])) ++ [')'])))
    from rfl]
  simp [List.isPrefixOf, beq_eq_false_iff_ne.mpr (Ne.symm hne)]

theorem mTrans_notPrefix_ne (T : List Char) (b0 : Char) (brest : List Char)
    (hne : b0 ≠ 't') :
    (mTrans T).isPrefixOf ('(' :: b0 :: brest) = false := by
  rw [show mTrans T = '(' :: ('t' :: ("rans:".data ++ (T ++ [')']))) from rfl]
  simp [List.isPrefixOf, beq_eq_false_iff_ne.mpr (Ne.symm hne)]

theorem mCond_notPrefix_ne (C J : List Char) (b0 : Char) (brest : List Char)
    (hne : b0 ≠ 'c') :
    (mCond C J).isPrefixOf ('(' :: b0 :: brest) = false := by
  rw [show mCond C J
      = '(' :: ('c' :: ("ond:".data
          ++ ((C ++ ' ' :: '{' :: (J ++ ['}'])) ++ [')']))) from rfl]
  simp [List.isPrefixOf, beq_eq_false_iff_ne.mpr (Ne.symm hne)]

theorem mStart_notPrefix_startP (S A1 tail : List Char) :
    (mStart S A1).isPrefixOf ('(' :: ("start)<-[:SOURCE]-".data ++ tail))
      = false := by
  rw [show mStart S A1
      = '(' :: ('s' :: 't' :: 'a' :: 'r' :: 't' :: ':' ::
          ((S ++ ' ' :: '{' :: ("code:\"".data ++ A1 ++ ['"', '}'])) ++ [')']))
    from rfl]
  rw [show "start)<-[:SOURCE]-".data ++ tail
      = 's' :: 't' :: 'a' :: 'r' :: 't' :: ')' :: ("<-[:SOURCE]-".data ++ tail)
    from rfl]
  simp [List.isPrefixOf]

theorem mEnd_notPrefix_endP (S A2 tail : List Char) :
    (mEnd S A2).isPrefixOf ('(' :: ("end) MERGE ".data ++ tail)) = false := by
  rw [show mEnd S A2
      = '(' :: ('e' :: 'n' :: 'd' :: ':' ::
          ((S ++ ' ' :: '{' :: ("code:\"".data ++ A2 ++ ['"', '}'])) ++ [')']))
    from rfl]
  rw [show "end) MERGE ".data ++ tail
      = 'e' :: 'n' :: 'd' :: ')' :: (" MERGE ".data ++ tail) from rfl]
  simp [List.isPrefixOf]

theorem mTrans_notPrefix_transP (T tail : List Char) :
    (mTrans T).isPrefixOf ('(' :: ("trans);".data ++ tail)) = false := by
  rw [show mTrans T
      = '(' :: ('t' :: 'r' :: 'a' :: 'n' :: 's' :: ':' :: (T ++ [')'])) from rfl]
  rw [show "trans);".data ++ tail
      = 't' :: 'r' :: 'a' :: 'n' :: 's' :: ')' :: (';' :: tail) from rfl]
  simp [List.isPrefixOf]

/-! ### Injection of the parameter string into the four node patterns -/

theorem injectParams_mStart (S A1 P : List Char)
    (hS : ∀ c ∈ S, c ≠ '{' ∧ c ≠ '}') (hA1 : ∀ c ∈ A1, c ≠ '{' ∧ c ≠ '}') :
    injectParams (mStart S A1) P = rStart S A1 P := by
  have hu : ∀ c ∈ '(' :: ("start:".data ++ S ++ [' ']), c ≠ '{' ∧ c ≠ '}' := by
    intro c hc
    rcases List.mem_cons.mp hc with rfl | hc
    · exact ⟨by decide, by decide⟩
    rcases List.mem_append.mp hc with hc | hc
    · rcases List.mem_append.mp hc with hc | hc
      · exact (by decide : ∀ c ∈ "start:".data, c ≠ '{' ∧ c ≠ '}') c hc
      · exact hS c hc
    · simp only [List.mem_singleton] at hc
      subst hc
      exact ⟨by decide, by decide⟩
  rw [show mStart S A1
      = ('(' :: ("start:".data ++ S ++ [' ']))
          ++ '{' :: (("code:\"".data ++ A1 ++ ['"']) ++ ['}', ')']) by
    simp [mStart]]
  rw [injectParams_brace _ _ P hu]
  rfl

theorem injectParams_mEnd (S A2 P : List Char)
    (hS : ∀ c ∈ S, c ≠ '{' ∧ c ≠ '}') (hA2 : ∀ c ∈ A2, c ≠ '{' ∧ c ≠ '}') :
    injectParams (mEnd S A2) P = rEnd S A2 P := by
  have hu : ∀ c ∈ '(' :: ("end:".data ++ S ++ [' ']), c ≠ '{' ∧ c ≠ '}' := by
    intro c hc
    rcases List.mem_cons.mp hc with rfl | hc
    · exact ⟨by decide, by decide⟩
    rcases List.mem_append.mp hc with hc | hc
    · rcases List.mem_append.mp hc with hc | hc
      · exact (by decide : ∀ c ∈ "end:".data, c ≠ '{' ∧ c ≠ '}') c hc
      · exact hS c hc
    · simp only [List.mem_singleton] at hc
      subst hc
      exact ⟨by decide, by decide⟩
  rw [show mEnd S A2
      = ('(' :: ("end:".data ++ S ++ [' ']))
          ++ '{' :: (("code:\"".data ++ A2 ++ ['"']) ++ ['}', ')']) by
    simp [mEnd]]
  rw [injectParams_brace _ _ P hu]
  rfl

theorem injectParams_mTrans (T P : List Char) (hT : ∀ c ∈ T, c ≠ '{') :
    injectParams (mTrans T) P = rTrans T P := by
  have hv : ∀ c ∈ '(' :: ("trans:".data ++ T), c ≠ '{' := by
    intro c hc
    rcases List.mem_cons.mp hc with rfl | hc
    · decide
    rcases List.mem_append.mp hc with hc | hc
    · exact (by decide : ∀ c ∈ "trans:".data, c ≠ '{') c hc
    · exact hT c hc
  rw [show mTrans T = ('(' :: ("trans:".data ++ T)) ++ [')'] by simp [mTrans]]
  rw [injectParams_no_brace _ P hv]
  rfl

theorem injectParams_mCond (C J P : List Char)
    (hC : ∀ c ∈ C, c ≠ '{' ∧ c ≠ '}') :
    injectParams (mCond C J) P = rCond C J P := by
  have hu : ∀ c ∈ '(' :: ("cond:".data ++ C ++ [' ']), c ≠ '{' ∧ c ≠ '}' := by
    intro c hc
    rcases List.mem_cons.mp hc with rfl | hc
    · exact ⟨by decide, by decide⟩
    rcases List.mem_append.mp hc with hc | hc
    · rcases List.mem_append.mp hc with hc | hc
      · exact (by decide : ∀ c ∈ "cond:".data, c ≠ '{' ∧ c ≠ '}') c hc
      · exact hC c hc
    · simp only [List.mem_singleton] at hc
      subst hc
      exact ⟨by decide, by decide⟩
  rw [show mCond C J
      = ('(' :: ("cond:".data ++ C ++ [' '])) ++ '{' :: (J ++ ['}', ')']) by
    simp [mCond]]
  rw [injectParams_brace _ _ P hu]
  rfl

/-! ### The node scan over a generated row statement -/

theorem scanNodes_s4 (C J : List Char)
    (hC : plainList C = true) (hJ : plainList J = true) (f : Nat) :
    scanNodes (14 + f)
        (mCond C J ++ ("-[:CAUSES]->".data ++ '(' :: "trans);".data))
      = [mCond C J] := by
  have pC : ∀ c ∈ C, c ≠ '(' :=
    fun c hc => (plain_spec c (plainList_mem C hC c hc)).1
  have pJ : ∀ c ∈ J, c ≠ '(' :=
    fun c hc => (plain_spec c (plainList_mem J hJ c hc)).1
  rw [show mCond C J ++ ("-[:CAUSES]->".data ++ '(' :: "trans);".data)
      = '(' :: ("cond:".data ++ ((C ++ ' ' :: '{' :: (J ++ ['}']))
          ++ ')' :: ("-[:CAUSES]->".data ++ '(' :: "trans);".data))) by
    simp [mCond]]
  rw [show 14 + f = (13 + f) + 1 by omega]
  rw [scanNodes_hit "cond:".data (C ++ ' ' :: '{' :: (J ++ ['}']))
    "-[:CAUSES]->".data "trans);".data (13 + f) (nodeTag_cond _) ?ha ?hb]
  case ha =>
    intro c hc
    rcases List.mem_append.mp hc with hc | hc
    · exact pC c hc
    rcases List.mem_cons.mp hc with rfl | hc
    · decide
    rcases List.mem_cons.mp hc with rfl | hc
    · decide
    rcases List.mem_append.mp hc with hc | hc
    · exact pJ c hc
    · simp only [List.mem_singleton] at hc
      subst hc
      decide
  case hb => decide
  congr 1
  rw [show (13 : Nat) + f = ("-[:CAUSES]->".data).length + (1 + f) by
    rw [show ("-[:CAUSES]->".data).length = 12 from rfl]
    omega]
  rw [scanNodes_skip "-[:CAUSES]->".data (by decide) _ _]
  rw [show "trans);".data = 't' :: 'r' :: 'a' :: 'n' :: 's' :: ')' :: [';'] from rfl]
  rw [show 1 + f = f + 1 by omega]
  rw [scanNodes_fail f _ (nodeTag_none_transP [';'])]
  exact scanNodes_no_paren _ (by decide) f

theorem scanNodes_s3 (T C J : List Char)
    (hT : plainList T = true) (hC : plainList C = true)
    (hJ : plainList J = true) (f : Nat) :
    scanNodes (39 + f)
        (mTrans T ++ ("-[:TARGET]->".data ++ ('(' :: ("end) MERGE ".data
          ++ (mCond C J ++ ("-[:CAUSES]->".data ++ '(' :: "trans);".data))))))
      = [mTrans T, mCond C J] := by
  have pT : ∀ c ∈ T, c ≠ '(' :=
    fun c hc => (plain_spec c (plainList_mem T hT c hc)).1
  rw [show mTrans T ++ ("-[:TARGET]->".data ++ ('(' :: ("end) MERGE ".data
        ++ (mCond C J ++ ("-[:CAUSES]->".data ++ '(' :: "trans);".data)))))
      = '(' :: ("trans:".data ++ (T
          ++ ')' :: ("-[:TARGET]->".data ++ '(' :: ("end) MERGE ".data
            ++ (mCond C J ++ ("-[:CAUSES]->".data ++ '(' :: "trans);".data)))))) by
    simp [mTrans]]
  rw [show 39 + f = (38 + f) + 1 by omega]
  rw [scanNodes_hit "trans:".data T "-[:TARGET]->".data
    ("end) MERGE ".data ++ (mCond C J ++ ("-[:CAUSES]->".data
      ++ '(' :: "trans);".data)))
    (38 + f) (nodeTag_trans _) pT (by decide)]
  congr 1
  rw [show (38 : Nat) + f = ("-[:TARGET]->".data).length + (26 + f) by
    rw [show ("-[:TARGET]->".data).length = 12 from rfl]
    omega]
  rw [scanNodes_skip "-[:TARGET]->".data (by decide) _ _]
  rw [show "end) MERGE ".data ++ (mCond C J ++ ("-[:CAUSES]->".data
        ++ '(' :: "trans);".data))
      = 'e' :: 'n' :: 'd' :: ')' :: (" MERGE ".data ++ (mCond C J
          ++ ("-[:CAUSES]->".data ++ '(' :: "trans);".data))) from rfl]
  rw [show 26 + f = (25 + f) + 1 by omega]
  rw [scanNodes_fail (25 + f) _ (nodeTag_none_endP _)]
  rw [show 'e' :: 'n' :: 'd' :: ')' :: (" MERGE ".data ++ (mCond C J
        ++ ("-[:CAUSES]->".data ++ '(' :: "trans);".data)))
      = "end) MERGE ".data ++ (mCond C J
          ++ ("-[:CAUSES]->".data ++ '(' :: "trans);".data)) from rfl]
  rw [show (25 : Nat) + f = ("end) MERGE ".data).length + (14 + f) by
    rw [show ("end) MERGE ".data).length = 11 from rfl]
    omega]
  rw [scanNodes_skip "end) MERGE ".data (by decide) _ _]
  exact scanNodes_s4 C J hC hJ f

theorem scanNodes_s2 (S T C A2 J : List Char)
    (hS : plainList S = true) (hT : plainList T = true)
    (hC : plainList C = true) (hA2 : plainList A2 = true)
    (hJ : plainList J = true) (f : Nat) :
    scanNodes (66 + f)
        (mEnd S A2 ++ (" MERGE ".data ++ ('(' :: ("start)<-[:SOURCE]-".data
          ++ (mTrans T ++ ("-[:TARGET]->".data ++ ('(' :: ("end) MERGE ".data
            ++ (mCond C J ++ ("-[:CAUSES]->".data
              ++ '(' :: "trans);".data))))))))))
      = [mEnd S A2, mTrans T, mCond C J] := by
  have pS : ∀ c ∈ S, c ≠ '(' :=
    fun c hc => (plain_spec c (plainList_mem S hS c hc)).1
  have pA2 : ∀ c ∈ A2, c ≠ '(' :=
    fun c hc => (plain_spec c (plainList_mem A2 hA2 c hc)).1
  rw [show mEnd S A2 ++ (" MERGE ".data ++ ('(' :: ("start)<-[:SOURCE]-".data
        ++ (mTrans T ++ ("-[:TARGET]->".data ++ ('(' :: ("end) MERGE ".data
          ++ (mCond C J ++ ("-[:CAUSES]->".data ++ '(' :: "trans);".data)))))))))
      = '(' :: ("end:".data
          ++ ((S ++ ' ' :: '{' :: ("code:\"".data ++ A2 ++ ['"', '}']))
            ++ ')' :: (" MERGE ".data ++ '(' :: ("start)<-[:SOURCE]-".data
              ++ (mTrans T ++ ("-[:TARGET]->".data ++ ('(' :: ("end) MERGE ".data
                ++ (mCond C J ++ ("-[:CAUSES]->".data
                  ++ '(' :: "trans);".data)))))))))) by
    simp [mEnd]]
  rw [show 66 + f = (65 + f) + 1 by omega]
  rw [scanNodes_hit "end:".data
    (S ++ ' ' :: '{' :: ("code:\"".data ++ A2 ++ ['"', '}']))
    " MERGE ".data
    ("start)<-[:SOURCE]-".data ++ (mTrans T ++ ("-[:TARGET]->".data
      ++ ('(' :: ("end) MERGE ".data ++ (mCond C J ++ ("-[:CAUSES]->".data
        ++ '(' :: "trans);".data)))))))
    (65 + f) (nodeTag_end _) ?ha2 (by decide)]
  case ha2 =>
    intro c hc
    rcases List.mem_append.mp hc with hc | hc
    · exact pS c hc
    rcases List.mem_cons.mp hc with rfl | hc
    · decide
    rcases List.mem_cons.mp hc with rfl | hc
    · decide
    rcases List.mem_append.mp hc with hc | hc
    · rcases List.mem_append.mp hc with hc | hc
      · exact (by decide : ∀ c ∈ "code:\"".data, c ≠ '(') c hc
      · exact pA2 c hc
    · exact (by decide : ∀ c ∈ ['"', '}'], c ≠ '(') c hc
  congr 1
  rw [show (65 : Nat) + f = (" MERGE ".data).length + (58 + f) by
    rw [show (" MERGE ".data).length = 7 from rfl]
    omega]
  rw [scanNodes_skip " MERGE ".data (by decide) _ _]
  rw [show "start)<-[:SOURCE]-".data ++ (mTrans T ++ ("-[:TARGET]->".data
        ++ ('(' :: ("end) MERGE ".data ++ (mCond C J ++ ("-[:CAUSES]->".data
          ++ '(' :: "trans);".data))))))
      = 's' :: 't' :: 'a' :: 'r' :: 't' :: ')' :: ("<-[:SOURCE]-".data
          ++ (mTrans T ++ ("-[:TARGET]->".data ++ ('(' :: ("end) MERGE ".data
            ++ (mCond C J ++ ("-[:CAUSES]->".data
              ++ '(' :: "trans);".data))))))) from rfl]
  rw [show 58 + f = (57 + f) + 1 by omega]
  rw [scanNodes_fail (57 + f) _ (nodeTag_none_startP _)]
  rw [show 's' :: 't' :: 'a' :: 'r' :: 't' :: ')' :: ("<-[:SOURCE]-".data
        ++ (mTrans T ++ ("-[:TARGET]->".data ++ ('(' :: ("end) MERGE ".data
          ++ (mCond C J ++ ("-[:CAUSES]->".data ++ '(' :: "trans);".data)))))))
      = "start)<-[:SOURCE]-".data ++ (mTrans T ++ ("-[:TARGET]->".data
          ++ ('(' :: ("end) MERGE ".data ++ (mCond C J ++ ("-[:CAUSES]->".data
            ++ '(' :: "trans);".data)))))) from rfl]
  rw [show (57 : Nat) + f = ("start)<-[:SOURCE]-".data).length + (39 + f) by
    rw [show ("start)<-[:SOURCE]-".data).length = 18 from rfl]
    omega]
  rw [scanNodes_skip "start)<-[:SOURCE]-".data (by decide) _ _]
  exact scanNodes_s3 T C J hT hC hJ f

theorem scanNodes_s1 (S T C A1 A2 J : List Char)
    (hS : plainList S = true) (hT : plainList T = true)
    (hC : plainList C = true) (hA1 : plainList A1 = true)
    (hA2 : plainList A2 = true) (hJ : plainList J = true) (f : Nat) :
    scanNodes (74 + f)
        (mStart S A1 ++ (" MERGE ".data ++ (mEnd S A2
          ++ (" MERGE ".data ++ ('(' :: ("start)<-[:SOURCE]-".data ++ (mTrans T
            ++ ("-[:TARGET]->".data ++ ('(' :: ("end) MERGE ".data ++ (mCond C J
              ++ ("-[:CAUSES]->".data ++ '(' :: "trans);".data))))))))))))
      = [mStart S A1, mEnd S A2, mTrans T, mCond C J] := by
  have pS : ∀ c ∈ S, c ≠ '(' :=
    fun c hc => (plain_spec c (plainList_mem S hS c hc)).1
  have pA1 : ∀ c ∈ A1, c ≠ '(' :=
    fun c hc => (plain_spec c (plainList_mem A1 hA1 c hc)).1
  rw [show mStart S A1 ++ (" MERGE ".data ++ (mEnd S A2
        ++ (" MERGE ".data ++ ('(' :: ("start)<-[:SOURCE]-".data ++ (mTrans T
          ++ ("-[:TARGET]->".data ++ ('(' :: ("end) MERGE ".data ++ (mCond C J
            ++ ("-[:CAUSES]->".data ++ '(' :: "trans);".data)))))))))))
      = '(' :: ("start:".data
          ++ ((S ++ ' ' :: '{' :: ("code:\"".data ++ A1 ++ ['"', '}']))
            ++ ')' :: (" MERGE ".data ++ '(' :: (("end:".data
              ++ ((S ++ ' ' :: '{' :: ("code:\"".data ++ A2 ++ ['"', '}']))
                ++ [')']))
              ++ (" MERGE ".data ++ ('(' :: ("start)<-[:SOURCE]-".data
                ++ (mTrans T ++ ("-[:TARGET]->".data
                  ++ ('(' :: ("end) MERGE ".data ++ (mCond C J
                    ++ ("-[:CAUSES]->".data
                      ++ '(' :: "trans);".data))))))))))))) by
    simp [mStart, mEnd]]
  rw [show 74 + f = (73 + f) + 1 by omega]
  rw [scanNodes_hit "start:".data
    (S ++ ' ' :: '{' :: ("code:\"".data ++ A1 ++ ['"', '}']))
    " MERGE ".data
    (("end:".data ++ ((S ++ ' ' :: '{' :: ("code:\"".data ++ A2 ++ ['"', '}']))
        ++ [')']))
      ++ (" MERGE ".data ++ ('(' :: ("start)<-[:SOURCE]-".data
        ++ (mTrans T ++ ("-[:TARGET]->".data ++ ('(' :: ("end) MERGE ".data
          ++ (mCond C J ++ ("-[:CAUSES]->".data
            ++ '(' :: "trans);".data))))))))))
    (73 + f) (nodeTag_start _) ?ha1 (by decide)]
  case ha1 =>
    intro c hc
    rcases List.mem_append.mp hc with hc | hc
    · exact pS c hc
    rcases List.mem_cons.mp hc with rfl | hc
    · decide
    rcases List.mem_cons.mp hc with rfl | hc
    · decide
    rcases List.mem_append.mp hc with hc | hc
    · rcases List.mem_append.mp hc with hc | hc
      · exact (by decide : ∀ c ∈ "code:\"".data, c ≠ '(') c hc
      · exact pA1 c hc
    · exact (by decide : ∀ c ∈ ['"', '}'], c ≠ '(') c hc
  congr 1
  rw [show (73 : Nat) + f = (" MERGE ".data).length + (66 + f) by
    rw [show (" MERGE ".data).length = 7 from rfl]
    omega]
  rw [scanNodes_skip " MERGE ".data (by decide) _ _]
  rw [show ('(' :: (("end:".data
        ++ ((S ++ ' ' :: '{' :: ("code:\"".data ++ A2 ++ ['"', '}'])) ++ [')']))
        ++ (" MERGE ".data ++ ('(' :: ("start)<-[:SOURCE]-".data
          ++ (mTrans T ++ ("-[:TARGET]->".data ++ ('(' :: ("end) MERGE ".data
            ++ (mCond C J ++ ("-[:CAUSES]->".data
              ++ '(' :: "trans);".data)))))))))) : List Char)
      = mEnd S A2 ++ (" MERGE ".data ++ ('(' :: ("start)<-[:SOURCE]-".data
          ++ (mTrans T ++ ("-[:TARGET]->".data ++ ('(' :: ("end) MERGE ".data
            ++ (mCond C J ++ ("-[:CAUSES]->".data
              ++ '(' :: "trans);".data))))))))) by
    simp [mEnd]]
  exact scanNodes_s2 S T C A2 J hS hT hC hA2 hJ f

theorem scanNodes_skeleton (S T C A1 A2 J : List Char)
    (hS : plainList S = true) (hT : plainList T = true)
    (hC : plainList C = true) (hA1 : plainList A1 = true)
    (hA2 : plainList A2 = true) (hJ : plainList J = true) :
    scanNodes ((skelData S T C A1 A2 J).length + 1) (skelData S T C A1 A2 J)
      = [mStart S A1, mEnd S A2, mTrans T, mCond C J] := by
  have h79 : 79 ≤ (skelData S T C A1 A2 J).length := by
    simp only [skelData, List.length_append, List.length_cons, List.length_nil]
    omega
  rw [show (skelData S T C A1 A2 J).length + 1
      = 80 + ((skelData S T C A1 A2 J).length + 1 - 80) by omega]
  set k := (skelData S T C A1 A2 J).length + 1 - 80 with hk
  rw [show skelData S T C A1 A2 J
      = "MERGE ".data ++ (mStart S A1 ++ (" MERGE ".data ++ (mEnd S A2
          ++ (" MERGE ".data ++ ('(' :: ("start)<-[:SOURCE]-".data ++ (mTrans T
            ++ ("-[:TARGET]->".data ++ ('(' :: ("end) MERGE ".data ++ (mCond C J
              ++ ("-[:CAUSES]->".data
                ++ '(' :: "trans);".data)))))))))))) from rfl]
  rw [show 80 + k = ("MERGE ".data).length + (74 + k) by
    rw [show ("MERGE ".data).length = 6 from rfl]
    omega]
  rw [scanNodes_skip "MERGE ".data (by decide) _ _]
  exact scanNodes_s1 S T C A1 A2 J hS hT hC hA1 hA2 hJ k

/-! ### Occurrence freeness of the node patterns over the statement blocks -/

theorem noStart_append_nil (pat a b : List Char)
    (ha : NoStart pat a b) (hb : NoStart pat b []) :
    NoStart pat (a ++ b) [] := by
  refine noStart_append pat a b [] ?_ hb
  rw [List.append_nil]
  exact ha

theorem noStart_mEnd_block (pat S A2 tail : List Char)
    (hS : plainList S = true) (hA2 : plainList A2 = true)
    (hpat : ∃ p', pat = '(' :: p')
    (hw : pat.isPrefixOf (mEnd S A2 ++ tail) = false) :
    NoStart pat (mEnd S A2) tail := by
  have pS : ∀ c ∈ S, c ≠ '(' :=
    fun c hc => (plain_spec c (plainList_mem S hS c hc)).1
  have pA2 : ∀ c ∈ A2, c ≠ '(' :=
    fun c hc => (plain_spec c (plainList_mem A2 hA2 c hc)).1
  rw [show mEnd S A2 = '(' :: ("end:".data
      ++ ((S ++ ' ' :: '{' :: ("code:\"".data ++ A2 ++ ['"', '}'])) ++ [')']))
    from rfl]
  refine noStart_paren_head pat _ tail ?_ ?_ hpat
  · intro c hc
    rcases List.mem_append.mp hc with hc | hc
    · exact (by decide : ∀ c ∈ "end:".data, c ≠ '(') c hc
    rcases List.mem_append.mp hc with hc | hc
    · rcases List.mem_append.mp hc with hc | hc
      · exact pS c hc
      rcases List.mem_cons.mp hc with rfl | hc
      · decide
      rcases List.mem_cons.mp hc with rfl | hc
      · decide
      rcases List.mem_append.mp hc with hc | hc
      · rcases List.mem_append.mp hc with hc | hc
        · exact (by decide : ∀ c ∈ "code:\"".data, c ≠ '(') c hc
        · exact pA2 c hc
      · exact (by decide : ∀ c ∈ ['"', '}'], c ≠ '(') c hc
    · exact (by decide : ∀ c ∈ [')'], c ≠ '(') c hc
  · exact hw

theorem noStart_mTrans_block (pat T tail : List Char)
    (hT : plainList T = true)
    (hpat : ∃ p', pat = '(' :: p')
    (hw : pat.isPrefixOf (mTrans T ++ tail) = false) :
    NoStart pat (mTrans T) tail := by
  have pT : ∀ c ∈ T, c ≠ '(' :=
    fun c hc => (plain_spec c (plainList_mem T hT c hc)).1
  rw [show mTrans T = '(' :: ("trans:".data ++ (T ++ [')'])) from rfl]
  refine noStart_paren_head pat _ tail ?_ ?_ hpat
  · intro c hc
    rcases List.mem_append.mp hc with hc | hc
    · exact (by decide : ∀ c ∈ "trans:".data, c ≠ '(') c hc
    rcases List.mem_append.mp hc with hc | hc
    · exact pT c hc
    · exact (by decide : ∀ c ∈ [')'], c ≠ '(') c hc
  · exact hw

theorem noStart_mCond_block (pat C J tail : List Char)
    (hC : plainList C = true) (hJ : plainList J = true)
    (hpat : ∃ p', pat = '(' :: p')
    (hw : pat.isPrefixOf (mCond C J ++ tail) = false) :
    NoStart pat (mCond C J) tail := by
  have pC : ∀ c ∈ C, c ≠ '(' :=
    fun c hc => (plain_spec c (plainList_mem C hC c hc)).1
  have pJ : ∀ c ∈ J, c ≠ '(' :=
    fun c hc => (plain_spec c (plainList_mem J hJ c hc)).1
  rw [show mCond C J = '(' :: ("cond:".data
      ++ ((C ++ ' ' :: '{' :: (J ++ ['}'])) ++ [')'])) from rfl]
  refine noStart_paren_head pat _ tail ?_ ?_ hpat
  · intro c hc
    rcases List.mem_append.mp hc with hc | hc
    · exact (by decide : ∀ c ∈ "cond:".data, c ≠ '(') c hc
    rcases List.mem_append.mp hc with hc | hc
    · rcases List.mem_append.mp hc with hc | hc
      · exact pC c hc
      rcases List.mem_cons.mp hc with rfl | hc
      · decide
      rcases List.mem_cons.mp hc with rfl | hc
      · decide
      rcases List.mem_append.mp hc with hc | hc
      · exact pJ c hc
      · exact (by decide : ∀ c ∈ ['}'], c ≠ '(') c hc
    · exact (by decide : ∀ c ∈ [')'], c ≠ '(') c hc
  · exact hw

theorem noStart_rStart_block (pat S A1 P tail : List Char)
    (hS : plainList S = true) (hA1 : plainList A1 = true)
    (hP : plainList P = true)
    (hpat : ∃ p', pat = '(' :: p')
    (hw : pat.isPrefixOf (rStart S A1 P ++ tail) = false) :
    NoStart pat (rStart S A1 P) tail := by
  have pS : ∀ c ∈ S, c ≠ '(' :=
    fun c hc => (plain_spec c (plainList_mem S hS c hc)).1
  have pA1 : ∀ c ∈ A1, c ≠ '(' :=
    fun c hc => (plain_spec c (plainList_mem A1 hA1 c hc)).1
  have pP : ∀ c ∈ P, c ≠ '(' :=
    fun c hc => (plain_spec c (plainList_mem P hP c hc)).1
  rw [show rStart S A1 P = '(' :: (("start:".data ++ S ++ [' '])
      ++ '{' :: (("code:\"".data ++ A1 ++ ['"'])
        ++ (',' :: ' ' :: (P ++ ['}', ')'])))) from rfl]
  refine noStart_paren_head pat _ tail ?_ ?_ hpat
  · intro c hc
    rcases List.mem_append.mp hc with hc | hc
    · rcases List.mem_append.mp hc with hc | hc
      · rcases List.mem_append.mp hc with hc | hc
        · exact (by decide : ∀ c ∈ "start:".data, c ≠ '(') c hc
        · exact pS c hc
      · exact (by decide : ∀ c ∈ [' '], c ≠ '(') c hc
    rcases List.mem_cons.mp hc with rfl | hc
    · decide
    rcases List.mem_append.mp hc with hc | hc
    · rcases List.mem_append.mp hc with hc | hc
      · rcases List.mem_append.mp hc with hc | hc
        · exact (by decide : ∀ c ∈ "code:\"".data, c ≠ '(') c hc
        · exact pA1 c hc
      · exact (by decide : ∀ c ∈ ['"'], c ≠ '(') c hc
    rcases List.mem_cons.mp hc with rfl | hc
    · decide
    rcases List.mem_cons.mp hc with rfl | hc
    · decide
    rcases List.mem_append.mp hc with hc | hc
    · exact pP c hc
    · exact (by decide : ∀ c ∈ ['}', ')'], c ≠ '(') c hc
  · exact hw

theorem noStart_rEnd_block (pat S A2 P tail : List Char)
    (hS : plainList S = true) (hA2 : plainList A2 = true)
    (hP : plainList P = true)
    (hpat : ∃ p', pat = '(' :: p')
    (hw : pat.isPrefixOf (rEnd S A2 P ++ tail) = false) :
    NoStart pat (rEnd S A2 P) tail := by
  have pS : ∀ c ∈ S, c ≠ '(' :=
    fun c hc => (plain_spec c (plainList_mem S hS c hc)).1
  have pA2 : ∀ c ∈ A2, c ≠ '(' :=
    fun c hc => (plain_spec c (plainList_mem A2 hA2 c hc)).1
  have pP : ∀ c ∈ P, c ≠ '(' :=
    fun c hc => (plain_spec c (plainList_mem P hP c hc)).1
  rw [show rEnd S A2 P = '(' :: (("end:".data ++ S ++ [' '])
      ++ '{' :: (("code:\"".data ++ A2 ++ ['"'])
        ++ (',' :: ' ' :: (P ++ ['}', ')'])))) from rfl]
  refine noStart_paren_head pat _ tail ?_ ?_ hpat
  · intro c hc
    rcases List.mem_append.mp hc with hc | hc
    · rcases List.mem_append.mp hc with hc | hc
      · rcases List.mem_append.mp hc with hc | hc
        · exact (by decide : ∀ c ∈ "end:".data, c ≠ '(') c hc
        · exact pS c hc
      · exact (by decide : ∀ c ∈ [' '], c ≠ '(') c hc
    rcases List.mem_cons.mp hc with rfl | hc
    · decide
    rcases List.mem_append.mp hc with hc | hc
    · rcases List.mem_append.mp hc with hc | hc
      · rcases List.mem_append.mp hc with hc | hc
        · exact (by decide : ∀ c ∈ "code:\"".data, c ≠ '(') c hc
        · exact pA2 c hc
      · exact (by decide : ∀ c ∈ ['"'], c ≠ '(') c hc
    rcases List.mem_cons.mp hc with rfl | hc
    · decide
    rcases List.mem_cons.mp hc with rfl | hc
    · decide
    rcases List.mem_append.mp hc with hc | hc
    · exact pP c hc
    · exact (by decide : ∀ c ∈ ['}', ')'], c ≠ '(') c hc
  · exact hw

theorem noStart_rTrans_block (pat T P tail : List Char)
    (hT : plainList T = true) (hP : plainList P = true)
    (hpat : ∃ p', pat = '(' :: p')
    (hw : pat.isPrefixOf (rTrans T P ++ tail) = false) :
    NoStart pat (rTrans T P) tail := by
  have pT : ∀ c ∈ T, c ≠ '(' :=
    fun c hc => (plain_spec c (plainList_mem T hT c hc)).1
  have pP : ∀ c ∈ P, c ≠ '(' :=
    fun c hc => (plain_spec c (plainList_mem P hP c hc)).1
  rw [show rTrans T P = '(' :: (("trans:".data ++ T)
      ++ (' ' :: '{' :: (P ++ ['}', ')']))) from rfl]
  refine noStart_paren_head pat _ tail ?_ ?_ hpat
  · intro c hc
    rcases List.mem_append.mp hc with hc | hc
    · rcases List.mem_append.mp hc with hc | hc
      · exact (by decide : ∀ c ∈ "trans:".data, c ≠ '(') c hc
      · exact pT c hc
    rcases List.mem_cons.mp hc with rfl | hc
    · decide
    rcases List.mem_cons.mp hc with rfl | hc
    · decide
    rcases List.mem_append.mp hc with hc | hc
    · exact pP c hc
    · exact (by decide : ∀ c ∈ ['}', ')'], c ≠ '(') c hc
  · exact hw

/-! ### The four node replacements -/

theorem replaceStep1 (S T C A1 A2 J P : List Char)
    (hS : plainList S = true) (hT : plainList T = true)
    (hC : plainList C = true) (hA1 : plainList A1 = true)
    (hA2 : plainList A2 = true) (hJ : plainList J = true)
    (hP : plainList P = true) :
    pyReplace ((skelData S T C A1 A2 J).length + 1) (skelData S T C A1 A2 J)
        (mStart S A1) (rStart S A1 P)
      = ("MERGE ".data ++ rStart S A1 P)
          ++ (" MERGE ".data ++ (mEnd S A2 ++ (" MERGE ".data
            ++ (('(' :: "start)<-[:SOURCE]-".data) ++ (mTrans T
              ++ ("-[:TARGET]->".data ++ (('(' :: "end) MERGE ".data)
                ++ (mCond C J ++ ("-[:CAUSES]->".data
                  ++ ('(' :: "trans);".data)))))))))) := by
  have hpat : ∃ p', mStart S A1 = '(' :: p' := ⟨_, rfl⟩
  have hne : mStart S A1 ≠ [] := by simp [mStart]
  have n10 : NoStart (mStart S A1) ('(' :: "trans);".data) [] := by
    refine noStart_paren_head _ _ _ (by decide) ?_ hpat
    rw [List.append_nil]
    exact mStart_notPrefix_ne S A1 't' _ (by decide)
  have n9 := noStart_append_nil (mStart S A1) "-[:CAUSES]->".data _
    (noStart_no_paren _ _ _ (by decide)) n10
  have n8 := noStart_append_nil (mStart S A1) (mCond C J) _
    (noStart_mCond_block (mStart S A1) C J _ hC hJ hpat
      (mStart_notPrefix_ne S A1 'c' _ (by decide))) n9
  have n7 := noStart_append_nil (mStart S A1) ('(' :: "end) MERGE ".data) _
    (noStart_paren_head _ _ _ (by decide)
      (mStart_notPrefix_ne S A1 'e' _ (by decide)) hpat) n8
  have n6 := noStart_append_nil (mStart S A1) "-[:TARGET]->".data _
    (noStart_no_paren _ _ _ (by decide)) n7
  have n5 := noStart_append_nil (mStart S A1) (mTrans T) _
    (noStart_mTrans_block (mStart S A1) T _ hT hpat
      (mStart_notPrefix_ne S A1 't' _ (by decide))) n6
  have n4 := noStart_append_nil (mStart S A1) ('(' :: "start)<-[:SOURCE]-".data) _
    (noStart_paren_head _ _ _ (by decide)
      (mStart_notPrefix_startP S A1 _) hpat) n5
  have n3 := noStart_append_nil (mStart S A1) " MERGE ".data _
    (noStart_no_paren _ _ _ (by decide)) n4
  have n2 := noStart_append_nil (mStart S A1) (mEnd S A2) _
    (noStart_mEnd_block (mStart S A1) S A2 _ hS hA2 hpat
      (mStart_notPrefix_ne S A1 'e' _ (by decide))) n3
  have n1 := noStart_append_nil (mStart S A1) " MERGE ".data _
    (noStart_no_paren _ _ _ (by decide)) n2
  have hU : NoStart (mStart S A1) "MERGE ".data
      (mStart S A1 ++ (" MERGE ".data ++ (mEnd S A2 ++ (" MERGE ".data
        ++ (('(' :: "start)<-[:SOURCE]-".data) ++ (mTrans T
          ++ ("-[:TARGET]->".data ++ (('(' :: "end) MERGE ".data)
            ++ (mCond C J ++ ("-[:CAUSES]->".data
              ++ ('(' :: "trans);".data))))))))))) :=
    noStart_no_paren _ _ _ (by decide)
  rw [show skelData S T C A1 A2 J
      = "MERGE ".data ++ (mStart S A1 ++ (" MERGE ".data ++ (mEnd S A2
          ++ (" MERGE ".data ++ (('(' :: "start)<-[:SOURCE]-".data) ++ (mTrans T
            ++ ("-[:TARGET]->".data ++ (('(' :: "end) MERGE ".data)
              ++ (mCond C J ++ ("-[:CAUSES]->".data
                ++ ('(' :: "trans);".data))))))))))) from rfl]
  rw [show ("MERGE ".data ++ (mStart S A1 ++ (" MERGE ".data ++ (mEnd S A2
        ++ (" MERGE ".data ++ (('(' :: "start)<-[:SOURCE]-".data) ++ (mTrans T
          ++ ("-[:TARGET]->".data ++ (('(' :: "end) MERGE ".data)
            ++ (mCond C J ++ ("-[:CAUSES]->".data
              ++ ('(' :: "trans);".data)))))))))))).length + 1
      = ("MERGE ".data).length + 1
          + (" MERGE ".data ++ (mEnd S A2 ++ (" MERGE ".data
            ++ (('(' :: "start)<-[:SOURCE]-".data) ++ (mTrans T
              ++ ("-[:TARGET]->".data ++ (('(' :: "end) MERGE ".data)
                ++ (mCond C J ++ ("-[:CAUSES]->".data
                  ++ ('(' :: "trans);".data)))))))))).length
          + (mStart S A1).length by
    simp only [List.length_append]
    omega]
  exact pyReplace_split (mStart S A1) (rStart S A1 P) "MERGE ".data _ _ hne hU n1

theorem replaceStep2 (S T C A1 A2 J P : List Char)
    (hS : plainList S = true) (hT : plainList T = true)
    (hC : plainList C = true) (hA1 : plainList A1 = true)
    (hA2 : plainList A2 = true) (hJ : plainList J = true)
    (hP : plainList P = true) :
    pyReplace
        (((("MERGE ".data ++ (rStart S A1 P)) ++ (" MERGE ".data ++ ((mEnd S A2) ++
        (" MERGE ".data ++ (('(' :: "start)<-[:SOURCE]-".data) ++ (mTrans T ++
        ("-[:TARGET]->".data ++ (('(' :: "end) MERGE ".data) ++ ((mCond C J) ++
        ("-[:CAUSES]->".data ++ ('(' :: "trans);".data)))))))))))).length + 1)
        (("MERGE ".data ++ (rStart S A1 P)) ++ (" MERGE ".data ++ ((mEnd S A2) ++
        (" MERGE ".data ++ (('(' :: "start)<-[:SOURCE]-".data) ++ (mTrans T ++
        ("-[:TARGET]->".data ++ (('(' :: "end) MERGE ".data) ++ ((mCond C J) ++
        ("-[:CAUSES]->".data ++ ('(' :: "trans);".data)))))))))))
        (mEnd S A2) (rEnd S A2 P)
      = (((("MERGE ".data ++ (rStart S A1 P)) ++ " MERGE ".data) ++ (rEnd S A2 P))
      ++ (" MERGE ".data ++ (('(' :: "start)<-[:SOURCE]-".data) ++ (mTrans T ++
      ("-[:TARGET]->".data ++ (('(' :: "end) MERGE ".data) ++ ((mCond C J) ++
      ("-[:CAUSES]->".data ++ ('(' :: "trans);".data))))))))) := by
  have hpat : ∃ p', mEnd S A2 = '(' :: p' := ⟨_, rfl⟩
  have hne : mEnd S A2 ≠ [] := by simp [mEnd]
  have m10 : NoStart (mEnd S A2) ('(' :: "trans);".data) [] := by
    refine noStart_paren_head _ _ _ (by decide) ?_ hpat
    rw [List.append_nil]
    exact mEnd_notPrefix_ne S A2 't' _ (by decide)
  have m9 := noStart_append_nil (mEnd S A2) "-[:CAUSES]->".data _
    (noStart_no_paren _ _ _ (by decide)) m10
  have m8 := noStart_append_nil (mEnd S A2) (mCond C J) _
    (noStart_mCond_block (mEnd S A2) C J _ hC hJ hpat
      (mEnd_notPrefix_ne S A2 'c' _ (by decide))) m9
  have m7 := noStart_append_nil (mEnd S A2) ('(' :: "end) MERGE ".data) _
    (noStart_paren_head _ _ _ (by decide)
      (mEnd_notPrefix_endP S A2 _) hpat) m8
  have m6 := noStart_append_nil (mEnd S A2) "-[:TARGET]->".data _
    (noStart_no_paren _ _ _ (by decide)) m7
  have m5 := noStart_append_nil (mEnd S A2) (mTrans T) _
    (noStart_mTrans_block (mEnd S A2) T _ hT hpat
      (mEnd_notPrefix_ne S A2 't' _ (by decide))) m6
  have m4 := noStart_append_nil (mEnd S A2) ('(' :: "start)<-[:SOURCE]-".data) _
    (noStart_paren_head _ _ _ (by decide)
      (mEnd_notPrefix_ne S A2 's' _ (by decide)) hpat) m5
  have m3 := noStart_append_nil (mEnd S A2) " MERGE ".data _
    (noStart_no_paren _ _ _ (by decide)) m4
  have hU : NoStart (mEnd S A2)
      (("MERGE ".data ++ (rStart S A1 P)) ++ " MERGE ".data)
      ((mEnd S A2) ++ (" MERGE ".data ++ (('(' :: "start)<-[:SOURCE]-".data) ++
      (mTrans T ++ ("-[:TARGET]->".data ++ (('(' :: "end) MERGE ".data) ++ ((mCond C
      J) ++ ("-[:CAUSES]->".data ++ ('(' :: "trans);".data))))))))) :=
    noStart_append _ ("MERGE ".data ++ rStart S A1 P) " MERGE ".data _
      (noStart_append _ "MERGE ".data (rStart S A1 P) _
        (noStart_no_paren _ _ _ (by decide))
        (noStart_rStart_block (mEnd S A2) S A1 P _ hS hA1 hP hpat
          (mEnd_notPrefix_ne S A2 's' _ (by decide))))
      (noStart_no_paren _ _ _ (by decide))
  rw [show 
        (("MERGE ".data ++ (rStart S A1 P)) ++ (" MERGE ".data ++ ((mEnd S A2) ++
        (" MERGE ".data ++ (('(' :: "start)<-[:SOURCE]-".data) ++ (mTrans T ++
        ("-[:TARGET]->".data ++ (('(' :: "end) MERGE ".data) ++ ((mCond C J) ++
        ("-[:CAUSES]->".data ++ ('(' :: "trans);".data)))))))))))
      = ((("MERGE ".data ++ (rStart S A1 P)) ++ " MERGE ".data) ++ ((mEnd S A2) ++
      (" MERGE ".data ++ (('(' :: "start)<-[:SOURCE]-".data) ++ (mTrans T ++
      ("-[:TARGET]->".data ++ (('(' :: "end) MERGE ".data) ++ ((mCond C J) ++
      ("-[:CAUSES]->".data ++ ('(' :: "trans);".data)))))))))) by simp
      [List.append_assoc]]
  rw [show
        ((((("MERGE ".data ++ (rStart S A1 P)) ++ " MERGE ".data) ++ ((mEnd S A2) ++
        (" MERGE ".data ++ (('(' :: "start)<-[:SOURCE]-".data) ++ (mTrans T ++
        ("-[:TARGET]->".data ++ (('(' :: "end) MERGE ".data) ++ ((mCond C J) ++
        ("-[:CAUSES]->".data ++ ('(' :: "trans);".data))))))))))).length + 1)
      = ((("MERGE ".data ++ (rStart S A1 P)) ++ " MERGE ".data)).length + 1 +
      ((" MERGE ".data ++ (('(' :: "start)<-[:SOURCE]-".data) ++ (mTrans T ++
      ("-[:TARGET]->".data ++ (('(' :: "end) MERGE ".data) ++ ((mCond C J) ++
      ("-[:CAUSES]->".data ++ ('(' :: "trans);".data))))))))).length + (mEnd S
      A2).length by
    simp only [List.length_append]
    omega]
  exact pyReplace_split (mEnd S A2) (rEnd S A2 P) _ _ _ hne hU m3

theorem replaceStep3 (S T C A1 A2 J P : List Char)
    (hS : plainList S = true) (hT : plainList T = true)
    (hC : plainList C = true) (hA1 : plainList A1 = true)
    (hA2 : plainList A2 = true) (hJ : plainList J = true)
    (hP : plainList P = true) :
    pyReplace
        (((((("MERGE ".data ++ (rStart S A1 P)) ++ " MERGE ".data) ++ (rEnd S A2 P))
        ++ (" MERGE ".data ++ (('(' :: "start)<-[:SOURCE]-".data) ++ (mTrans T ++
        ("-[:TARGET]->".data ++ (('(' :: "end) MERGE ".data) ++ ((mCond C J) ++
        ("-[:CAUSES]->".data ++ ('(' :: "trans);".data)))))))))).length + 1)
        (((("MERGE ".data ++ (rStart S A1 P)) ++ " MERGE ".data) ++ (rEnd S A2 P))
        ++ (" MERGE ".data ++ (('(' :: "start)<-[:SOURCE]-".data) ++ (mTrans T ++
        ("-[:TARGET]->".data ++ (('(' :: "end) MERGE ".data) ++ ((mCond C J) ++
        ("-[:CAUSES]->".data ++ ('(' :: "trans);".data)))))))))
        (mTrans T) (rTrans T P)
      = ((((((("MERGE ".data ++ (rStart S A1 P)) ++ " MERGE ".data) ++ (rEnd S A2
      P)) ++ " MERGE ".data) ++ ('(' :: "start)<-[:SOURCE]-".data)) ++ (rTrans T P))
      ++ ("-[:TARGET]->".data ++ (('(' :: "end) MERGE ".data) ++ ((mCond C J) ++
      ("-[:CAUSES]->".data ++ ('(' :: "trans);".data)))))) := by
  have hpat : ∃ p', mTrans T = '(' :: p' := ⟨_, rfl⟩
  have hne : mTrans T ≠ [] := by simp [mTrans]
  have k10 : NoStart (mTrans T) ('(' :: "trans);".data) [] := by
    refine noStart_paren_head _ _ _ (by decide) ?_ hpat
    rw [List.append_nil]
    exact mTrans_notPrefix_transP T _
  have k9 := noStart_append_nil (mTrans T) "-[:CAUSES]->".data _
    (noStart_no_paren _ _ _ (by decide)) k10
  have k8 := noStart_append_nil (mTrans T) (mCond C J) _
    (noStart_mCond_block (mTrans T) C J _ hC hJ hpat
      (mTrans_notPrefix_ne T 'c' _ (by decide))) k9
  have k7 := noStart_append_nil (mTrans T) ('(' :: "end) MERGE ".data) _
    (noStart_paren_head _ _ _ (by decide)
      (mTrans_notPrefix_ne T 'e' _ (by decide)) hpat) k8
  have k6 := noStart_append_nil (mTrans T) "-[:TARGET]->".data _
    (noStart_no_paren _ _ _ (by decide)) k7
  have hU : NoStart (mTrans T)
      ((((("MERGE ".data ++ (rStart S A1 P)) ++ " MERGE ".data) ++ (rEnd S A2 P)) ++
      " MERGE ".data) ++ ('(' :: "start)<-[:SOURCE]-".data))
      ((mTrans T) ++ ("-[:TARGET]->".data ++ (('(' :: "end) MERGE ".data) ++ ((mCond
      C J) ++ ("-[:CAUSES]->".data ++ ('(' :: "trans);".data)))))) :=
    noStart_append _ _ ('(' :: "start)<-[:SOURCE]-".data) _
      (noStart_append _ _ " MERGE ".data _
        (noStart_append _ _ (rEnd S A2 P) _
          (noStart_append _ _ " MERGE ".data _
            (noStart_append _ "MERGE ".data (rStart S A1 P) _
              (noStart_no_paren _ _ _ (by decide))
              (noStart_rStart_block (mTrans T) S A1 P _ hS hA1 hP hpat
                (mTrans_notPrefix_ne T 's' _ (by decide))))
            (noStart_no_paren _ _ _ (by decide)))
          (noStart_rEnd_block (mTrans T) S A2 P _ hS hA2 hP hpat
            (mTrans_notPrefix_ne T 'e' _ (by decide))))
        (noStart_no_paren _ _ _ (by decide)))
      (noStart_paren_head _ _ _ (by decide)
        (mTrans_notPrefix_ne T 's' _ (by decide)) hpat)
  rw [show 
        (((("MERGE ".data ++ (rStart S A1 P)) ++ " MERGE ".data) ++ (rEnd S A2 P))
        ++ (" MERGE ".data ++ (('(' :: "start)<-[:SOURCE]-".data) ++ (mTrans T ++
        ("-[:TARGET]->".data ++ (('(' :: "end) MERGE ".data) ++ ((mCond C J) ++
        ("-[:CAUSES]->".data ++ ('(' :: "trans);".data)))))))))
      = (((((("MERGE ".data ++ (rStart S A1 P)) ++ " MERGE ".data) ++ (rEnd S A2 P))
      ++ " MERGE ".data) ++ ('(' :: "start)<-[:SOURCE]-".data)) ++ ((mTrans T) ++
      ("-[:TARGET]->".data ++ (('(' :: "end) MERGE ".data) ++ ((mCond C J) ++
      ("-[:CAUSES]->".data ++ ('(' :: "trans);".data))))))) by simp
      [List.append_assoc]]
  rw [show
        (((((((("MERGE ".data ++ (rStart S A1 P)) ++ " MERGE ".data) ++ (rEnd S A2
        P)) ++ " MERGE ".data) ++ ('(' :: "start)<-[:SOURCE]-".data)) ++ ((mTrans T)
        ++ ("-[:TARGET]->".data ++ (('(' :: "end) MERGE ".data) ++ ((mCond C J) ++
        ("-[:CAUSES]->".data ++ ('(' :: "trans);".data)))))))).length + 1)
      = (((((("MERGE ".data ++ (rStart S A1 P)) ++ " MERGE ".data) ++ (rEnd S A2 P))
      ++ " MERGE ".data) ++ ('(' :: "start)<-[:SOURCE]-".data))).length + 1 +
      (("-[:TARGET]->".data ++ (('(' :: "end) MERGE ".data) ++ ((mCond C J) ++
      ("-[:CAUSES]->".data ++ ('(' :: "trans);".data)))))).length + (mTrans
      T).length by
    simp only [List.length_append]
    omega]
  exact pyReplace_split (mTrans T) (rTrans T P) _ _ _ hne hU k6

theorem replaceStep4 (S T C A1 A2 J P : List Char)
    (hS : plainList S = true) (hT : plainList T = true)
    (hC : plainList C = true) (hA1 : plainList A1 = true)
    (hA2 : plainList A2 = true) (hJ : plainList J = true)
    (hP : plainList P = true) :
    pyReplace
        ((((((((("MERGE ".data ++ (rStart S A1 P)) ++ " MERGE ".data) ++ (rEnd S A2
        P)) ++ " MERGE ".data) ++ ('(' :: "start)<-[:SOURCE]-".data)) ++ (rTrans T
        P)) ++ ("-[:TARGET]->".data ++ (('(' :: "end) MERGE ".data) ++ ((mCond C J)
        ++ ("-[:CAUSES]->".data ++ ('(' :: "trans);".data))))))).length + 1)
        ((((((("MERGE ".data ++ (rStart S A1 P)) ++ " MERGE ".data) ++ (rEnd S A2
        P)) ++ " MERGE ".data) ++ ('(' :: "start)<-[:SOURCE]-".data)) ++ (rTrans T
        P)) ++ ("-[:TARGET]->".data ++ (('(' :: "end) MERGE ".data) ++ ((mCond C J)
        ++ ("-[:CAUSES]->".data ++ ('(' :: "trans);".data))))))
        (mCond C J) (rCond C J P)
      = (((((((((("MERGE ".data ++ (rStart S A1 P)) ++ " MERGE ".data) ++ (rEnd S A2
      P)) ++ " MERGE ".data) ++ ('(' :: "start)<-[:SOURCE]-".data)) ++ (rTrans T P))
      ++ "-[:TARGET]->".data) ++ ('(' :: "end) MERGE ".data)) ++ (rCond C J P)) ++
      ("-[:CAUSES]->".data ++ ('(' :: "trans);".data))) := by
  have hpat : ∃ p', mCond C J = '(' :: p' := ⟨_, rfl⟩
  have hne : mCond C J ≠ [] := by simp [mCond]
  have j10 : NoStart (mCond C J) ('(' :: "trans);".data) [] := by
    refine noStart_paren_head _ _ _ (by decide) ?_ hpat
    rw [List.append_nil]
    exact mCond_notPrefix_ne C J 't' _ (by decide)
  have j9 := noStart_append_nil (mCond C J) "-[:CAUSES]->".data _
    (noStart_no_paren _ _ _ (by decide)) j10
  have hU : NoStart (mCond C J)
      (((((((("MERGE ".data ++ (rStart S A1 P)) ++ " MERGE ".data) ++ (rEnd S A2 P))
      ++ " MERGE ".data) ++ ('(' :: "start)<-[:SOURCE]-".data)) ++ (rTrans T P)) ++
      "-[:TARGET]->".data) ++ ('(' :: "end) MERGE ".data))
      ((mCond C J) ++ ("-[:CAUSES]->".data ++ ('(' :: "trans);".data))) :=
    noStart_append _ _ ('(' :: "end) MERGE ".data) _
      (noStart_append _ _ "-[:TARGET]->".data _
        (noStart_append _ _ (rTrans T P) _
          (noStart_append _ _ ('(' :: "start)<-[:SOURCE]-".data) _
            (noStart_append _ _ " MERGE ".data _
              (noStart_append _ _ (rEnd S A2 P) _
                (noStart_append _ _ " MERGE ".data _
                  (noStart_append _ "MERGE ".data (rStart S A1 P) _
                    (noStart_no_paren _ _ _ (by decide))
                    (noStart_rStart_block (mCond C J) S A1 P _ hS hA1 hP hpat
                      (mCond_notPrefix_ne C J 's' _ (by decide))))
                  (noStart_no_paren _ _ _ (by decide)))
                (noStart_rEnd_block (mCond C J) S A2 P _ hS hA2 hP hpat
                  (mCond_notPrefix_ne C J 'e' _ (by decide))))
              (noStart_no_paren _ _ _ (by decide)))
            (noStart_paren_head _ _ _ (by decide)
              (mCond_notPrefix_ne C J 's' _ (by decide)) hpat))
          (noStart_rTrans_block (mCond C J) T P _ hT hP hpat
            (mCond_notPrefix_ne C J 't' _ (by decide))))
        (noStart_no_paren _ _ _ (by decide)))
      (noStart_paren_head _ _ _ (by decide)
        (mCond_notPrefix_ne C J 'e' _ (by decide)) hpat)
  rw [show 
        ((((((("MERGE ".data ++ (rStart S A1 P)) ++ " MERGE ".data) ++ (rEnd S A2
        P)) ++ " MERGE ".data) ++ ('(' :: "start)<-[:SOURCE]-".data)) ++ (rTrans T
        P)) ++ ("-[:TARGET]->".data ++ (('(' :: "end) MERGE ".data) ++ ((mCond C J)
        ++ ("-[:CAUSES]->".data ++ ('(' :: "trans);".data))))))
      = ((((((((("MERGE ".data ++ (rStart S A1 P)) ++ " MERGE ".data) ++ (rEnd S A2
      P)) ++ " MERGE ".data) ++ ('(' :: "start)<-[:SOURCE]-".data)) ++ (rTrans T P))
      ++ "-[:TARGET]->".data) ++ ('(' :: "end) MERGE ".data)) ++ ((mCond C J) ++
      ("-[:CAUSES]->".data ++ ('(' :: "trans);".data)))) by simp
      [List.append_assoc]]
  rw [show
        ((((((((((("MERGE ".data ++ (rStart S A1 P)) ++ " MERGE ".data) ++ (rEnd S
        A2 P)) ++ " MERGE ".data) ++ ('(' :: "start)<-[:SOURCE]-".data)) ++ (rTrans
        T P)) ++ "-[:TARGET]->".data) ++ ('(' :: "end) MERGE ".data)) ++ ((mCond C
        J) ++ ("-[:CAUSES]->".data ++ ('(' :: "trans);".data))))).length + 1)
      = ((((((((("MERGE ".data ++ (rStart S A1 P)) ++ " MERGE ".data) ++ (rEnd S A2
      P)) ++ " MERGE ".data) ++ ('(' :: "start)<-[:SOURCE]-".data)) ++ (rTrans T P))
      ++ "-[:TARGET]->".data) ++ ('(' :: "end) MERGE ".data))).length + 1 +
      (("-[:CAUSES]->".data ++ ('(' :: "trans);".data))).length + (mCond C J).length
      by
    simp only [List.length_append]
    omega]
  exact pyReplace_split (mCond C J) (rCond C J P) _ _ _ hne hU j9

theorem foldInject_skeleton (S T C A1 A2 J P : List Char)
    (hS : plainList S = true) (hT : plainList T = true)
    (hC : plainList C = true) (hA1 : plainList A1 = true)
    (hA2 : plainList A2 = true) (hJ : plainList J = true)
    (hP : plainList P = true) :
    List.foldl (fun out m => pyReplace (out.length + 1) out m (injectParams m P))
        (skelData S T C A1 A2 J) [mStart S A1, mEnd S A2, mTrans T, mCond C J]
      = resData S T C A1 A2 J P := by
  have bS : ∀ c ∈ S, c ≠ '{' ∧ c ≠ '}' := fun c hc =>
    ⟨(plain_spec c (plainList_mem S hS c hc)).2.2.1,
     (plain_spec c (plainList_mem S hS c hc)).2.2.2⟩
  have bT : ∀ c ∈ T, c ≠ '{' := fun c hc =>
    (plain_spec c (plainList_mem T hT c hc)).2.2.1
  have bC : ∀ c ∈ C, c ≠ '{' ∧ c ≠ '}' := fun c hc =>
    ⟨(plain_spec c (plainList_mem C hC c hc)).2.2.1,
     (plain_spec c (plainList_mem C hC c hc)).2.2.2⟩
  have bA1 : ∀ c ∈ A1, c ≠ '{' ∧ c ≠ '}' := fun c hc =>
    ⟨(plain_spec c (plainList_mem A1 hA1 c hc)).2.2.1,
     (plain_spec c (plainList_mem A1 hA1 c hc)).2.2.2⟩
  have bA2 : ∀ c ∈ A2, c ≠ '{' ∧ c ≠ '}' := fun c hc =>
    ⟨(plain_spec c (plainList_mem A2 hA2 c hc)).2.2.1,
     (plain_spec c (plainList_mem A2 hA2 c hc)).2.2.2⟩
  simp only [List.foldl]
  rw [injectParams_mStart S A1 P bS bA1]
  rw [replaceStep1 S T C A1 A2 J P hS hT hC hA1 hA2 hJ hP]
  rw [injectParams_mEnd S A2 P bS bA2]
  rw [replaceStep2 S T C A1 A2 J P hS hT hC hA1 hA2 hJ hP]
  rw [injectParams_mTrans T P bT]
  rw [replaceStep3 S T C A1 A2 J P hS hT hC hA1 hA2 hJ hP]
  rw [injectParams_mCond C J P bC]
  rw [replaceStep4 S T C A1 A2 J P hS hT hC hA1 hA2 hJ hP]
  simp [resData, List.append_assoc]

theorem addGlobalParams_skeleton (B : String) (S T C A1 A2 J : List Char)
    (g : List (String × PyVal))
    (hB : B.data = skelData S T C A1 A2 J)
    (hg : ∀ p ∈ g, safeStr p.1 = true ∧ safePyVal p.2 = true)
    (hS : plainList S = true) (hT : plainList T = true)
    (hC : plainList C = true) (hA1 : plainList A1 = true)
    (hA2 : plainList A2 = true) (hJ : plainList J = true) :
    addGlobalParamsToQueryString B g
      = (resData S T C A1 A2 J
          (renderParamPairs (sortPairsByKey g)).data).asString := by
  have hP : plainList (renderParamPairs (sortPairsByKey g)).data = true := by
    have h := plain_renderParamPairs (sortPairsByKey g)
      (fun p hp => hg p (mem_sortPairsByKey p g hp))
    exact List.all_eq_true.mpr h
  rw [addGlobalParamsToQueryString]
  simp only [hB, dictToCypherProperties_safe g hg]
  rw [scanNodes_skeleton S T C A1 A2 J hS hT hC hA1 hA2 hJ]
  exact congrArg List.asString
    (foldInject_skeleton S T C A1 A2 J _ hS hT hC hA1 hA2 hJ hP)

/-! ### Claim theorems -/

/-- C1: a full traversal of `GraphLoader.iterqueries` does not yield the
queries of a job registered with extra global parameters: the dict branch of
the loop contains no `yield`, so for a loader holding one such job — whose
single file parses to exactly one query — the traversal completes with zero
queries, instead of yielding that query and then exhausting. -/
theorem c1_global_params_job_yields_no_queries :
    iterqueriesList
        [.withGlobals [("params.cql", "\x7b\"x\": 1\x7d MERGE (n \x7bv:$x\x7d);")]
          [("y", PyVal.vInt 1)]]
      = .ok []
    ∧ (parseCypherFile "params.cql" "\x7b\"x\": 1\x7d MERGE (n \x7bv:$x\x7d);").map
        (fun cf => cf.queries.map (·.statement))
      = .ok ["MERGE (n \x7bv:$x\x7d);"] := by
  exact ⟨by decide, by decide⟩

/-- C2 (amended): within a directory-scan job the files are consumed in
ascending-priority order — the stack built by
`GraphLoader._get_sorted_cypher_files` is popped from its end, so priority-0
files load first and the highest explicit priority loads last; a file with
no explicit priority gets the integer priority `0` at construction, so the
file-count sentinel of `get_priority_number` never applies to it and it ties
with explicit priority 0 instead of sorting above specified priorities; for
explicit priorities `[2, 0, unspecified]` the load order is the
unspecified-priority file, then the priority-0 file, then the priority-2
file. -/
theorem c2_load_order_ascending :
    (∀ files : List CypherFile, (stackLoadOrder files).Pairwise
        (fun a b => getPriorityNumber a (files.length : Int)
          ≤ getPriorityNumber b (files.length : Int)))
    ∧ (∀ (name contents : String) (cf : CypherFile) (m : Int),
        parseCypherFile name contents = .ok cf → cf.prioritySpecified = false →
        getPriorityNumber cf m = 0)
    ∧ (parseFiles [("f2.cql", "\x7b\"priority\": 2\x7d MERGE (a);"),
                   ("f0.cql", "\x7b\"priority\": 0\x7d MERGE (b);"),
                   ("fu.cql", "MERGE (c);")]).map
        (fun fs => (stackLoadOrder fs).map (·.filename))
      = .ok ["fu.cql", "f0.cql", "f2.cql"] := by
  refine ⟨?_, ?_, by decide⟩
  · intro files
    rw [stackLoadOrder, getSortedCypherFiles, List.pairwise_reverse]
    exact pairwise_sortDescBy _ files
  · intro name contents cf m hok hspec
    have hpr := parseCypherFile_priority_default name contents cf hok hspec
    simp [getPriorityNumber, hpr, pyIsInstanceInt, pyIntVal]

/-- C2 witness: the general parts of `c2_load_order_ascending` applied to a
concrete parsed file with no explicit priority. -/
theorem c2_load_order_witness :
    getPriorityNumber ((parseCypherFile "fu.cql" "MERGE (c);").toOption.get!) 5
      = 0 :=
  c2_load_order_ascending.2.1 "fu.cql" "MERGE (c);"
    ((parseCypherFile "fu.cql" "MERGE (c);").toOption.get!) 5
    (by decide) (by decide)

/-- C2 counterexample: for three files with explicit priorities
`[2, 0, unspecified]` (discovered in that order) the consumption order of
the sorted stack is unspecified, priority-0, priority-2 — not the
unspecified, priority-2, priority-0 order the claim requires. -/
theorem c2_priority_example_counterexample :
    (parseFiles [("f2.cql", "\x7b\"priority\": 2\x7d MERGE (a);"),
                 ("f0.cql", "\x7b\"priority\": 0\x7d MERGE (b);"),
                 ("fu.cql", "MERGE (c);")]).map
        (fun fs => (stackLoadOrder fs).map (·.filename))
      = .ok ["fu.cql", "f0.cql", "f2.cql"]
    ∧ (["fu.cql", "f0.cql", "f2.cql"] : List String)
      ≠ ["fu.cql", "f2.cql", "f0.cql"] := by decide

/-- C3 (amended): in a job registered with extra global parameters, a
statement parameter that is still falsy after file-level resolution and has
no entry in the job's global parameters makes the traversal of
`iterqueries` raise a `KeyError` that surfaces to the caller (no query is
yielded with a silent null); the error's message is fixed text plus the
query object's default repr. -/
theorem c3_unresolved_param_hard_error (files : List (String × String))
    (g : ParamMap) (fs : List CypherFile)
    (h1 : parseFiles files = .ok fs)
    (h2 : ∀ f ∈ fs, ∀ q ∈ f.queries, q.params ≠ none)
    (h3 : ∃ f ∈ fs, ∃ q ∈ f.queries, ∃ ps, q.params = some ps ∧
        ∃ kv ∈ ps, truthy kv.2 = false ∧ List.lookup kv.1 g = none) :
    iterqueriesList [.withGlobals files g] = .error (.keyError kErrMsg) := by
  have hall' : ∀ f ∈ iterfilesSorted fs, ∀ q ∈ f.queries, q.params ≠ none :=
    fun f hf => h2 f ((mem_sortDescBy _ f fs).mp hf)
  have hex' : ∃ f ∈ iterfilesSorted fs, ∃ q ∈ f.queries, ∃ ps,
      q.params = some ps ∧
      ∃ kv ∈ ps, truthy kv.2 = false ∧ List.lookup kv.1 g = none := by
    obtain ⟨f0, hf0, rest⟩ := h3
    exact ⟨f0, (mem_sortDescBy _ f0 fs).mpr hf0, rest⟩
  have hpf := processFilesGlobal_error g (iterfilesSorted fs) hall' hex'
  simp [iterqueriesList, processJob, Bind.bind, Except.bind, h1, hpf]

/-- C3 witness: `c3_unresolved_param_hard_error` applied to a concrete
loader whose second statement carries the unresolved placeholder `name2`. -/
theorem c3_hard_error_witness :
    iterqueriesList
        [.withGlobals
          [("f.cql",
            "\x7b\"name1\": \"Sue\"\x7d MERGE (a \x7bx:$name1\x7d); MERGE (b \x7by:$name2\x7d);")]
          [("other", PyVal.vInt 1)]]
      = .error (.keyError kErrMsg) :=
  c3_unresolved_param_hard_error
    [("f.cql",
      "\x7b\"name1\": \"Sue\"\x7d MERGE (a \x7bx:$name1\x7d); MERGE (b \x7by:$name2\x7d);")]
    [("other", PyVal.vInt 1)]
    ((parseFiles
      [("f.cql",
        "\x7b\"name1\": \"Sue\"\x7d MERGE (a \x7bx:$name1\x7d); MERGE (b \x7by:$name2\x7d);")]).toOption.get!)
    (by decide) (by decide) (by decide)

/-- C3 counterexample: the `KeyError` raised for the unresolved placeholder
`name2` has a message that contains neither the placeholder name nor the
offending statement — `str(query)` is the default type-and-address repr
because `CypherQuery` defines no `__repr__` — so the error does not identify
the offending statement and placeholder name as the claim states. -/
theorem c3_error_message_lacks_identifiers :
    iterqueriesList
        [.withGlobals
          [("g.cql",
            "\x7b\"name1\": \"Sue\"\x7d MERGE (a \x7bx:$name1\x7d); MERGE (b \x7by:$name2\x7d);")]
          [("other", PyVal.vInt 1)]]
      = .error (.keyError kErrMsg)
    ∧ containsSeq "name2".data kErrMsg.data = false
    ∧ containsSeq "MERGE (b \x7by:$name2\x7d);".data kErrMsg.data = false := by
  decide

/-- C4: the placeholder scan of `_match_params_to_statement` uses the regex
`(\$)([a-zA-Z1-9]*)`, whose character class omits the digit `0` and whose
star allows an empty name: on `MERGE (n {v:$x0});` with file parameters
`{"x0": "Sue"}` it collects the name `x`, leaves it unresolved, and never
consults the `x0` entry — instead of the claimed `{"x0": "Sue"}` — and a
bare `$` yields the empty placeholder name. -/
theorem c4_placeholder_regex_behaviour :
    matchParamsToStatement "MERGE (n \x7bv:$x0\x7d);" (some [("x0", PyVal.vStr "Sue")])
      = .ok (some [("x", PyVal.vNull)])
    ∧ scanPlaceholders "MERGE (n \x7bv:$x0\x7d);" = ["x"]
    ∧ scanPlaceholders "MERGE (n \x7bv:$\x7d);" = [""] := by decide

/-- C9 (amended): `CypherQuerySource` construction succeeds exactly for the
two recognized kinds `cypher` and `tabular`; any other kind — including
`file` — is rejected at construction with a `ValueError`. -/
theorem c9_ref_type_validation (ref rt : String) (idx : Nat) :
    (∃ s, mkCypherQuerySource ref rt idx = .ok s)
      ↔ rt = "cypher" ∨ rt = "tabular" := by
  constructor
  · intro ⟨s, hs⟩
    by_cases h : rt = "cypher" ∨ rt = "tabular"
    · exact h
    · rw [mkCypherQuerySource, if_neg h] at hs
      exact Except.noConfusion hs
  · intro h
    exact ⟨⟨ref, rt, idx⟩, by rw [mkCypherQuerySource, if_pos h]⟩

/-- C9 counterexample: the kind `file` named by the claim is rejected with a
`ValueError`, while the kind actually recognized alongside `tabular` is
`cypher`. -/
theorem c9_file_kind_counterexample :
    mkCypherQuerySource "queries.cql" "file" 0
      = .error (.valueError
        "CypherQuerySource.ref_type must be either 'cypher' or 'tabular'")
    ∧ mkCypherQuerySource "queries.cql" "cypher" 0
      = .ok ⟨"queries.cql", "cypher", 0⟩ := by decide

/-- C10: job-level global-parameter resolution collects
`[k for k in query.params if not query.params[k]]` — every key whose value
is falsy, not only the explicit `None` marker — and for each such key either
overwrites it with the global value or raises the unresolved-parameter
`KeyError` when the global parameters have no entry for it. -/
theorem c10_falsy_params_unresolved (ps g : ParamMap) (k : String) (v : PyVal)
    (hmem : (k, v) ∈ ps) (hfal : truthy v = false) :
    (∀ w : PyVal, List.lookup k g = some w →
        ∀ res : ParamMap, globalResolve ps g = .ok res →
          List.lookup k res = some w)
    ∧ (List.lookup k g = none →
        globalResolve ps g = .error (.keyError kErrMsg)) := by
  constructor
  · intro w hw res hres
    have hkmem : k ∈ (ps.filter (fun p => !truthy p.2)).map (·.1) :=
      List.mem_map.mpr ⟨(k, v),
        List.mem_filter.mpr ⟨hmem, by simp [hfal]⟩, rfl⟩
    -- once `k` is resolved its value is never changed by later keys
    suffices haux : ∀ (ks : List String) (acc res' : ParamMap),
        globalResolveAux g acc ks = .ok res' → k ∈ ks →
        List.lookup k res' = some w by
      exact haux _ ps res hres hkmem
    intro ks
    induction ks with
    | nil => intro _ _ _ hk; simp at hk
    | cons k' ks' ih =>
        intro acc res' hok hk
        cases hl : List.lookup k' g with
        | none => rw [globalResolveAux, hl] at hok; exact Except.noConfusion hok
        | some v' =>
            rw [globalResolveAux, hl] at hok
            by_cases hk' : k ∈ ks'
            · exact ih _ res' hok hk'
            · have hkk : k = k' := by
                rcases List.mem_cons.mp hk with h | h
                · exact h
                · exact absurd h hk'
              subst hkk
              have hv' : v' = w := by rw [hl] at hw; exact (Option.some.injEq _ _ ▸ hw).symm ▸ rfl
              -- frame: keys of `ks'` leave the entry for `k` unchanged
              have hframe : ∀ (ks'' : List String) (acc'' res'' : ParamMap),
                  globalResolveAux g acc'' ks'' = .ok res'' → k ∉ ks'' →
                  List.lookup k res'' = List.lookup k acc'' := by
                intro ks''
                induction ks'' with
                | nil =>
                    intro acc'' res'' hok'' _
                    rw [globalResolveAux] at hok''
                    cases hok''
                    rfl
                | cons j js ihj =>
                    intro acc'' res'' hok'' hnot
                    cases hlj : List.lookup j g with
                    | none =>
                        rw [globalResolveAux, hlj] at hok''
                        exact Except.noConfusion hok''
                    | some vj =>
                        rw [globalResolveAux, hlj] at hok''
                        have hne : j ≠ k := fun he => hnot (by simp [he])
                        rw [ihj _ res'' hok'' (fun hkj => hnot (by simp [hkj]))]
                        exact lookup_dictInsert_ne _ _ _ _ hne
              rw [hframe ks' _ res' hok hk']
              rw [lookup_dictInsert_self]
              rw [hv']
  · intro hnone
    exact globalResolve_error_of_offender ps g ⟨(k, v), hmem, hfal, hnone⟩

/-- C10 witness: `c10_falsy_params_unresolved` applied to the falsy file
values `0`, `False` and `""`: the first two are overwritten by the global
value, the last raises the `KeyError`. -/
theorem c10_falsy_params_witness :
    List.lookup "a"
        ((globalResolve [("a", PyVal.vInt 0)] [("a", PyVal.vInt 7)]).toOption.get!)
      = some (PyVal.vInt 7)
    ∧ List.lookup "b"
        ((globalResolve [("b", PyVal.vBool false)]
          [("b", PyVal.vStr "yes")]).toOption.get!)
      = some (PyVal.vStr "yes")
    ∧ globalResolve [("c", PyVal.vStr "")] [("d", PyVal.vInt 1)]
      = .error (.keyError kErrMsg) :=
  ⟨(c10_falsy_params_unresolved [("a", PyVal.vInt 0)] [("a", PyVal.vInt 7)]
      "a" (PyVal.vInt 0) (by decide) (by decide)).1 (PyVal.vInt 7) (by decide)
      _ (by decide),
   (c10_falsy_params_unresolved [("b", PyVal.vBool false)] [("b", PyVal.vStr "yes")]
      "b" (PyVal.vBool false) (by decide) (by decide)).1 (PyVal.vStr "yes") (by decide)
      _ (by decide),
   (c10_falsy_params_unresolved [("c", PyVal.vStr "")] [("d", PyVal.vInt 1)]
      "c" (PyVal.vStr "") (by decide) (by decide)).2 (by decide)⟩

/-- C5 (amended): splitting the post-parameter-block remainder on `;` yields
one statement per fragment containing a non-space character, each
left-stripped and re-terminated with `;` (so every produced statement ends
in `;`); text without any terminator that contains a non-space character
yields the single statement `lstrip(text) + ";"`; `"a; b; c;"` yields
exactly the three statements `a; b; c;` and `"a"` yields exactly `a;`.
Fragments made of whitespace other than the space character are not
discarded. -/
theorem c5_statement_split :
    (∀ s : String, ∀ q ∈ splitStatements s, q.data.getLast? = some ';')
    ∧ (∀ s : String, ';' ∉ s.data → s.data.any (fun c => c != ' ') = true →
        splitStatements s = [pyLstrip s ++ ";"])
    ∧ splitStatements "a; b; c;" = ["a;", "b;", "c;"]
    ∧ splitStatements "a" = ["a;"] := by
  refine ⟨?_, ?_, by decide, by decide⟩
  · intro s q hq
    obtain ⟨frag, _, rfl⟩ := List.mem_map.mp hq
    rw [String.data_append]
    simp
  · intro s hnosep hany
    rw [splitStatements, splitOnChar, splitOnCharAux_of_not_mem ';' [] s.data hnosep]
    simp only [List.reverse_nil, List.nil_append, List.filter_cons,
      List.filter_nil, hany, if_true, List.map_cons, List.map_nil]
    rw [asString_data]

/-- C5 witness: `c5_statement_split` applied to concrete splits. -/
theorem c5_statement_split_witness :
    ("a;" ∈ splitStatements "a; b; c;")
    ∧ ("a;" : String).data.getLast? = some ';'
    ∧ splitStatements "x" = [pyLstrip "x" ++ ";"] :=
  ⟨by decide,
   c5_statement_split.1 "a; b; c;" "a;" (by decide),
   c5_statement_split.2.1 "x" (by decide) (by decide)⟩

/-- C5 counterexample: the fragment `"\t"` of `"a;\t"` is pure whitespace,
which the claim says is discarded (leaving exactly one statement), but the
code only discards fragments that are empty after removing the space
character, so the tab fragment survives as the bare statement `";"` and two
statements are produced. -/
theorem c5_tab_fragment_counterexample :
    splitStatements "a;\t" = ["a;", ";"]
    ∧ (splitStatements "a;\t").length ≠ 1 := by decide

/-- C6 (amended): when the keyword-anchored extraction selects a prefix that
parses as a JSON object containing a `priority` key with value `N`, the
parsed record's priority is `N` and the `priority` key is removed from the
exposed file parameters; a file whose text does not begin (after
whitespace) with `{` and whose statements contain no `$` parses with
priority `0` and no parameter mapping.  (When the greedy match grabs beyond
the leading object — or when a placeholder occurs without any parameter
block — parsing raises instead of producing a record.) -/
theorem c6_priority_extraction (name contents : String) :
    (∀ (j : Nat) (obj : ParamMap) (v : PyVal),
        kwExtract (removeCommentsAndNewlines contents).data = some j →
        jsonLoads ((removeCommentsAndNewlines contents).data.take j).asString
          = some obj →
        List.lookup "priority" obj = some v →
        ∃ cf, parseCypherFile name contents = .ok cf ∧ cf.priority = v ∧
          cf.params = some (dictErase obj "priority") ∧
          List.lookup "priority" cf.params.get! = none)
    ∧ (leadingBraceIdx (removeCommentsAndNewlines contents).data = none →
        '$' ∉ (removeCommentsAndNewlines contents).data →
        ∃ cf, parseCypherFile name contents = .ok cf ∧
          cf.priority = .vInt 0 ∧ cf.params = none) := by
  constructor
  · intro j obj v hkw hjson hlook
    have hext : extractParameters contents
        = .ok (some (dictErase obj "priority"),
            ((removeCommentsAndNewlines contents).data.drop j).asString, v, true) := by
      rw [extractParameters, extractParametersDat]
      simp only [hkw, hjson, hlook]
    obtain ⟨qs, hqs⟩ := buildQueries_ok_of_params_some name
      (dictErase obj "priority") 0
      (splitStatements ((removeCommentsAndNewlines contents).data.drop j).asString)
    refine ⟨⟨name, v, true, some (dictErase obj "priority"), qs⟩, ?_, rfl, rfl, ?_⟩
    · rw [parseCypherFile]
      simp only [hext, Bind.bind, Except.bind, hqs]
    · simpa using lookup_dictErase_self obj "priority"
  · intro hbrace hdollar
    have hkw : kwExtract (removeCommentsAndNewlines contents).data = none :=
      kwExtract_none_of_no_brace _ hbrace
    have hext : extractParameters contents
        = .ok (none, removeCommentsAndNewlines contents, .vInt 0, false) := by
      rw [extractParameters, extractParametersDat]
      simp only [hkw]
    have hstmts : ∀ s ∈ splitStatements (removeCommentsAndNewlines contents),
        '$' ∉ s.data := by
      intro s hs hmem
      rcases mem_of_mem_splitStatements _ s hs '$' hmem with h | h
      · exact hdollar h
      · simp at h
    obtain ⟨qs, hqs⟩ := buildQueries_ok_of_no_dollar name 0
      (splitStatements (removeCommentsAndNewlines contents)) hstmts
    refine ⟨⟨name, .vInt 0, false, none, qs⟩, ?_, rfl, rfl⟩
    rw [parseCypherFile]
    simp only [hext, Bind.bind, Except.bind, hqs]

/-- C6 witness: `c6_priority_extraction` applied to a file whose leading
object carries `priority 5` and one more parameter, and to a file with no
leading object. -/
theorem c6_priority_extraction_witness :
    (∃ cf, parseCypherFile "w.cql" "\x7b\"priority\": 5, \"k\": 1\x7d MERGE (n);"
        = .ok cf ∧ cf.priority = PyVal.vInt 5 ∧
        cf.params = some (dictErase
          [("priority", PyVal.vInt 5), ("k", PyVal.vInt 1)] "priority") ∧
        List.lookup "priority" cf.params.get! = none)
    ∧ (∃ cf, parseCypherFile "w2.cql" "MERGE (n);" = .ok cf ∧
        cf.priority = PyVal.vInt 0 ∧ cf.params = none) :=
  ⟨(c6_priority_extraction "w.cql" "\x7b\"priority\": 5, \"k\": 1\x7d MERGE (n);").1
      24 [("priority", PyVal.vInt 5), ("k", PyVal.vInt 1)] (PyVal.vInt 5)
      (by decide) (by decide) (by decide),
   (c6_priority_extraction "w2.cql" "MERGE (n);").2 (by decide) (by decide)⟩

/-- C6 counterexample: a file whose well-formed leading object is
`{"priority": 3}` but whose body contains the characters `} MATCH` inside a
string literal: the greedy keyword-anchored match extends to the later
occurrence, the extracted prefix is not valid JSON, and `CypherFile`
construction raises a JSON-decode error instead of producing a record with
priority `3` as the claim requires. -/
theorem c6_greedy_extraction_counterexample :
    parseCypherFile "bad.cql"
        "\x7b\"priority\": 3\x7d MATCH (n) WHERE n.x = \"\x7d MATCH\" RETURN n;"
      = .error .jsonDecodeError
    ∧ jsonLoads "\x7b\"priority\": 3\x7d" = some [("priority", PyVal.vInt 3)] := by
  decide

/-- C7 (amended): the condition node's properties are rendered in the row's
residual column order — the order of the columns after dropping the two
state columns, not sorted by key — comma-joined, with string values
double-quoted and boolean values as lowercase literals: the counter loop of
`_conditions_str` equals the comma-join of `key:value` pairs in list
order, so the emitted properties follow the input column order and the
output is not invariant under permutation of the input columns. -/
theorem c7_condition_props_column_order :
    (∀ cells : Row, condCore cells = renderPairsJoin cells)
    ∧ (∀ (row : Row) (startCol endCol : String) (cells : Row),
        seriesDrop row startCol endCol = .ok cells →
        conditionsStr row startCol endCol
          = .ok ("\x7b" ++ renderPairsJoin cells ++ "\x7d"))
    ∧ condCore [("cond2", .cInt 3), ("cond1", .cStr "high"), ("cond3", .cBool false)]
      = "cond2:3, cond1:\"high\", cond3:false" := by
  refine ⟨condCore_eq_join, ?_, by decide⟩
  intro row startCol endCol cells hdrop
  rw [conditionsStr]
  simp only [Bind.bind, Except.bind, hdrop, condCore_eq_join]

/-- C7 witness: `c7_condition_props_column_order` applied to the demo row of
the repository's tabular tests. -/
theorem c7_condition_props_witness :
    conditionsStr [("start", CellVal.cStr "state1"), ("end", CellVal.cStr "state2"),
        ("cond", CellVal.cStr "low")] "start" "end"
      = .ok ("\x7b" ++ renderPairsJoin [("cond", CellVal.cStr "low")] ++ "\x7d") :=
  c7_condition_props_column_order.2.1
    [("start", CellVal.cStr "state1"), ("end", CellVal.cStr "state2"),
      ("cond", CellVal.cStr "low")]
    "start" "end" [("cond", CellVal.cStr "low")] (by decide)

/-- C7 counterexample: for the columns `{cond2: 3, cond1: "high",
cond3: false}` (in that order) the condition properties render as
`cond2:3, cond1:"high", cond3:false`, not in the claimed sorted order, and
permuting the input columns changes the emitted query statement. -/
theorem c7_condition_order_counterexample :
    conditionsStr [("start", CellVal.cStr "s1"), ("end", CellVal.cStr "s2"),
        ("cond2", CellVal.cInt 3), ("cond1", CellVal.cStr "high"),
        ("cond3", CellVal.cBool false)] "start" "end"
      = .ok "\x7bcond2:3, cond1:\"high\", cond3:false\x7d"
    ∧ "\x7bcond2:3, cond1:\"high\", cond3:false\x7d"
      ≠ "\x7bcond1:\"high\", cond2:3, cond3:false\x7d"
    ∧ rowToQueryStatementString {} "start" "end" none
        [("start", CellVal.cStr "s1"), ("end", CellVal.cStr "s2"),
          ("cond2", CellVal.cInt 3), ("cond1", CellVal.cStr "high"),
          ("cond3", CellVal.cBool false)]
      ≠ rowToQueryStatementString {} "start" "end" none
        [("start", CellVal.cStr "s1"), ("end", CellVal.cStr "s2"),
          ("cond1", CellVal.cStr "high"), ("cond2", CellVal.cInt 3),
          ("cond3", CellVal.cBool false)] := by
  decide

/-- C8: when a non-empty global parameter mapping is supplied to the tabular
generator, every one of the four node patterns of the emitted statement has
the global mapping's key/value pairs — sorted by key and rendered by
`_dict_to_cypher_properties` — appended after that node's row-derived
properties, and a property block is synthesized for the transition node,
which originally has none.  Proved for rows and labels whose rendered
fragments are free of the regex metacharacters `(`, `)`, `{`, `}` and for
global parameters with alphanumeric keys and safe values (as in the
repository's tests); outside that domain the regex rewriting of
`_add_global_params_to_query_string` has no such guarantee. -/
theorem c8_global_param_injection (labels : CustomLabels)
    (startCol endCol : String) (g : List (String × PyVal)) (row : Row)
    (sv ev : CellVal) (cells : Row)
    (hsv : rowLookup row startCol = .ok sv)
    (hev : rowLookup row endCol = .ok ev)
    (hcells : seriesDrop row startCol endCol = .ok cells)
    (hgne : g ≠ [])
    (hg : ∀ p ∈ g, safeStr p.1 = true ∧ safePyVal p.2 = true)
    (hS : plainList labels.state.data = true)
    (hT : plainList labels.transition.data = true)
    (hC : plainList labels.condition.data = true)
    (hA1 : plainList (cellFmt sv).data = true)
    (hA2 : plainList (cellFmt ev).data = true)
    (hJ : plainList (renderPairsJoin cells).data = true) :
    rowToQueryStatementString labels startCol endCol (some g) row
      = .ok ("MERGE (start:" ++ labels.state ++ " \x7bcode:\"" ++ cellFmt sv
          ++ "\", " ++ renderParamPairs (sortPairsByKey g)
          ++ "\x7d) MERGE (end:" ++ labels.state ++ " \x7bcode:\"" ++ cellFmt ev
          ++ "\", " ++ renderParamPairs (sortPairsByKey g)
          ++ "\x7d) MERGE (start)<-[:SOURCE]-(trans:" ++ labels.transition
          ++ " \x7b" ++ renderParamPairs (sortPairsByKey g)
          ++ "\x7d)-[:TARGET]->(end) MERGE (cond:" ++ labels.condition
          ++ " \x7b" ++ renderPairsJoin cells ++ ", "
          ++ renderParamPairs (sortPairsByKey g)
          ++ "\x7d)-[:CAUSES]->(trans);") := by
  have hcond : conditionsStr row startCol endCol
      = .ok ("\x7b" ++ renderPairsJoin cells ++ "\x7d") := by
    rw [conditionsStr]
    simp only [Bind.bind, Except.bind, hcells, condCore_eq_join]
  have hbase : rowStatementBase labels startCol endCol row
      = .ok ("MERGE (start:" ++ labels.state ++ " \x7bcode:\"" ++ cellFmt sv
          ++ "\"\x7d)" ++ " " ++ "MERGE (end:" ++ labels.state ++ " \x7bcode:\""
          ++ cellFmt ev ++ "\"\x7d)" ++ " "
          ++ "MERGE (start)<-[:SOURCE]-(trans:" ++ labels.transition
          ++ ")-[:TARGET]->(end)" ++ " " ++ "MERGE (cond:" ++ labels.condition
          ++ " " ++ ("\x7b" ++ renderPairsJoin cells ++ "\x7d")
          ++ ")-[:CAUSES]->(trans)" ++ ";") := by
    rw [rowStatementBase]
    simp only [Bind.bind, Except.bind, hsv, hev, hcond]
  have hBdata : ("MERGE (start:" ++ labels.state ++ " \x7bcode:\"" ++ cellFmt sv
        ++ "\"\x7d)" ++ " " ++ "MERGE (end:" ++ labels.state ++ " \x7bcode:\""
        ++ cellFmt ev ++ "\"\x7d)" ++ " "
        ++ "MERGE (start)<-[:SOURCE]-(trans:" ++ labels.transition
        ++ ")-[:TARGET]->(end)" ++ " " ++ "MERGE (cond:" ++ labels.condition
        ++ " " ++ ("\x7b" ++ renderPairsJoin cells ++ "\x7d")
        ++ ")-[:CAUSES]->(trans)" ++ ";").data
      = skelData labels.state.data labels.transition.data labels.condition.data
          (cellFmt sv).data (cellFmt ev).data (renderPairsJoin cells).data := by
    simp only [String.data_append, skelData, mStart, mEnd, mTrans, mCond,
      List.append_assoc, List.cons_append, List.nil_append, List.append_nil]
  have hres : (resData labels.state.data labels.transition.data
        labels.condition.data (cellFmt sv).data (cellFmt ev).data
        (renderPairsJoin cells).data
        (renderParamPairs (sortPairsByKey g)).data).asString
      = ("MERGE (start:" ++ labels.state ++ " \x7bcode:\"" ++ cellFmt sv
          ++ "\", " ++ renderParamPairs (sortPairsByKey g)
          ++ "\x7d) MERGE (end:" ++ labels.state ++ " \x7bcode:\"" ++ cellFmt ev
          ++ "\", " ++ renderParamPairs (sortPairsByKey g)
          ++ "\x7d) MERGE (start)<-[:SOURCE]-(trans:" ++ labels.transition
          ++ " \x7b" ++ renderParamPairs (sortPairsByKey g)
          ++ "\x7d)-[:TARGET]->(end) MERGE (cond:" ++ labels.condition
          ++ " \x7b" ++ renderPairsJoin cells ++ ", "
          ++ renderParamPairs (sortPairsByKey g)
          ++ "\x7d)-[:CAUSES]->(trans);") := by
    rw [show resData labels.state.data labels.transition.data
          labels.condition.data (cellFmt sv).data (cellFmt ev).data
          (renderPairsJoin cells).data
          (renderParamPairs (sortPairsByKey g)).data
        = ("MERGE (start:" ++ labels.state ++ " \x7bcode:\"" ++ cellFmt sv
            ++ "\", " ++ renderParamPairs (sortPairsByKey g)
            ++ "\x7d) MERGE (end:" ++ labels.state ++ " \x7bcode:\"" ++ cellFmt ev
            ++ "\", " ++ renderParamPairs (sortPairsByKey g)
            ++ "\x7d) MERGE (start)<-[:SOURCE]-(trans:" ++ labels.transition
            ++ " \x7b" ++ renderParamPairs (sortPairsByKey g)
            ++ "\x7d)-[:TARGET]->(end) MERGE (cond:" ++ labels.condition
            ++ " \x7b" ++ renderPairsJoin cells ++ ", "
            ++ renderParamPairs (sortPairsByKey g)
            ++ "\x7d)-[:CAUSES]->(trans);").data by
      simp only [String.data_append, resData, rStart, rEnd, rTrans, rCond,
        List.append_assoc, List.cons_append, List.nil_append, List.append_nil]]
    exact asString_data _
  rw [rowToQueryStatementString]
  simp only [Bind.bind, Except.bind, hbase]
  rw [if_neg (by simp [hgne])]
  rw [addGlobalParams_skeleton _ labels.state.data labels.transition.data
    labels.condition.data (cellFmt sv).data (cellFmt ev).data
    (renderPairsJoin cells).data g hBdata hg hS hT hC hA1 hA2 hJ]
  rw [hres]

/-- C8 witness: `c8_global_param_injection` applied to the demo row and
global parameters of the repository's tabular tests: every node of the
emitted statement carries `id:"test-id", version:2` after its row-derived
properties, and the transition node's property block is synthesized. -/
theorem c8_global_param_injection_witness :
    rowToQueryStatementString {} "start" "end"
        (some [("id", PyVal.vStr "test-id"), ("version", PyVal.vInt 2)])
        [("start", CellVal.cStr "state1"), ("end", CellVal.cStr "state2"),
          ("cond", CellVal.cStr "low")]
      = .ok ("MERGE (start:" ++ ({} : CustomLabels).state ++ " \x7bcode:\""
          ++ cellFmt (CellVal.cStr "state1")
          ++ "\", " ++ renderParamPairs (sortPairsByKey
              [("id", PyVal.vStr "test-id"), ("version", PyVal.vInt 2)])
          ++ "\x7d) MERGE (end:" ++ ({} : CustomLabels).state ++ " \x7bcode:\""
          ++ cellFmt (CellVal.cStr "state2")
          ++ "\", " ++ renderParamPairs (sortPairsByKey
              [("id", PyVal.vStr "test-id"), ("version", PyVal.vInt 2)])
          ++ "\x7d) MERGE (start)<-[:SOURCE]-(trans:"
          ++ ({} : CustomLabels).transition
          ++ " \x7b" ++ renderParamPairs (sortPairsByKey
              [("id", PyVal.vStr "test-id"), ("version", PyVal.vInt 2)])
          ++ "\x7d)-[:TARGET]->(end) MERGE (cond:" ++ ({} : CustomLabels).condition
          ++ " \x7b" ++ renderPairsJoin [("cond", CellVal.cStr "low")] ++ ", "
          ++ renderParamPairs (sortPairsByKey
              [("id", PyVal.vStr "test-id"), ("version", PyVal.vInt 2)])
          ++ "\x7d)-[:CAUSES]->(trans);") :=
  c8_global_param_injection {} "start" "end"
    [("id", PyVal.vStr "test-id"), ("version", PyVal.vInt 2)]
    [("start", CellVal.cStr "state1"), ("end", CellVal.cStr "state2"),
      ("cond", CellVal.cStr "low")]
    (CellVal.cStr "state1") (CellVal.cStr "state2")
    [("cond", CellVal.cStr "low")]
    (by decide) (by decide) (by decide) (by decide) (by decide)
    (by decide) (by decide) (by decide) (by decide) (by decide) (by decide)

end Cymod
